import Mathlib

/-!
# The segment assembler of `lib/producer.js`

A shallow embedding of the producer: the alignment padder, the three box
encoders, the per-entry resolver, the virtual-filesystem index and the
segment sequencer that `multistream` drives, followed by the properties
proved about them.

Conventions of the embedding.

* A `Buffer` is the list of its bytes, each a natural number below 256.
* A JavaScript string is a Lean `String`: a sequence of Unicode scalar values,
  that is, a well-formed JavaScript string.  `Buffer.from(string)` and
  `new Buffer(string)` are the UTF-8 encoding.  Where the bytes of a string are
  read back (the option strings) a string is, in general, the list of its
  UTF-16 code units, unpaired surrogates included (`Buffer.fromUtf16`); the two
  encodings agree on well-formed strings.
* Byte counts (`meter.bytes`, `payloadPos`, `payloadLength`) are natural
  numbers.
* The collaborators (`fs.createReadStream`, `compile`) are the two fields of a
  `World`; the stream of `fs.createWriteStream` is a `WriteStream`.
-/

namespace Producer

/-! ## Buffers -/

/-- A Node.js `Buffer`, as the list of its bytes. -/
abbrev Buffer := List Nat

/-- `Buffer.alloc(size)`: a zero-filled buffer of `size` bytes. -/
def Buffer.alloc (size : Nat) : Buffer := List.replicate size 0

/-- `new Buffer(size)`: a buffer of `size` bytes.  The runtime leaves the
contents unspecified; they are taken to be zero here, and every caller
overwrites all of them. -/
def Buffer.new (size : Nat) : Buffer := List.replicate size 0

/-- `Buffer.concat(list)`. -/
def Buffer.concat (list : List Buffer) : Buffer := list.flatten

/-- The UTF-8 encoding of one Unicode scalar value. -/
def utf8EncodeChar (c : Char) : List Nat :=
  let v := c.toNat
  if v < 0x80 then [v]
  else if v < 0x800 then [0xC0 + v / 64, 0x80 + v % 64]
  else if v < 0x10000 then [0xE0 + v / 4096, 0x80 + v / 64 % 64, 0x80 + v % 64]
  else [0xF0 + v / 262144, 0x80 + v / 4096 % 64, 0x80 + v / 64 % 64, 0x80 + v % 64]

/-- `Buffer.from(string)` and `new Buffer(string)`: the UTF-8 bytes of the
string. -/
def Buffer.from (s : String) : Buffer := s.data.flatMap utf8EncodeChar

/-- `buf.writeInt32LE(value, offset)` for a non-negative `value`: fails with a
range error when the value does not fit a signed 32-bit integer or the four
bytes do not fit the buffer; otherwise stores the four bytes, least significant
first. -/
def writeInt32LE (buf : Buffer) (value : Nat) (offset : Nat) : Except String Buffer :=
  if 0x7fffffff < value then .error "RangeError: value out of bounds"
  else if buf.length < offset + 4 then .error "RangeError: index out of range"
  else .ok ((((buf.set offset (value % 256)).set (offset + 1) (value / 256 % 256)).set
    (offset + 2) (value / 65536 % 256)).set (offset + 3) (value / 16777216 % 256))

/-- The decoder used to state the round trip of a box header: the signed
32-bit little-endian integer stored at `offset` (bytes that are not there read
as zero). -/
def readInt32LE (buf : Buffer) (offset : Nat) : Int :=
  let u := buf.getD offset 0 + 256 * buf.getD (offset + 1) 0 + 65536 * buf.getD (offset + 2) 0
    + 16777216 * buf.getD (offset + 3) 0
  if u < 2147483648 then (u : Int) else (u : Int) - 4294967296

/-! ## Constants and alignment padder (lines 10-18) -/

/-- The `prepend` constant of line 10. -/
def prepend : String :=
  "(function(process, require, console, EXECPATH_FD, PAYLOAD_POSITION, PAYLOAD_SIZE) \x7b "

/-- The `append` constant of line 11. -/
def append : String := "\n\x7d)"

/-- The `boundary` constant of line 12. -/
def boundary : Nat := 4096

/-- `paddingBuffer(size)` of lines 14-18. -/
def paddingBuffer (size : Nat) : Buffer :=
  let remainder := size % boundary
  let padding := if remainder = 0 then 0 else boundary - remainder
  Buffer.alloc padding

/-! ## Box encoders (lines 20-54) -/

/-- The `parts` array of `makeBakeryBoxFromOptions` after the loop of lines
22-25 and the push of line 26. -/
def bakeryParts (options : List String) : List Buffer :=
  options.foldl (fun parts o => parts ++ [Buffer.from o, Buffer.alloc 1]) [] ++ [Buffer.alloc 1]

/-- `makeBakeryBoxFromOptions(options)` of lines 20-35. -/
def makeBakeryBoxFromOptions (options : List String) : Except String Buffer := do
  let buffer := Buffer.concat (bakeryParts options)
  let sentinel := Buffer.new 16
  let sentinel ← writeInt32LE sentinel 0x4818c4df 0
  let sentinel ← writeInt32LE sentinel 0x7ac30670 4
  let sentinel ← writeInt32LE sentinel 0x56558a76 8
  let sentinel ← writeInt32LE sentinel buffer.length 12
  return Buffer.concat [sentinel, buffer]

/-- `makePreludeBoxFromPrelude(prelude)` of lines 37-45. -/
def makePreludeBoxFromPrelude (prelude : String) : Except String Buffer := do
  let buffer := Buffer.from (prepend ++ prelude ++ append)
  let sentinel := Buffer.new 16
  let sentinel ← writeInt32LE sentinel 0x26e0c928 0
  let sentinel ← writeInt32LE sentinel 0x41f32b66 4
  let sentinel ← writeInt32LE sentinel 0x3ea13ccf 8
  let sentinel ← writeInt32LE sentinel buffer.length 12
  return Buffer.concat [sentinel, buffer]

/-- `makePayloadHeader()` of lines 47-54. -/
def makePayloadHeader : Except String Buffer := do
  let sentinel := Buffer.new 16
  let sentinel ← writeInt32LE sentinel 0x75148eba 0
  let sentinel ← writeInt32LE sentinel 0x6fbda9b4 4
  let sentinel ← writeInt32LE sentinel 0x2e20c08d 8
  let sentinel ← writeInt32LE sentinel 0 12
  return sentinel

/-! ## Strings: `String.prototype.replace` and `JSON.stringify` -/

/-- The index of the first occurrence of `searchValue` in a string, counted
from `i` at the head of the list: `String.prototype.indexOf`. -/
def indexOfFrom (searchValue : List Char) : List Char → Nat → Option Nat
  | [], i => if searchValue.isPrefixOf [] then some i else none
  | c :: s, i =>
    if searchValue.isPrefixOf (c :: s) then some i else indexOfFrom searchValue s (i + 1)

/-- The abstract operation GetSubstitution of ECMAScript for a string search
value (no captures): in the replacement text `$$` stands for `$`, `$&` for the
matched text, a dollar followed by a grave accent for the text before the
match, a dollar followed by an apostrophe for the text after it; every other
character, a dollar included, stands for itself. -/
def getSubstitution (matched before after : List Char) : List Char → List Char
  | [] => []
  | [c] => [c]
  | c :: d :: r =>
    if c = '$' then
      if d = '$' then '$' :: getSubstitution matched before after r
      else if d = '&' then matched ++ getSubstitution matched before after r
      else if d = Char.ofNat 96 then before ++ getSubstitution matched before after r
      else if d = Char.ofNat 39 then after ++ getSubstitution matched before after r
      else c :: getSubstitution matched before after (d :: r)
    else c :: getSubstitution matched before after (d :: r)

/-- `str.replace(searchValue, replaceValue)` with both arguments strings: the
first occurrence of `searchValue`, if there is one, is replaced by the
expansion of `replaceValue`. -/
def jsReplace (str searchValue replaceValue : String) : String :=
  match indexOfFrom searchValue.data str.data 0 with
  | none => str
  | some pos =>
    let before := str.data.take pos
    let after := str.data.drop (pos + searchValue.data.length)
    String.mk (before ++ getSubstitution searchValue.data before after replaceValue.data ++ after)

/-- A hexadecimal digit in lower case. -/
def hexDigit (n : Nat) : Char := if n < 10 then Char.ofNat (48 + n) else Char.ofNat (87 + n)

/-- The part of QuoteJSONString for one character of a well-formed string. -/
def quoteJSONChar (c : Char) : List Char :=
  let v := c.toNat
  if v = 8 then [Char.ofNat 92, 'b']
  else if v = 9 then [Char.ofNat 92, 't']
  else if v = 10 then [Char.ofNat 92, 'n']
  else if v = 12 then [Char.ofNat 92, 'f']
  else if v = 13 then [Char.ofNat 92, 'r']
  else if v = 34 then [Char.ofNat 92, Char.ofNat 34]
  else if v = 92 then [Char.ofNat 92, Char.ofNat 92]
  else if v < 32 then [Char.ofNat 92, 'u', '0', '0', hexDigit (v / 16), hexDigit (v % 16)]
  else [c]

/-- The operation QuoteJSONString on a well-formed string. -/
def quoteJSONString (s : String) : String :=
  String.mk (Char.ofNat 34 :: s.data.flatMap quoteJSONChar ++ [Char.ofNat 34])

/-- The number a property key denotes when it is an array index (a canonical
decimal numeral below 2^32 - 1); such keys are enumerated before all others, in
ascending order. -/
def arrayIndex? (k : String) : Option Nat :=
  if k.data ≠ [] ∧ k.data.all Char.isDigit ∧ (k.data.head? ≠ some '0' ∨ k.data.length = 1) then
    let n := k.data.foldl (fun a c => 10 * a + (c.toNat - 48)) 0
    if n < 4294967295 then some n else none
  else none

/-- Insertion of an indexed entry into a list sorted by index. -/
def insertByIndex {α : Type} (e : Nat × α) : List (Nat × α) → List (Nat × α)
  | [] => [e]
  | x :: xs => if e.1 ≤ x.1 then e :: x :: xs else x :: insertByIndex e xs

/-- The own properties of an object with string keys in the order in which
`JSON.stringify` visits them: array-index keys in ascending order, then the
other keys in order of creation. -/
def ownEntries {α : Type} (o : List (String × α)) : List (String × α) :=
  ((o.filterMap (fun e => (arrayIndex? e.1).map (fun n => (n, e)))).foldr insertByIndex []).map
      (fun x => x.2)
    ++ o.filter (fun e => (arrayIndex? e.1).isNone)

/-! ## Data model -/

/-- Modelled from the spec: the storage-kind constants `STORE_CODE` and
`STORE_CONTENT` come from `prelude/common.js`, which is not among the sources;
the spec describes the storage kind as the enumeration `CODE`, `CONTENT`. -/
inductive Store where
  | CODE
  | CONTENT
deriving DecidableEq, Repr

/-- Modelled from the spec: the constant `STORE_CODE` of `prelude/common.js`. -/
def STORE_CODE : Store := Store.CODE

/-- Modelled from the spec: the constant `STORE_CONTENT` of
`prelude/common.js`. -/
def STORE_CONTENT : Store := Store.CONTENT

/-- Modelled from the spec: the property key under which a record of a storage
kind is kept, written the way the spec writes the index
(`CONTENT: [0, 5000]`); the values of the constants of `prelude/common.js` are
not among the sources. -/
def Store.key : Store → String
  | Store.CODE => "CODE"
  | Store.CONTENT => "CONTENT"

/-- One element of the stripe: `task.snap`, `task.store`, `task.file` and
`task.buffer`; an absent property is `none`. -/
structure Task where
  snap : String
  store : Store
  file : Option String
  buffer : Option Buffer
deriving DecidableEq, Repr

/-- The array `[payloadPos, meter.bytes]` stored at line 117. -/
abbrev Record := Nat × Nat

/-- The object `vfs[snap]`: its own properties, in order of creation. -/
abbrev Snapshot := List (Store × Record)

/-- The object `vfs`: its own properties, in order of creation. -/
abbrev Vfs := List (String × Snapshot)

/-- The assignment `o[k] = v` on the own properties of an object: an existing
property keeps its place, a new one goes last. -/
def objSet {κ α : Type} [DecidableEq κ] : List (κ × α) → κ → α → List (κ × α)
  | [], k, v => [(k, v)]
  | (k', v') :: r, k, v => if k' = k then (k', v) :: r else (k', v') :: objSet r k v

/-- The property names that every object inherits from `Object.prototype`;
`vfs[name]` is a truthy object for each of them although `vfs` has no such own
property. -/
def objectPrototypeKeys : List String :=
  ["constructor", "__defineGetter__", "__defineSetter__", "hasOwnProperty",
   "__lookupGetter__", "__lookupSetter__", "isPrototypeOf", "propertyIsEnumerable",
   "toString", "valueOf", "__proto__", "toLocaleString"]

/-- One round of the loop of lines 65-69. -/
def initVfsStep (vfs : Vfs) (task : Task) : Vfs :=
  match vfs.lookup task.snap with
  | some _ => vfs
  | none => if task.snap ∈ objectPrototypeKeys then vfs else objSet vfs task.snap []

/-- The `vfs` object after the loop of lines 64-69. -/
def initVfs (stripe : List Task) : Vfs := stripe.foldl initVfsStep []

/-- The assignment `vfs[snap][store] = record` of line 117.  When `vfs[snap]`
is inherited from `Object.prototype` the record lands on that inherited object
and `vfs` itself is unchanged; when `vfs[snap]` is undefined the assignment
throws. -/
def vfsRecord (vfs : Vfs) (snap : String) (store : Store) (record : Record) :
    Except String Vfs :=
  match vfs.lookup snap with
  | some o => .ok (objSet vfs snap (objSet o store record))
  | none =>
    if snap ∈ objectPrototypeKeys then .ok vfs
    else .error "TypeError: Cannot set property of undefined"

/-- `JSON.stringify` of a record `[offset, length]`. -/
def stringifyRecord (r : Record) : String := "[" ++ Nat.repr r.1 ++ "," ++ Nat.repr r.2 ++ "]"

/-- `JSON.stringify` of an object `vfs[snap]`. -/
def stringifySnapshot (o : Snapshot) : String :=
  "\x7b" ++ ",".intercalate
    (o.map (fun e => quoteJSONString e.1.key ++ ":" ++ stringifyRecord e.2)) ++ "\x7d"

/-- `JSON.stringify(vfs)` of line 151. -/
def stringifyVfs (vfs : Vfs) : String :=
  "\x7b" ++ ",".intercalate
    ((ownEntries vfs).map (fun e => quoteJSONString e.1 ++ ":" ++ stringifySnapshot e.2)) ++ "\x7d"

/-! ## Collaborators -/

/-- The `target` descriptor: the two paths the producer reads from it. -/
structure Target where
  binaryPath : String
  output : String
deriving DecidableEq, Repr

/-- The `backpack` argument. -/
structure Backpack where
  prelude : String
  stripe : List Task

/-- The collaborators of a run: what a read stream on a path delivers once
drained (or the error it emits), and the result that `compile` passes to its
callback. -/
structure World where
  createReadStream : String → Except String Buffer
  compile : List String → Target → Buffer → Except String Buffer

/-! ## Segment sequencer (lines 56-165) -/

/-- The variables of the closure: `count`, `meter.bytes`, `payloadPos`,
`payloadLength`, `recentTask`, `stripe` and `vfs`. -/
structure State where
  count : Nat
  meter : Nat
  payloadPos : Nat
  payloadLength : Nat
  recentTask : Option Task
  stripe : List Task
  vfs : Vfs

/-- The stream handed to `pipeToNewMeter`: a read stream on a file or a
`bufferStream` over a buffer. -/
inductive Source where
  | file (path : String)
  | buffer (b : Buffer)

/-- What one call of the factory does with its callback: `cb(undefined, s)`,
`cb()`, `cb(error)`, or an exception thrown before the callback is called. -/
inductive Reply where
  | stream (s : Source)
  | finish
  | error (e : String)
  | thrown (e : String)

/-- `pipeToNewMeter(s)` of lines 74-77: `meter` becomes a fresh meter, which
has counted no byte yet. -/
def pipeToNewMeter (st : State) : State := { st with meter := 0 }

/-- `next(s)` of lines 79-82. -/
def next (st : State) : State := pipeToNewMeter { st with count := st.count + 1 }

/-- A stream over a box, or the exception of the encoder that failed. -/
def boxReply (box : Except String Buffer) (st : State) : Reply × State :=
  match box with
  | .ok b => (.stream (.buffer b), next st)
  | .error e => (.thrown e, st)

/-- Lines 131-146: the resolution of the task just shifted from the stripe.
`task.file` is truthy when it is a non-empty string, `task.buffer` when it is
there at all. -/
def resolveTask (w : World) (options : List String) (target : Target) (task : Task) : Reply :=
  match task.file.filter (fun path => path ≠ "") with
  | some path =>
    if task.store = STORE_CONTENT then .stream (.file path)
    else .thrown "AssertionError"
  | none =>
    match task.buffer with
    | some buffer =>
      if task.store = STORE_CODE then
        match w.compile options target buffer with
        | .error error => .error error
        | .ok compiled => .stream (.buffer compiled)
      else .stream (.buffer buffer)
    | none => .thrown "AssertionError: producer: bad stripe task"

/-- Lines 115-121: the record of the task whose stream has just ended, if there
is one, and the update of `payloadLength`. -/
def bookkeeping (st : State) : Except String State :=
  match st.recentTask with
  | some task =>
    match vfsRecord st.vfs task.snap task.store (st.payloadPos, st.meter) with
    | .ok vfs =>
      .ok { st with vfs := vfs, payloadPos := st.payloadPos + st.meter,
                    payloadLength := st.payloadLength + st.meter }
    | .error e => .error e
  | none => .ok { st with payloadLength := st.payloadLength + st.meter }

/-- The factory function that `multistream` calls for each next stream (lines
88-156). -/
def factory (w : World) (prelude : String) (options : List String) (target : Target)
    (st : State) : Reply × State :=
  if st.count = 0 then
    (.stream (.file target.binaryPath), next st)
  else if st.count = 1 then
    (.stream (.buffer (paddingBuffer st.meter)), next st)
  else if st.count = 2 then
    boxReply (makeBakeryBoxFromOptions options) st
  else if st.count = 3 then
    (.stream (.buffer (paddingBuffer st.meter)), next st)
  else if st.count = 4 then
    boxReply makePayloadHeader st
  else if st.count = 5 then
    match bookkeeping st with
    | .error e => (.thrown e, st)
    | .ok st1 =>
      match st1.stripe with
      | [] => (.stream (.buffer (paddingBuffer st1.payloadLength)), next st1)
      | task :: rest =>
        let st2 := { st1 with stripe := rest, recentTask := some task }
        match resolveTask w options target task with
        | .stream s => (.stream s, pipeToNewMeter st2)
        | reply => (reply, st2)
  else if st.count = 6 then
    boxReply (makePreludeBoxFromPrelude
      (jsReplace prelude "%VIRTUAL_FILESYSTEM%" (stringifyVfs st.vfs))) st
  else
    (.finish, st)

/-- How a run ends: the output stream closed after every segment was written
(`resolve`), the multistream emitted an error (`reject`), an exception or a
stream error that nothing handles (neither `resolve` nor `reject` is called),
or, for the bounded driver below, more segments were still to come. -/
inductive Outcome where
  | resolved (segments : List Buffer) (final : State)
  | rejected (error : String) (segments : List Buffer)
  | crashed (error : String) (segments : List Buffer)
  | pending (segments : List Buffer) (st : State)

/-- The bytes a source delivers once drained, or the error it emits. -/
def drain (w : World) : Source → Except String Buffer
  | .file path => w.createReadStream path
  | .buffer b => .ok b

/-- The driver `multistream` read by a consumer that takes every chunk: it
calls the factory, passes on the stream it is given until the stream ends, by
which time the meter has counted the bytes of the stream, and calls the factory
again; `cb()` ends the output.  `segments` are the segments passed on so far,
`fuel` bounds the number of calls of the factory.  The consumer of lines
159-163, which may fail, is in `pipe` below. -/
def multistream (w : World) (prelude : String) (options : List String) (target : Target) :
    Nat → State → List Buffer → Outcome
  | 0, st, segments => .pending segments st
  | fuel + 1, st, segments =>
    match factory w prelude options target st with
    | (.finish, st1) => .resolved segments st1
    | (.error e, _) => .rejected e segments
    | (.thrown e, _) => .crashed e segments
    | (.stream s, st1) =>
      match drain w s with
      | .error e => .crashed e segments
      | .ok bytes =>
        multistream w prelude options target fuel { st1 with meter := bytes.length }
          (segments ++ [bytes])

/-- The default export (lines 56-165) when the write stream on `target.output`
takes every segment and closes (`producerPiped` below is the run into any
write stream): the run of the producer on a backpack, an option list and a
target.  The factory is called once per segment and once more to end the
stream, `stripe.length + 8` times in a run without failure. -/
def producer (w : World) (backpack : Backpack) (options : List String) (target : Target) :
    Outcome :=
  multistream w backpack.prelude options target (backpack.stripe.length + 8)
    { count := 0, meter := 0, payloadPos := 0, payloadLength := 0, recentTask := none,
      stripe := backpack.stripe, vfs := initVfs backpack.stripe } []

/-- The write stream that `fs.createWriteStream` returns (lines 159-163), as
far as a run depends on it: whether it takes the next segment after those it
has taken, and whether it emits `close` once the output has ended after the
segments it has taken.  The error it emits otherwise has no listener. -/
structure WriteStream where
  write : List Buffer → Buffer → Except String Unit
  close : List Buffer → Except String Unit

/-- The output of `multistream` piped into a write stream (lines 88-163): the
factory is called, the stream it gives is drained into the write stream, and
only when the write stream has taken the segment is the factory called again;
`cb()` ends the output, and the run resolves when the write stream emits
`close`.  An error of the write stream is handled by nothing, so that neither
`resolve` nor `reject` is called.  `segments` are the segments written so far,
`fuel` bounds the number of calls of the factory. -/
def pipe (w : World) (out : WriteStream) (prelude : String) (options : List String)
    (target : Target) : Nat → State → List Buffer → Outcome
  | 0, st, segments => .pending segments st
  | fuel + 1, st, segments =>
    match factory w prelude options target st with
    | (.finish, st1) =>
      match out.close segments with
      | .error e => .crashed e segments
      | .ok _ => .resolved segments st1
    | (.error e, _) => .rejected e segments
    | (.thrown e, _) => .crashed e segments
    | (.stream s, st1) =>
      match drain w s with
      | .error e => .crashed e segments
      | .ok bytes =>
        match out.write segments bytes with
        | .error e => .crashed e segments
        | .ok _ =>
          pipe w out prelude options target fuel { st1 with meter := bytes.length }
            (segments ++ [bytes])

/-- The default export (lines 56-165) with its write stream: the output of
`multistream` is piped into `fs.createWriteStream(target.output)`, and the
promise resolves on `close` of that stream. -/
def producerPiped (w : World) (createWriteStream : String → WriteStream) (backpack : Backpack)
    (options : List String) (target : Target) : Outcome :=
  pipe w (createWriteStream target.output) backpack.prelude options target
    (backpack.stripe.length + 8)
    { count := 0, meter := 0, payloadPos := 0, payloadLength := 0, recentTask := none,
      stripe := backpack.stripe, vfs := initVfs backpack.stripe } []

/-! ## Auxiliary definitions for the statements -/

/-- The bytes of the segment of a task: what the stream of `resolveTask`
delivers, when the task resolves to a stream and the stream drains without
error. -/
def entryBytes (w : World) (options : List String) (target : Target) (task : Task) :
    Option Buffer :=
  match resolveTask w options target task with
  | .stream s =>
    match drain w s with
    | .ok bytes => some bytes
    | .error _ => none
  | _ => none

/-- Lines 116-118 without the failure case: the record of one task when
`vfs[snap]` is there, own or inherited. -/
def vfsPut (vfs : Vfs) (snap : String) (store : Store) (record : Record) : Vfs :=
  match vfs.lookup snap with
  | some o => objSet vfs snap (objSet o store record)
  | none => vfs

/-- Lines 116-118 over a sequence of tasks with their byte counts, the first
one recorded at offset `pos`. -/
def recordAll : Vfs → Nat → List (Task × Nat) → Vfs
  | vfs, _, [] => vfs
  | vfs, pos, (task, bytes) :: rest =>
    recordAll (vfsPut vfs task.snap task.store (pos, bytes)) (pos + bytes) rest

/-- The record `vfs[snap][store]`, if both properties are own properties. -/
def vfsGet (vfs : Vfs) (snap : String) (store : Store) : Option Record :=
  match vfs.lookup snap with
  | some o => o.lookup store
  | none => none

/-- Every task of the list finds `vfs[task.snap]`, own or inherited. -/
def Covered (vfs : Vfs) (tasks : List Task) : Prop :=
  ∀ t ∈ tasks, (vfs.lookup t.snap).isSome = true ∨ t.snap ∈ objectPrototypeKeys

/-- The task whose stream has ended but which is not recorded yet, with the
byte count of its stream. -/
def pend (st : State) : List (Task × Nat) :=
  match st.recentTask with
  | some t => [(t, st.meter)]
  | none => []

/-- The bytes of the payload header box. -/
def payloadHeader : Buffer :=
  [0xba, 0x8e, 0x14, 0x75, 0xb4, 0xa9, 0xbd, 0x6f, 0x8d, 0xc0, 0x20, 0x2e, 0, 0, 0, 0]

/-! ## Concrete inputs and the substitution as the spec words it -/

/-- A world with a stub of 10 bytes and one data file of 5000 bytes. -/
def demoWorld : World where
  createReadStream := fun path =>
    if path = "/stub" then .ok (List.replicate 10 127)
    else if path = "/project/data.bin" then .ok (List.replicate 5000 1)
    else .error "ENOENT"
  compile := fun _ _ _ => .error "SyntaxError"

/-- The target of the concrete run. -/
def demoTarget : Target := { binaryPath := "/stub", output := "/out" }

/-- A file system in which a write stream on `/out` takes every segment and
closes, and a write stream on any other path fails to open. -/
def demoCreateWriteStream (path : String) : WriteStream where
  write := fun _ _ => if path = "/out" then .ok () else .error "ENOENT"
  close := fun _ => if path = "/out" then .ok () else .error "ENOENT"

/-- A backpack with one CONTENT entry read from a file. -/
def demoBackpack : Backpack where
  prelude := "run(%VIRTUAL_FILESYSTEM%)"
  stripe := [{ snap := "snap", store := Store.CONTENT, file := some "/project/data.bin",
               buffer := none }]

/-- The options box of the option list with the single option `x`. -/
def demoOptionsBox : Buffer :=
  [0xdf, 0xc4, 0x18, 0x48, 0x70, 0x06, 0xc3, 0x7a, 0x76, 0x8a, 0x55, 0x56, 3, 0, 0, 0, 120, 0, 0]

/-- The prelude box of the concrete run. -/
def demoPreludeBox : Buffer :=
  [0x28, 0xc9, 0xe0, 0x26, 0x66, 0x2b, 0xf3, 0x41, 0xcf, 0x3c, 0xa1, 0x3e, 121, 0, 0, 0]
    ++ Buffer.from (prepend ++ "run(\x7b\x22snap\x22:\x7b\x22CONTENT\x22:[0,5000]\x7d\x7d)"
        ++ append)

/-- The substitution as the spec words it: every occurrence of `pat` in the
text is replaced by `rep`, reading from left to right; `skip` counts the
characters of the occurrence just replaced that are still to be dropped. -/
def replaceEvery (pat rep : List Char) : Nat → List Char → List Char
  | _, [] => []
  | skip + 1, _ :: s => replaceEvery pat rep skip s
  | 0, c :: s =>
    if pat.isPrefixOf (c :: s) then rep ++ replaceEvery pat rep (pat.length - 1) s
    else c :: replaceEvery pat rep 0 s

/-- A backpack with no entry whose prelude holds the token twice. -/
def twiceBackpack : Backpack where
  prelude := "%VIRTUAL_FILESYSTEM%;%VIRTUAL_FILESYSTEM%"
  stripe := []

/-- The prelude box of the run on `twiceBackpack`. -/
def twicePreludeBox : Buffer :=
  [0x28, 0xc9, 0xe0, 0x26, 0x66, 0x2b, 0xf3, 0x41, 0xcf, 0x3c, 0xa1, 0x3e, 110, 0, 0, 0]
    ++ Buffer.from (prepend ++ "\x7b\x7d;%VIRTUAL_FILESYSTEM%" ++ append)

/-- How the run ends when the task at the head of the stripe does not deliver
its bytes: the error of `compile` rejects the run, a failed assertion or the
error of a read stream leaves it without `resolve` and without `reject`. -/
def failure (w : World) (options : List String) (target : Target) (task : Task)
    (segments : List Buffer) : Option Outcome :=
  match resolveTask w options target task with
  | .stream s =>
    match drain w s with
    | .ok _ => none
    | .error e => some (.crashed e segments)
  | .error e => some (.rejected e segments)
  | .thrown e => some (.crashed e segments)
  | .finish => none

/-- The path of `task.file` when `task.file` is truthy. -/
def fileOf (t : Task) : Option String := t.file.filter (fun path => path ≠ "")

/-- The entry of `demoBackpack`: content read from a file of 5000 bytes. -/
def contentTask : Task :=
  { snap := "snap", store := Store.CONTENT, file := some "/project/data.bin", buffer := none }

/-- A buffer of code; `demoWorld.compile` fails on every buffer. -/
def codeTask : Task :=
  { snap := "snap", store := Store.CODE, file := none, buffer := some [1, 2, 3] }

/-- A buffer of content. -/
def otherTask : Task :=
  { snap := "other", store := Store.CONTENT, file := none, buffer := some [4] }

/-- A stripe whose second entry is the buffer of code. -/
def codeBackpack : Backpack where
  prelude := "run(%VIRTUAL_FILESYSTEM%)"
  stripe := [contentTask, codeTask, otherTask]

/-- An entry with a source file and the storage kind CODE. -/
def codeFileTask : Task :=
  { snap := "snap", store := Store.CODE, file := some "/project/data.bin", buffer := none }

/-- An entry with neither a source file nor a source buffer. -/
def emptyTask : Task :=
  { snap := "snap", store := Store.CONTENT, file := none, buffer := none }

/-- The pair under which the record of a task is kept. -/
def keyOf (t : Task) : String × Store := (t.snap, t.store)

/-- A world in which `compile` succeeds: the compiled bytes are the source
bytes after a zero byte. -/
def compileWorld : World where
  createReadStream := demoWorld.createReadStream
  compile := fun _ _ buffer => .ok (0 :: buffer)

/-- A stripe with a buffer of code and a buffer of content. -/
def bufferBackpack : Backpack where
  prelude := "run(%VIRTUAL_FILESYSTEM%)"
  stripe := [codeTask, otherTask]

/-- The prelude box of the run of `compileWorld` on `bufferBackpack`. -/
def bufferPreludeBox : Buffer :=
  [0x28, 0xc9, 0xe0, 0x26, 0x66, 0x2b, 0xf3, 0x41, 0xcf, 0x3c, 0xa1, 0x3e, 141, 0, 0, 0]
    ++ Buffer.from (prepend
        ++ "run(\x7b\x22snap\x22:\x7b\x22CODE\x22:[0,4]\x7d,\x22other\x22:\x7b\x22CONTENT\x22:[4,1]\x7d\x7d)"
        ++ append)

/-- A backpack with no entry. -/
def emptyBackpack : Backpack where
  prelude := "run(%VIRTUAL_FILESYSTEM%)"
  stripe := []

/-- The prelude box of the run on `emptyBackpack`. -/
def emptyPreludeBox : Buffer :=
  [0x28, 0xc9, 0xe0, 0x26, 0x66, 0x2b, 0xf3, 0x41, 0xcf, 0x3c, 0xa1, 0x3e, 94, 0, 0, 0]
    ++ Buffer.from (prepend ++ "run(\x7b\x7d)" ++ append)

/-- The options box of the empty option list. -/
def emptyOptionsBox : Buffer :=
  [0xdf, 0xc4, 0x18, 0x48, 0x70, 0x06, 0xc3, 0x7a, 0x76, 0x8a, 0x55, 0x56, 1, 0, 0, 0, 0]

/-- The pieces of a text between the occurrences of a separator. -/
def splitOnChar (sep : Char) : List Char → List (List Char)
  | [] => [[]]
  | c :: r =>
    if c = sep then [] :: splitOnChar sep r
    else
      match splitOnChar sep r with
      | [] => [[c]]
      | piece :: pieces => (c :: piece) :: pieces

/-- The parameter names that a wrapper text of the form
`(function(NAME, ..., NAME) ...` passes: the text between the second opening
parenthesis and the first closing one, split at the commas, without blanks. -/
def parameterNames (wrapper : String) : List String :=
  let afterFirst := (wrapper.data.dropWhile (fun c => c ≠ '(')).drop 1
  let afterSecond := (afterFirst.dropWhile (fun c => c ≠ '(')).drop 1
  let inside := afterSecond.takeWhile (fun c => c ≠ ')')
  (splitOnChar ',' inside).map (fun name => String.mk (name.filter (fun c => c ≠ ' ')))

/-- The reader of the body of an options box: it reads zero-terminated byte
strings from the start until it reads an empty one, and returns the strings
read and the bytes left after the terminator of the empty one; `none` when the
bytes end before that.  `current` holds the bytes of the string being read. -/
def decodeOptions : Buffer → Buffer → Option (List Buffer × Buffer)
  | [], _ => none
  | b :: rest, current =>
    if b = 0 then
      if current = [] then some ([], rest)
      else (decodeOptions rest []).map (fun r => (current :: r.1, r.2))
    else decodeOptions rest (current ++ [b])

/-- The pairs (snapshot id, storage kind) under which the index holds a
record, in the order of the own properties. -/
def recordKeys (vfs : Vfs) : List (String × Store) :=
  vfs.flatMap (fun e => e.2.map (fun r => (e.1, r.1)))

/-- The sum of the lengths of all records of the index. -/
def recordedTotal (vfs : Vfs) : Nat :=
  (vfs.map (fun e => (e.2.map (fun r => r.2.2)).sum)).sum

/-- The own property names of the index are pairwise distinct, and so are
those of each of its snapshots. -/
def WellKeyed (vfs : Vfs) : Prop :=
  (vfs.map Prod.fst).Nodup ∧ ∀ e ∈ vfs, (e.2.map Prod.fst).Nodup

/-- A stripe whose two entries share snapshot id and storage kind; the first
one is empty. -/
def dupBackpack : Backpack where
  prelude := "run(%VIRTUAL_FILESYSTEM%)"
  stripe := [{ snap := "a", store := Store.CONTENT, file := none, buffer := some [] },
             { snap := "a", store := Store.CONTENT, file := none, buffer := some [1, 2, 3] }]

/-- The prelude box of the run on `dupBackpack`. -/
def dupPreludeBox : Buffer :=
  [0x28, 0xc9, 0xe0, 0x26, 0x66, 0x2b, 0xf3, 0x41, 0xcf, 0x3c, 0xa1, 0x3e, 115, 0, 0, 0]
    ++ Buffer.from (prepend ++ "run(\x7b\x22a\x22:\x7b\x22CONTENT\x22:[0,3]\x7d\x7d)" ++ append)

/-- A stripe whose snapshot id is the name of a method of `Object.prototype`. -/
def protoBackpack : Backpack where
  prelude := "run(%VIRTUAL_FILESYSTEM%)"
  stripe := [{ snap := "toString", store := Store.CONTENT, file := none, buffer := some [1] }]

/-- A stripe whose snapshot id holds a dollar sign followed by an ampersand. -/
def dollarBackpack : Backpack where
  prelude := "run(%VIRTUAL_FILESYSTEM%)"
  stripe := [{ snap := "$&", store := Store.CONTENT, file := none, buffer := some [1, 2, 3] }]

/-- The prelude box of the run on `dollarBackpack`. -/
def dollarPreludeBox : Buffer :=
  [0x28, 0xc9, 0xe0, 0x26, 0x66, 0x2b, 0xf3, 0x41, 0xcf, 0x3c, 0xa1, 0x3e, 134, 0, 0, 0]
    ++ Buffer.from (prepend
        ++ "run(\x7b\x22%VIRTUAL_FILESYSTEM%\x22:\x7b\x22CONTENT\x22:[0,3]\x7d\x7d)" ++ append)

/-- Whether a replacement text holds one of the four patterns that
`getSubstitution` expands: a dollar sign directly followed by a dollar sign,
an ampersand, a grave accent or an apostrophe. -/
def hasDollarPattern : List Char → Bool
  | [] => false
  | [_] => false
  | c :: d :: r =>
    (decide (c = '$') && (decide (d = '$') || decide (d = '&') || decide (d = Char.ofNat 96)
        || decide (d = Char.ofNat 39)))
      || hasDollarPattern (d :: r)

/-- The byte count of the last entry of the list with the pair `k`, and 0 when
no entry has that pair. -/
def lastLen (k : String × Store) : List (Task × Nat) → Nat
  | [] => 0
  | (t, n) :: rest =>
    if rest.any (fun e => decide (keyOf e.1 = k)) then lastLen k rest
    else if keyOf t = k then n else 0

/-- The byte counts of the entries whose pair occurs again later in the list,
added up. -/
def lostBytes : List (Task × Nat) → Nat
  | [] => 0
  | (t, n) :: rest =>
    (if rest.any (fun e => decide (keyOf e.1 = keyOf t)) then n else 0) + lostBytes rest

/-- A stripe whose two entries share snapshot id and storage kind; the first
one, of two bytes, is overwritten by the second. -/
def overwriteBackpack : Backpack where
  prelude := "run(%VIRTUAL_FILESYSTEM%)"
  stripe := [{ snap := "a", store := Store.CONTENT, file := none, buffer := some [1, 2] },
             { snap := "a", store := Store.CONTENT, file := none, buffer := some [1, 2, 3] }]

/-- The prelude box of the run on `overwriteBackpack`. -/
def overwritePreludeBox : Buffer :=
  [0x28, 0xc9, 0xe0, 0x26, 0x66, 0x2b, 0xf3, 0x41, 0xcf, 0x3c, 0xa1, 0x3e, 115, 0, 0, 0]
    ++ Buffer.from (prepend ++ "run(\x7b\x22a\x22:\x7b\x22CONTENT\x22:[2,3]\x7d\x7d)" ++ append)

/-! ## Option strings as UTF-16 code units -/

/-- The UTF-8 encoding of a code point. -/
def utf8EncodeCodePoint (v : Nat) : List Nat :=
  if v < 0x80 then [v]
  else if v < 0x800 then [0xC0 + v / 64, 0x80 + v % 64]
  else if v < 0x10000 then [0xE0 + v / 4096, 0x80 + v / 64 % 64, 0x80 + v % 64]
  else [0xF0 + v / 262144, 0x80 + v / 4096 % 64, 0x80 + v / 64 % 64, 0x80 + v % 64]

/-- `Buffer.from(string)` for a JavaScript string in general, given as the
sequence of its UTF-16 code units: a high surrogate followed by a low surrogate
is one code point, a surrogate without its partner is written as U+FFFD, the
bytes `ef bf bd`, and every other code unit is a code point. -/
def Buffer.fromUtf16 : List Nat → Buffer
  | [] => []
  | [u] => if 0xD800 ≤ u ∧ u < 0xE000 then [0xEF, 0xBF, 0xBD] else utf8EncodeCodePoint u
  | u :: v :: r =>
    if 0xD800 ≤ u ∧ u < 0xDC00 then
      if 0xDC00 ≤ v ∧ v < 0xE000 then
        utf8EncodeCodePoint (0x10000 + (u - 0xD800) * 0x400 + (v - 0xDC00)) ++ Buffer.fromUtf16 r
      else [0xEF, 0xBF, 0xBD] ++ Buffer.fromUtf16 (v :: r)
    else if 0xDC00 ≤ u ∧ u < 0xE000 then [0xEF, 0xBF, 0xBD] ++ Buffer.fromUtf16 (v :: r)
    else utf8EncodeCodePoint u ++ Buffer.fromUtf16 (v :: r)

/-- Whether a sequence of code units is a well-formed string: every unit is
below 65536, every high surrogate is directly followed by a low surrogate, and
no low surrogate stands elsewhere. -/
def wellFormed : List Nat → Bool
  | [] => true
  | [u] => decide (u < 0x10000) && !decide (0xD800 ≤ u ∧ u < 0xE000)
  | u :: v :: r =>
    if 0xD800 ≤ u ∧ u < 0xDC00 then
      decide (0xDC00 ≤ v ∧ v < 0xE000) && wellFormed r
    else decide (u < 0x10000) && !decide (0xDC00 ≤ u ∧ u < 0xE000) && wellFormed (v :: r)

/-- The UTF-16 code units of a Unicode scalar value. -/
def charUtf16 (c : Char) : List Nat :=
  if c.toNat < 0x10000 then [c.toNat]
  else [0xD800 + (c.toNat - 0x10000) / 0x400, 0xDC00 + (c.toNat - 0x10000) % 0x400]

/-- The UTF-16 code units of a well-formed string. -/
def utf16 (s : String) : List Nat := s.data.flatMap charUtf16

/-- The `parts` array of `makeBakeryBoxFromOptions` after the loop of lines
22-25 and the push of line 26, for option strings given as code units. -/
def bakeryPartsUtf16 (options : List (List Nat)) : List Buffer :=
  options.foldl (fun parts o => parts ++ [Buffer.fromUtf16 o, Buffer.alloc 1]) []
    ++ [Buffer.alloc 1]

/-- `makeBakeryBoxFromOptions(options)` of lines 20-35, for option strings given
as code units. -/
def makeBakeryBoxFromOptionsUtf16 (options : List (List Nat)) : Except String Buffer := do
  let buffer := Buffer.concat (bakeryPartsUtf16 options)
  let sentinel := Buffer.new 16
  let sentinel ← writeInt32LE sentinel 0x4818c4df 0
  let sentinel ← writeInt32LE sentinel 0x7ac30670 4
  let sentinel ← writeInt32LE sentinel 0x56558a76 8
  let sentinel ← writeInt32LE sentinel buffer.length 12
  return Buffer.concat [sentinel, buffer]

/-! ## Little-endian words -/

/-- The four bytes that `writeInt32LE` stores for a value, least significant
first. -/
def le32 (n : Nat) : List Nat := [n % 256, n / 256 % 256, n / 65536 % 256, n / 16777216 % 256]

/-! ## Properties -/

theorem paddingBuffer_length (n : Nat) :
    (paddingBuffer n).length = (4096 - n % 4096) % 4096 := by
  unfold paddingBuffer Buffer.alloc boundary
  simp only [List.length_replicate]
  split <;> omega

/-- C1: for every byte count `n` the padding buffer has length
`(4096 - n mod 4096) mod 4096`, this length is at most 4095, and every byte of
the buffer is zero. -/
theorem paddingBuffer_spec (n : Nat) :
    (paddingBuffer n).length = (4096 - n % 4096) % 4096
      ∧ (paddingBuffer n).length ≤ 4095
      ∧ ∀ b ∈ paddingBuffer n, b = 0 := by
  refine ⟨paddingBuffer_length n, ?_, ?_⟩
  · rw [paddingBuffer_length]; omega
  · intro b hb
    unfold paddingBuffer Buffer.alloc at hb
    exact List.eq_of_mem_replicate hb

/-- C2: for every byte count `n`, `n` plus the padding length is a multiple of
4096, no smaller amount of padding reaches a multiple of 4096, and the padding
is empty when `n` is already a multiple of 4096. -/
theorem paddingBuffer_minimal (n : Nat) :
    (n + (paddingBuffer n).length) % 4096 = 0
      ∧ (∀ k : Nat, (n + k) % 4096 = 0 → (paddingBuffer n).length ≤ k)
      ∧ (n % 4096 = 0 → (paddingBuffer n).length = 0) := by
  rw [paddingBuffer_length]
  refine ⟨by omega, ?_, by omega⟩
  intro k hk
  omega


theorem paddingBuffer_minimal_witness :
    (10 + (paddingBuffer 10).length) % 4096 = 0
      ∧ (paddingBuffer 10).length ≤ 4086
      ∧ (paddingBuffer 8192).length = 0 :=
  ⟨(paddingBuffer_minimal 10).1, (paddingBuffer_minimal 10).2.1 4086 (by decide),
    (paddingBuffer_minimal 8192).2.2 (by decide)⟩

/-! ### Box encoders -/

theorem makeBakeryBoxFromOptions_ok (options : List String)
    (h : (Buffer.concat (bakeryParts options)).length < 2147483648) :
    makeBakeryBoxFromOptions options
      = .ok ([0xdf, 0xc4, 0x18, 0x48, 0x70, 0x06, 0xc3, 0x7a, 0x76, 0x8a, 0x55, 0x56]
          ++ le32 (Buffer.concat (bakeryParts options)).length
          ++ Buffer.concat (bakeryParts options)) := by
  unfold makeBakeryBoxFromOptions
  generalize Buffer.concat (bakeryParts options) = body at h ⊢
  have h2 : ¬ 2147483647 < body.length := by omega
  simp [writeInt32LE, Buffer.new, bind, Except.bind, List.replicate,
    List.set, h2, pure, Except.pure, Buffer.concat, le32]

theorem makeBakeryBoxFromOptions_error (options : List String)
    (h : 2147483648 ≤ (Buffer.concat (bakeryParts options)).length) :
    makeBakeryBoxFromOptions options = .error "RangeError: value out of bounds" := by
  unfold makeBakeryBoxFromOptions
  generalize Buffer.concat (bakeryParts options) = body at h ⊢
  have h2 : 2147483647 < body.length := by omega
  simp [writeInt32LE, Buffer.new, bind, Except.bind, List.replicate, List.set, h2]

theorem makePreludeBoxFromPrelude_ok (prelude : String)
    (h : (Buffer.from (prepend ++ prelude ++ append)).length < 2147483648) :
    makePreludeBoxFromPrelude prelude
      = .ok ([0x28, 0xc9, 0xe0, 0x26, 0x66, 0x2b, 0xf3, 0x41, 0xcf, 0x3c, 0xa1, 0x3e]
          ++ le32 (Buffer.from (prepend ++ prelude ++ append)).length
          ++ Buffer.from (prepend ++ prelude ++ append)) := by
  unfold makePreludeBoxFromPrelude
  generalize Buffer.from (prepend ++ prelude ++ append) = body at h ⊢
  have h2 : ¬ 2147483647 < body.length := by omega
  simp [writeInt32LE, Buffer.new, bind, Except.bind, List.replicate,
    List.set, h2, pure, Except.pure, Buffer.concat, le32]

theorem makePreludeBoxFromPrelude_error (prelude : String)
    (h : 2147483648 ≤ (Buffer.from (prepend ++ prelude ++ append)).length) :
    makePreludeBoxFromPrelude prelude = .error "RangeError: value out of bounds" := by
  unfold makePreludeBoxFromPrelude
  generalize Buffer.from (prepend ++ prelude ++ append) = body at h ⊢
  have h2 : 2147483647 < body.length := by omega
  simp [writeInt32LE, Buffer.new, bind, Except.bind, List.replicate, List.set, h2]

theorem makePayloadHeader_ok :
    makePayloadHeader
      = .ok [0xba, 0x8e, 0x14, 0x75, 0xb4, 0xa9, 0xbd, 0x6f, 0x8d, 0xc0, 0x20, 0x2e, 0, 0, 0, 0] := by
  simp [makePayloadHeader, writeInt32LE, Buffer.new, bind, Except.bind, List.replicate,
    List.set, pure, Except.pure]

theorem foldl_parts_flatten (options : List String) (acc : List Buffer) :
    (options.foldl (fun parts o => parts ++ [Buffer.from o, Buffer.alloc 1]) acc).flatten
      = acc.flatten ++ options.flatMap (fun s => Buffer.from s ++ [0]) := by
  induction options generalizing acc with
  | nil => simp
  | cons o os ih =>
    simp only [List.foldl_cons]
    rw [ih]
    simp [Buffer.alloc, List.flatMap_cons]

theorem bakeryParts_concat (options : List String) :
    Buffer.concat (bakeryParts options)
      = options.flatMap (fun s => Buffer.from s ++ [0]) ++ [0] := by
  unfold Buffer.concat bakeryParts
  rw [List.flatten_append, foldl_parts_flatten]
  simp [Buffer.alloc]

theorem flatMap_terminated_length (options : List String) :
    (options.flatMap (fun s => Buffer.from s ++ [0])).length
      = (options.map (fun s => (Buffer.from s).length)).sum + options.length := by
  induction options with
  | nil => simp
  | cons o os ih => simp [List.flatMap_cons, ih]; omega

theorem bakeryParts_concat_length (options : List String) :
    (Buffer.concat (bakeryParts options)).length
      = (options.map (fun s => (Buffer.from s).length)).sum + options.length + 1 := by
  rw [bakeryParts_concat, List.length_append, flatMap_terminated_length]
  simp

theorem readInt32LE_length (a0 a1 a2 a3 b0 b1 b2 b3 c0 c1 c2 c3 : Nat) (n : Nat) (body : Buffer)
    (h : n < 2147483648) :
    readInt32LE ([a0, a1, a2, a3, b0, b1, b2, b3, c0, c1, c2, c3] ++ le32 n ++ body) 12 = n := by
  simp [readInt32LE, le32, List.getD]
  omega

/-- C3: whenever the options box is produced, the bytes after its 16-byte
header are the option strings in input order, each followed by one zero byte,
then one more zero byte, so their number is the sum of the strings' byte
lengths plus the number of strings plus one; and the box is produced for every
option list whose body is shorter than 2^31 bytes, the empty list included. -/
theorem makeBakeryBoxFromOptions_body (options : List String) :
    (∀ box, makeBakeryBoxFromOptions options = .ok box →
      box.drop 16 = options.flatMap (fun s => Buffer.from s ++ [0]) ++ [0]
      ∧ (box.drop 16).length
          = (options.map (fun s => (Buffer.from s).length)).sum + options.length + 1)
    ∧ ((options.map (fun s => (Buffer.from s).length)).sum + options.length + 1 < 2147483648 →
        ∃ box, makeBakeryBoxFromOptions options = .ok box) := by
  constructor
  · intro box hbox
    by_cases h : (Buffer.concat (bakeryParts options)).length < 2147483648
    · rw [makeBakeryBoxFromOptions_ok options h] at hbox
      injection hbox with hbox
      subst hbox
      have hd : ([0xdf, 0xc4, 0x18, 0x48, 0x70, 0x06, 0xc3, 0x7a, 0x76, 0x8a, 0x55, 0x56]
          ++ le32 (Buffer.concat (bakeryParts options)).length
          ++ Buffer.concat (bakeryParts options)).drop 16
          = Buffer.concat (bakeryParts options) := by
        simp [le32]
      rw [hd, bakeryParts_concat_length]
      exact ⟨bakeryParts_concat options, rfl⟩
    · rw [makeBakeryBoxFromOptions_error options (by omega)] at hbox
      cases hbox
  · intro h
    rw [← bakeryParts_concat_length] at h
    exact ⟨_, makeBakeryBoxFromOptions_ok options h⟩

theorem makeBakeryBoxFromOptions_body_witness :
    ([0xdf, 0xc4, 0x18, 0x48, 0x70, 0x06, 0xc3, 0x7a, 0x76, 0x8a, 0x55, 0x56, 3, 0, 0, 0,
        120, 0, 0] : Buffer).drop 16 = ["x"].flatMap (fun s => Buffer.from s ++ [0]) ++ [0]
      ∧ (([0xdf, 0xc4, 0x18, 0x48, 0x70, 0x06, 0xc3, 0x7a, 0x76, 0x8a, 0x55, 0x56, 3, 0, 0, 0,
        120, 0, 0] : Buffer).drop 16).length
          = (["x"].map (fun s => (Buffer.from s).length)).sum + ["x"].length + 1 :=
  (makeBakeryBoxFromOptions_body ["x"]).1 _ rfl

/-- C4: for each of the three box kinds, when the body is shorter than 2^31
bytes the encoder returns a 16-byte header followed by the body; bytes 0-3,
4-7 and 8-11 read as 32-bit little-endian integers are the three magic
constants of the kind, and bytes 12-15 read the same way are the byte length of
the body, which is the length of the box minus 16. -/
theorem box_header_roundtrip :
    (∀ options : List String, (Buffer.concat (bakeryParts options)).length < 2147483648 →
      ∃ box, makeBakeryBoxFromOptions options = .ok box
        ∧ box.length = 16 + (Buffer.concat (bakeryParts options)).length
        ∧ box.drop 16 = Buffer.concat (bakeryParts options)
        ∧ readInt32LE box 0 = 0x4818c4df ∧ readInt32LE box 4 = 0x7ac30670
        ∧ readInt32LE box 8 = 0x56558a76
        ∧ readInt32LE box 12 = (box.drop 16).length
        ∧ readInt32LE box 12 = ((box.length - 16 : Nat) : Int))
    ∧ (∃ box, makePayloadHeader = .ok box
        ∧ box.length = 16
        ∧ box.drop 16 = []
        ∧ readInt32LE box 0 = 0x75148eba ∧ readInt32LE box 4 = 0x6fbda9b4
        ∧ readInt32LE box 8 = 0x2e20c08d
        ∧ readInt32LE box 12 = (box.drop 16).length
        ∧ readInt32LE box 12 = ((box.length - 16 : Nat) : Int))
    ∧ (∀ prelude : String, (Buffer.from (prepend ++ prelude ++ append)).length < 2147483648 →
      ∃ box, makePreludeBoxFromPrelude prelude = .ok box
        ∧ box.length = 16 + (Buffer.from (prepend ++ prelude ++ append)).length
        ∧ box.drop 16 = Buffer.from (prepend ++ prelude ++ append)
        ∧ readInt32LE box 0 = 0x26e0c928 ∧ readInt32LE box 4 = 0x41f32b66
        ∧ readInt32LE box 8 = 0x3ea13ccf
        ∧ readInt32LE box 12 = (box.drop 16).length
        ∧ readInt32LE box 12 = ((box.length - 16 : Nat) : Int)) := by
  refine ⟨?_, ?_, ?_⟩
  · intro options h
    refine ⟨_, makeBakeryBoxFromOptions_ok options h, ?_⟩
    generalize Buffer.concat (bakeryParts options) = body at h ⊢
    have hd : ([0xdf, 0xc4, 0x18, 0x48, 0x70, 0x06, 0xc3, 0x7a, 0x76, 0x8a, 0x55, 0x56]
        ++ le32 body.length ++ body).drop 16 = body := by simp [le32]
    have hl : ([0xdf, 0xc4, 0x18, 0x48, 0x70, 0x06, 0xc3, 0x7a, 0x76, 0x8a, 0x55, 0x56]
        ++ le32 body.length ++ body).length = 16 + body.length := by simp [le32]; omega
    rw [hd, hl, readInt32LE_length _ _ _ _ _ _ _ _ _ _ _ _ _ _ h]
    refine ⟨rfl, rfl, ?_, ?_, ?_, rfl, by simp⟩ <;>
      · simp only [readInt32LE, le32, List.getD, List.cons_append, List.nil_append,
          List.getElem?_cons_zero, List.getElem?_cons_succ, Option.getD_some]
        norm_num
  · refine ⟨_, makePayloadHeader_ok, ?_⟩
    simp [readInt32LE, List.getD]
  · intro prelude h
    refine ⟨_, makePreludeBoxFromPrelude_ok prelude h, ?_⟩
    generalize Buffer.from (prepend ++ prelude ++ append) = body at h ⊢
    have hd : ([0x28, 0xc9, 0xe0, 0x26, 0x66, 0x2b, 0xf3, 0x41, 0xcf, 0x3c, 0xa1, 0x3e]
        ++ le32 body.length ++ body).drop 16 = body := by simp [le32]
    have hl : ([0x28, 0xc9, 0xe0, 0x26, 0x66, 0x2b, 0xf3, 0x41, 0xcf, 0x3c, 0xa1, 0x3e]
        ++ le32 body.length ++ body).length = 16 + body.length := by simp [le32]; omega
    rw [hd, hl, readInt32LE_length _ _ _ _ _ _ _ _ _ _ _ _ _ _ h]
    refine ⟨rfl, rfl, ?_, ?_, ?_, rfl, by simp⟩ <;>
      · simp only [readInt32LE, le32, List.getD, List.cons_append, List.nil_append,
          List.getElem?_cons_zero, List.getElem?_cons_succ, Option.getD_some]
        norm_num

theorem box_header_roundtrip_witness :
    (∃ box, makeBakeryBoxFromOptions ["x"] = .ok box
        ∧ box.length = 16 + (Buffer.concat (bakeryParts ["x"])).length
        ∧ box.drop 16 = Buffer.concat (bakeryParts ["x"])
        ∧ readInt32LE box 0 = 0x4818c4df ∧ readInt32LE box 4 = 0x7ac30670
        ∧ readInt32LE box 8 = 0x56558a76
        ∧ readInt32LE box 12 = (box.drop 16).length
        ∧ readInt32LE box 12 = ((box.length - 16 : Nat) : Int))
    ∧ (∃ box, makePreludeBoxFromPrelude "run()" = .ok box
        ∧ box.length = 16 + (Buffer.from (prepend ++ "run()" ++ append)).length
        ∧ box.drop 16 = Buffer.from (prepend ++ "run()" ++ append)
        ∧ readInt32LE box 0 = 0x26e0c928 ∧ readInt32LE box 4 = 0x41f32b66
        ∧ readInt32LE box 8 = 0x3ea13ccf
        ∧ readInt32LE box 12 = (box.drop 16).length
        ∧ readInt32LE box 12 = ((box.length - 16 : Nat) : Int)) :=
  ⟨box_header_roundtrip.1 ["x"] (by decide), box_header_roundtrip.2.2 "run()" (by decide)⟩

/-! ### The index and the sequencer -/

theorem lookup_objSet {κ α : Type} [DecidableEq κ] (l : List (κ × α)) (k k' : κ) (v : α) :
    (objSet l k v).lookup k' = if k' = k then some v else l.lookup k' := by
  induction l with
  | nil =>
    by_cases h : k' = k
    · simp [objSet, List.lookup, h]
    · have hb : (k' == k) = false := by simpa using h
      simp [objSet, List.lookup, h, hb]
  | cons e r ih =>
    obtain ⟨k0, v0⟩ := e
    by_cases h0 : k0 = k
    · subst h0
      by_cases h : k' = k0
      · simp [objSet, List.lookup, h]
      · have hb : (k' == k0) = false := by simpa using h
        simp [objSet, List.lookup, h, hb]
    · by_cases h : k' = k0
      · subst h
        simp [objSet, List.lookup, h0]
      · have hb : (k' == k0) = false := by simpa using h
        simp [objSet, List.lookup, h0, hb, ih]

theorem lookup_vfsPut_isSome (vfs : Vfs) (snap : String) (store : Store) (r : Record)
    (s : String) :
    ((vfsPut vfs snap store r).lookup s).isSome = (vfs.lookup s).isSome := by
  unfold vfsPut
  cases h : vfs.lookup snap with
  | none => rfl
  | some o =>
    simp only [lookup_objSet]
    by_cases hs : s = snap
    · subst hs; simp [h]
    · simp [hs]

theorem Covered.vfsPut {vfs : Vfs} {tasks : List Task} (h : Covered vfs tasks)
    (snap : String) (store : Store) (r : Record) :
    Covered (vfsPut vfs snap store r) tasks := by
  intro t ht
  rw [lookup_vfsPut_isSome]
  exact h t ht

theorem vfsRecord_ok (vfs : Vfs) (t : Task) (r : Record) (h : Covered vfs [t]) :
    vfsRecord vfs t.snap t.store r = .ok (vfsPut vfs t.snap t.store r) := by
  unfold vfsRecord vfsPut
  cases hl : vfs.lookup t.snap with
  | some o => rfl
  | none =>
    have := h t (by simp)
    simp [hl] at this
    simp [this]


theorem Covered.recordAll {tasks : List Task} (es : List (Task × Nat)) :
    ∀ {vfs : Vfs} (pos : Nat), Covered vfs tasks → Covered (recordAll vfs pos es) tasks := by
  induction es with
  | nil => intro vfs pos h; exact h
  | cons e r ih =>
    intro vfs pos h
    obtain ⟨t, n⟩ := e
    exact ih _ (h.vfsPut _ _ _)

theorem bookkeeping_ok (st : State) (h : Covered st.vfs st.recentTask.toList) :
    bookkeeping st = .ok { st with
      vfs := recordAll st.vfs st.payloadPos (pend st),
      payloadPos := st.payloadPos + ((pend st).map (fun e => e.2)).sum,
      payloadLength := st.payloadLength + st.meter } := by
  unfold bookkeeping pend
  cases hr : st.recentTask with
  | none => simp [recordAll]
  | some t =>
    have hc : Covered st.vfs [t] := by simpa [hr] using h
    simp [vfsRecord_ok st.vfs t _ hc, recordAll]

theorem entryBytes_some {w : World} {options : List String} {target : Target} {t : Task}
    {b : Buffer} (h : entryBytes w options target t = some b) :
    ∃ s, resolveTask w options target t = .stream s ∧ drain w s = .ok b := by
  unfold entryBytes at h
  split at h
  · rename_i s hs
    split at h
    · rename_i bytes hd
      injection h with h
      subst h
      exact ⟨s, hs, hd⟩
    · cases h
  · cases h

theorem recordAll_append (es fs : List (Task × Nat)) :
    ∀ (vfs : Vfs) (pos : Nat),
      recordAll vfs pos (es ++ fs)
        = recordAll (recordAll vfs pos es) (pos + (es.map (fun e => e.2)).sum) fs := by
  induction es with
  | nil => intro vfs pos; simp [recordAll]
  | cons e r ih =>
    intro vfs pos
    obtain ⟨t, n⟩ := e
    simp [recordAll, ih, Nat.add_assoc]

theorem multistream_succ (w : World) (prelude : String) (options : List String)
    (target : Target) (fuel : Nat) (st : State) (segments : List Buffer) :
    multistream w prelude options target (fuel + 1) st segments
      = match factory w prelude options target st with
        | (.finish, st1) => .resolved segments st1
        | (.error e, _) => .rejected e segments
        | (.thrown e, _) => .crashed e segments
        | (.stream s, st1) =>
          match drain w s with
          | .error e => .crashed e segments
          | .ok bytes =>
            multistream w prelude options target fuel { st1 with meter := bytes.length }
              (segments ++ [bytes]) := rfl

theorem factory_entry (w : World) (prelude : String) (options : List String) (target : Target)
    (st : State) (t : Task) (rest : List Task) (s : Source)
    (hc : st.count = 5) (hs : st.stripe = t :: rest)
    (hcov : Covered st.vfs st.recentTask.toList)
    (hres : resolveTask w options target t = .stream s) :
    factory w prelude options target st
      = (.stream s, { count := 5, meter := 0,
                      payloadPos := st.payloadPos + ((pend st).map (fun e => e.2)).sum,
                      payloadLength := st.payloadLength + st.meter, recentTask := some t,
                      stripe := rest, vfs := recordAll st.vfs st.payloadPos (pend st) }) := by
  simp [factory, hc, bookkeeping_ok st hcov, hs, hres, pipeToNewMeter]

theorem loop_resolved (w : World) (prelude : String) (options : List String) (target : Target)
    (pbox : Buffer) (tasks : List Task) :
    ∀ (bs : List Buffer) (st : State) (segments : List Buffer),
      tasks.map (entryBytes w options target) = bs.map some →
      st.count = 5 → st.stripe = tasks →
      Covered st.vfs (st.recentTask.toList ++ tasks) →
      makePreludeBoxFromPrelude (jsReplace prelude "%VIRTUAL_FILESYSTEM%"
        (stringifyVfs (recordAll st.vfs st.payloadPos
          (pend st ++ tasks.zip (bs.map List.length))))) = .ok pbox →
      ∃ final, multistream w prelude options target (tasks.length + 3) st segments
          = .resolved (segments ++ bs
              ++ [paddingBuffer (st.payloadLength + st.meter + (bs.map List.length).sum), pbox])
              final
        ∧ final.vfs = recordAll st.vfs st.payloadPos (pend st ++ tasks.zip (bs.map List.length))
        ∧ final.payloadLength = st.payloadLength + st.meter + (bs.map List.length).sum
        ∧ final.payloadPos
            = st.payloadPos + ((pend st).map (fun e => e.2)).sum + (bs.map List.length).sum
        ∧ final.stripe = [] ∧ final.count = 7 := by
  induction tasks with
  | nil =>
    intro bs st segments hbs hc hs hcov hp
    have hb : bs = [] := by simpa using hbs.symm
    subst hb
    have hcov1 : Covered st.vfs st.recentTask.toList := by simpa using hcov
    simp only [List.zip_nil_left, List.append_nil] at hp
    refine ⟨{ count := 7, meter := pbox.length,
              payloadPos := st.payloadPos + ((pend st).map (fun e => e.2)).sum,
              payloadLength := st.payloadLength + st.meter, recentTask := st.recentTask,
              stripe := [], vfs := recordAll st.vfs st.payloadPos (pend st) }, ?_, ?_⟩
    · simp [multistream, factory, hc, bookkeeping_ok st hcov1, hs, next, pipeToNewMeter,
        drain, boxReply, hp]
    · simp
  | cons t rest ih =>
    intro bs st segments hbs hc hs hcov hp
    cases bs with
    | nil => simp at hbs
    | cons b bs' =>
      simp only [List.map_cons, List.cons.injEq] at hbs
      obtain ⟨hb, hbs'⟩ := hbs
      obtain ⟨s, hres, hdrain⟩ := entryBytes_some hb
      have hcov1 : Covered st.vfs st.recentTask.toList :=
        fun x hx => hcov x (List.mem_append_left _ hx)
      have hcov2 : Covered st.vfs (t :: rest) :=
        fun x hx => hcov x (List.mem_append_right _ hx)
      have hrec : recordAll st.vfs st.payloadPos
            (pend st ++ (t :: rest).zip ((b :: bs').map List.length))
          = recordAll (recordAll st.vfs st.payloadPos (pend st))
              (st.payloadPos + ((pend st).map (fun e => e.2)).sum)
              ((t, b.length) :: rest.zip (bs'.map List.length)) := by
        rw [recordAll_append]; rfl
      rw [hrec] at hp
      obtain ⟨final, hrun, hvfs, hpl, hpp, hstripe, hcount⟩ :=
        ih bs' { count := 5, meter := b.length,
                 payloadPos := st.payloadPos + ((pend st).map (fun e => e.2)).sum,
                 payloadLength := st.payloadLength + st.meter, recentTask := some t,
                 stripe := rest, vfs := recordAll st.vfs st.payloadPos (pend st) }
          (segments ++ [b]) hbs' rfl rfl
          (by simpa using hcov2.recordAll (pend st) st.payloadPos)
          (by simpa [pend] using hp)
      refine ⟨final, ?_, ?_, ?_, ?_, hstripe, hcount⟩
      · have hlen : (t :: rest).length + 3 = (rest.length + 3) + 1 := by simp
        rw [hlen]
        rw [multistream_succ, factory_entry w prelude options target st t rest s hc hs hcov1 hres]
        simp only [hdrain]
        rw [hrun]
        simp [Nat.add_assoc]
      · rw [hvfs, hrec]; simp [pend]
      · rw [hpl]; simp; omega
      · rw [hpp]; simp [pend]; omega


theorem lookup_initVfsStep_isSome (vfs : Vfs) (t : Task) (s : String)
    (h : (vfs.lookup s).isSome = true) : ((initVfsStep vfs t).lookup s).isSome = true := by
  unfold initVfsStep
  split
  · exact h
  · split
    · exact h
    · rw [lookup_objSet]
      split
      · rfl
      · exact h

theorem lookup_foldl_initVfsStep_isSome (l : List Task) :
    ∀ (vfs : Vfs) (s : String), (vfs.lookup s).isSome = true →
      ((l.foldl initVfsStep vfs).lookup s).isSome = true := by
  induction l with
  | nil => intro vfs s h; exact h
  | cons t r ih =>
    intro vfs s h
    exact ih _ s (lookup_initVfsStep_isSome vfs t s h)

theorem covered_initVfsStep (vfs : Vfs) (t : Task) :
    ((initVfsStep vfs t).lookup t.snap).isSome = true ∨ t.snap ∈ objectPrototypeKeys := by
  unfold initVfsStep
  cases h : vfs.lookup t.snap with
  | some o => left; simp [h]
  | none =>
    by_cases hp : t.snap ∈ objectPrototypeKeys
    · right; exact hp
    · left; simp [hp, lookup_objSet]

theorem covered_foldl_initVfsStep (l : List Task) :
    ∀ (vfs : Vfs), Covered (l.foldl initVfsStep vfs) l := by
  induction l with
  | nil => intro vfs t ht; simp at ht
  | cons t r ih =>
    intro vfs x hx
    rcases List.mem_cons.mp hx with hx | hx
    · subst hx
      rcases covered_initVfsStep vfs x with h | h
      · left; exact lookup_foldl_initVfsStep_isSome r _ _ h
      · right; exact h
    · exact ih _ x hx

theorem covered_initVfs (stripe : List Task) : Covered (initVfs stripe) stripe :=
  covered_foldl_initVfsStep stripe []

theorem multistream_stream (w : World) (prelude : String) (options : List String)
    (target : Target) (fuel : Nat) (st st1 : State) (segments : List Buffer) (s : Source)
    (bytes : Buffer) (hf : factory w prelude options target st = (.stream s, st1))
    (hd : drain w s = .ok bytes) :
    multistream w prelude options target (fuel + 1) st segments
      = multistream w prelude options target fuel { st1 with meter := bytes.length }
          (segments ++ [bytes]) := by
  rw [multistream_succ, hf]
  simp only [hd]

theorem producer_resolved (w : World) (backpack : Backpack) (options : List String)
    (target : Target) (stub obox pbox : Buffer) (bs : List Buffer)
    (hstub : w.createReadStream target.binaryPath = .ok stub)
    (hobox : makeBakeryBoxFromOptions options = .ok obox)
    (hbs : backpack.stripe.map (entryBytes w options target) = bs.map some)
    (hpbox : makePreludeBoxFromPrelude (jsReplace backpack.prelude "%VIRTUAL_FILESYSTEM%"
      (stringifyVfs (recordAll (initVfs backpack.stripe) 0
        (backpack.stripe.zip (bs.map List.length))))) = .ok pbox) :
    ∃ final, producer w backpack options target
        = .resolved ([stub, paddingBuffer stub.length, obox, paddingBuffer obox.length,
              payloadHeader] ++ bs
            ++ [paddingBuffer (16 + (bs.map List.length).sum), pbox]) final
      ∧ final.vfs = recordAll (initVfs backpack.stripe) 0
          (backpack.stripe.zip (bs.map List.length))
      ∧ final.payloadLength = 16 + (bs.map List.length).sum
      ∧ final.payloadPos = (bs.map List.length).sum
      ∧ final.stripe = [] ∧ final.count = 7 := by
  obtain ⟨final, hrun, hvfs, hpl, hpp, hstripe, hcount⟩ :=
    loop_resolved w backpack.prelude options target pbox backpack.stripe bs
      { count := 5, meter := 16, payloadPos := 0, payloadLength := 0, recentTask := none,
        stripe := backpack.stripe, vfs := initVfs backpack.stripe }
      [stub, paddingBuffer stub.length, obox, paddingBuffer obox.length, payloadHeader]
      hbs rfl rfl (by simpa using covered_initVfs backpack.stripe) (by simpa [pend] using hpbox)
  refine ⟨final, ?_, ?_, ?_, ?_, hstripe, hcount⟩
  · have hlen : backpack.stripe.length + 8 = (backpack.stripe.length + 3) + 1 + 1 + 1 + 1 + 1 := by
      omega
    unfold producer
    rw [hlen]
    have e0 := multistream_stream w backpack.prelude options target
      (backpack.stripe.length + 3 + 1 + 1 + 1 + 1)
      { count := 0, meter := 0, payloadPos := 0, payloadLength := 0, recentTask := none,
        stripe := backpack.stripe, vfs := initVfs backpack.stripe }
      { count := 1, meter := 0, payloadPos := 0, payloadLength := 0, recentTask := none,
        stripe := backpack.stripe, vfs := initVfs backpack.stripe }
      [] (.file target.binaryPath) stub rfl hstub
    have e1 := multistream_stream w backpack.prelude options target
      (backpack.stripe.length + 3 + 1 + 1 + 1)
      { count := 1, meter := stub.length, payloadPos := 0, payloadLength := 0, recentTask := none,
        stripe := backpack.stripe, vfs := initVfs backpack.stripe }
      { count := 2, meter := 0, payloadPos := 0, payloadLength := 0, recentTask := none,
        stripe := backpack.stripe, vfs := initVfs backpack.stripe }
      [stub] (.buffer (paddingBuffer stub.length)) (paddingBuffer stub.length) rfl rfl
    have e2 := multistream_stream w backpack.prelude options target
      (backpack.stripe.length + 3 + 1 + 1)
      { count := 2, meter := (paddingBuffer stub.length).length, payloadPos := 0,
        payloadLength := 0, recentTask := none,
        stripe := backpack.stripe, vfs := initVfs backpack.stripe }
      { count := 3, meter := 0, payloadPos := 0, payloadLength := 0, recentTask := none,
        stripe := backpack.stripe, vfs := initVfs backpack.stripe }
      [stub, paddingBuffer stub.length] (.buffer obox) obox
      (by simp [factory, boxReply, hobox, next, pipeToNewMeter]) rfl
    have e3 := multistream_stream w backpack.prelude options target
      (backpack.stripe.length + 3 + 1)
      { count := 3, meter := obox.length, payloadPos := 0, payloadLength := 0, recentTask := none,
        stripe := backpack.stripe, vfs := initVfs backpack.stripe }
      { count := 4, meter := 0, payloadPos := 0, payloadLength := 0, recentTask := none,
        stripe := backpack.stripe, vfs := initVfs backpack.stripe }
      [stub, paddingBuffer stub.length, obox] (.buffer (paddingBuffer obox.length))
      (paddingBuffer obox.length) rfl rfl
    have e4 := multistream_stream w backpack.prelude options target
      (backpack.stripe.length + 3)
      { count := 4, meter := (paddingBuffer obox.length).length, payloadPos := 0,
        payloadLength := 0, recentTask := none,
        stripe := backpack.stripe, vfs := initVfs backpack.stripe }
      { count := 5, meter := 0, payloadPos := 0, payloadLength := 0, recentTask := none,
        stripe := backpack.stripe, vfs := initVfs backpack.stripe }
      [stub, paddingBuffer stub.length, obox, paddingBuffer obox.length]
      (.buffer payloadHeader) payloadHeader
      (by simp [factory, boxReply, makePayloadHeader_ok, next, pipeToNewMeter, payloadHeader]) rfl
    refine e0.trans (e1.trans (e2.trans (e3.trans (e4.trans ?_))))
    simpa [payloadHeader] using hrun
  · simpa [pend] using hvfs
  · simpa using hpl
  · simpa [pend] using hpp


/-! ### The records of the index -/

theorem lookup_initVfsStep_nil (vfs : Vfs) (t : Task)
    (h : ∀ s o, vfs.lookup s = some o → o = []) :
    ∀ s o, (initVfsStep vfs t).lookup s = some o → o = [] := by
  intro s o ho
  unfold initVfsStep at ho
  split at ho
  · exact h s o ho
  · split at ho
    · exact h s o ho
    · rw [lookup_objSet] at ho
      split at ho
      · injection ho with ho; exact ho.symm
      · exact h s o ho

theorem lookup_foldl_initVfsStep_nil (l : List Task) :
    ∀ (vfs : Vfs), (∀ s o, vfs.lookup s = some o → o = []) →
      ∀ s o, (l.foldl initVfsStep vfs).lookup s = some o → o = [] := by
  induction l with
  | nil => intro vfs h; exact h
  | cons t r ih => intro vfs h; exact ih _ (lookup_initVfsStep_nil vfs t h)

theorem vfsGet_initVfs (stripe : List Task) (snap : String) (store : Store) :
    vfsGet (initVfs stripe) snap store = none := by
  unfold vfsGet
  cases h : (initVfs stripe).lookup snap with
  | none => rfl
  | some o =>
    have := lookup_foldl_initVfsStep_nil stripe [] (by intro s o h; simp [List.lookup] at h)
      snap o h
    subst this
    rfl

theorem vfsGet_vfsPut (vfs : Vfs) (s : String) (k : Store) (r : Record) (s' : String)
    (k' : Store) :
    vfsGet (vfsPut vfs s k r) s' k'
      = if s' = s ∧ k' = k ∧ (vfs.lookup s).isSome = true then some r else vfsGet vfs s' k' := by
  unfold vfsPut vfsGet
  cases h : vfs.lookup s with
  | none => simp
  | some o =>
    simp only [lookup_objSet]
    by_cases hs : s' = s
    · subst hs
      by_cases hk : k' = k
      · simp [hk, lookup_objSet]
      · simp [hk, h, lookup_objSet]
    · simp [hs]

theorem vfsGet_recordAll (es : List (Task × Nat)) :
    ∀ (vfs : Vfs) (pos : Nat) (snap : String) (store : Store) (r : Record),
      vfsGet (recordAll vfs pos es) snap store = some r →
        vfsGet vfs snap store = some r
        ∨ ∃ i t n, es[i]? = some (t, n) ∧ t.snap = snap ∧ t.store = store
            ∧ r = (pos + ((es.take i).map (fun e => e.2)).sum, n) := by
  induction es with
  | nil => intro vfs pos snap store r h; left; exact h
  | cons e rest ih =>
    intro vfs pos snap store r h
    obtain ⟨t, n⟩ := e
    rcases ih _ _ snap store r h with h1 | ⟨i, t', n', hi, hsnap, hstore, hr⟩
    · rw [vfsGet_vfsPut] at h1
      split at h1
      · rename_i hc
        right
        refine ⟨0, t, n, by simp, hc.1.symm, hc.2.1.symm, ?_⟩
        injection h1 with h1
        simp [← h1]
      · left; exact h1
    · right
      refine ⟨i + 1, t', n', by simpa using hi, hsnap, hstore, ?_⟩
      simp [hr, Nat.add_assoc]

theorem sum_take_le (ls : List Nat) :
    ∀ (i j : Nat) (n : Nat), i < j → ls[i]? = some n →
      (ls.take i).sum + n ≤ (ls.take j).sum := by
  induction ls with
  | nil => intro i j n _ h; simp at h
  | cons x xs ih =>
    intro i j n hij h
    cases j with
    | zero => omega
    | succ j =>
      cases i with
      | zero =>
        simp at h
        subst h
        simp
      | succ i =>
        simp at h
        have := ih i j n (by omega) h
        simp
        omega


/-! ### The concrete run -/

theorem demo_lengths : [List.replicate 5000 1].map List.length = [5000] := by
  simp only [List.map_cons, List.map_nil, List.length_replicate]

theorem demo_vfs : recordAll (initVfs demoBackpack.stripe) 0 (demoBackpack.stripe.zip [5000])
    = [("snap", [(Store.CONTENT, (0, 5000))])] := by decide

theorem demo_json : stringifyVfs [("snap", [(Store.CONTENT, (0, 5000))])]
    = "\x7b\x22snap\x22:\x7b\x22CONTENT\x22:[0,5000]\x7d\x7d" := by decide

theorem demo_replace : jsReplace demoBackpack.prelude "%VIRTUAL_FILESYSTEM%"
      "\x7b\x22snap\x22:\x7b\x22CONTENT\x22:[0,5000]\x7d\x7d"
    = "run(\x7b\x22snap\x22:\x7b\x22CONTENT\x22:[0,5000]\x7d\x7d)" := by decide

set_option maxRecDepth 4096 in
theorem demo_box : makePreludeBoxFromPrelude
      "run(\x7b\x22snap\x22:\x7b\x22CONTENT\x22:[0,5000]\x7d\x7d)"
    = .ok demoPreludeBox := by
  rfl

theorem demo_preludeBox :
    makePreludeBoxFromPrelude (jsReplace demoBackpack.prelude "%VIRTUAL_FILESYSTEM%"
      (stringifyVfs (recordAll (initVfs demoBackpack.stripe) 0
        (demoBackpack.stripe.zip ([List.replicate 5000 1].map List.length))))) = .ok demoPreludeBox := by
  rw [demo_lengths, demo_vfs, demo_json, demo_replace, demo_box]

theorem demo_stub : demoWorld.createReadStream demoTarget.binaryPath
    = .ok (List.replicate 10 127) := rfl

theorem demo_optionsBox : makeBakeryBoxFromOptions ["x"] = .ok demoOptionsBox := rfl

theorem demo_entries : demoBackpack.stripe.map (entryBytes demoWorld ["x"] demoTarget)
    = [List.replicate 5000 1].map some := rfl

/-- C5: in a run in which the stub stream delivers `stub`, the options box is
`obox`, the entries resolve in queue order to the byte sequences `bs` and the
prelude box is `pbox`, the producer resolves, and the bytes written to the
output are the stub, its padding, the options box, its padding, the payload
header box, the entries back to back with nothing between them, the final
padding and the prelude box, in this order. -/
theorem producer_output_layout (w : World) (backpack : Backpack) (options : List String)
    (target : Target) (stub obox pbox : Buffer) (bs : List Buffer)
    (hstub : w.createReadStream target.binaryPath = .ok stub)
    (hobox : makeBakeryBoxFromOptions options = .ok obox)
    (hbs : backpack.stripe.map (entryBytes w options target) = bs.map some)
    (hpbox : makePreludeBoxFromPrelude (jsReplace backpack.prelude "%VIRTUAL_FILESYSTEM%"
      (stringifyVfs (recordAll (initVfs backpack.stripe) 0
        (backpack.stripe.zip (bs.map List.length))))) = .ok pbox) :
    ∃ segments final, producer w backpack options target = .resolved segments final
      ∧ makePayloadHeader = .ok payloadHeader
      ∧ Buffer.concat segments
          = stub ++ paddingBuffer stub.length ++ obox ++ paddingBuffer obox.length
            ++ payloadHeader ++ Buffer.concat bs
            ++ paddingBuffer (16 + (Buffer.concat bs).length) ++ pbox := by
  obtain ⟨final, hrun, -⟩ :=
    producer_resolved w backpack options target stub obox pbox bs hstub hobox hbs hpbox
  refine ⟨_, final, hrun, makePayloadHeader_ok, ?_⟩
  simp [Buffer.concat, List.length_flatten]

theorem producer_output_layout_witness :
    ∃ segments final, producer demoWorld demoBackpack ["x"] demoTarget
        = .resolved segments final
      ∧ makePayloadHeader = .ok payloadHeader
      ∧ Buffer.concat segments
          = List.replicate 10 127 ++ paddingBuffer (List.replicate 10 127).length
            ++ demoOptionsBox ++ paddingBuffer demoOptionsBox.length
            ++ payloadHeader ++ Buffer.concat [List.replicate 5000 1]
            ++ paddingBuffer (16 + (Buffer.concat [List.replicate 5000 1]).length)
            ++ demoPreludeBox :=
  producer_output_layout demoWorld demoBackpack ["x"] demoTarget _ _ _ _
    demo_stub demo_optionsBox demo_entries demo_preludeBox


theorem recorded_entry (stripe : List Task) (bs : List Buffer)
    (hlen : stripe.length = bs.length) (snap : String) (store : Store) (off len : Nat)
    (h : vfsGet (recordAll (initVfs stripe) 0 (stripe.zip (bs.map List.length))) snap store
      = some (off, len)) :
    ∃ i t b, stripe[i]? = some t ∧ bs[i]? = some b ∧ t.snap = snap ∧ t.store = store
      ∧ off = ((bs.take i).map List.length).sum ∧ len = b.length := by
  rcases vfsGet_recordAll _ _ _ _ _ _ h with h0 | ⟨i, t, n, hi, hsnap, hstore, hr⟩
  · rw [vfsGet_initVfs] at h0
    cases h0
  · rw [List.getElem?_zip_eq_some] at hi
    obtain ⟨hti, hni⟩ := hi
    simp only [List.getElem?_map, Option.map_eq_some'] at hni
    obtain ⟨b, hb, hbn⟩ := hni
    refine ⟨i, t, b, hti, hb, hsnap, hstore, ?_, ?_⟩
    · have h1 : off = 0 + (((stripe.zip (bs.map List.length)).take i).map (fun e => e.2)).sum :=
        congrArg Prod.fst hr
      have h2 : (stripe.zip (bs.map List.length)).map (fun e => e.2) = bs.map List.length :=
        List.map_snd_zip _ _ (by simp [hlen])
      rw [h1, List.map_take, h2, List.map_take]
      simp
    · have h1 : len = n := congrArg Prod.snd hr
      rw [h1, ← hbn]

theorem stripe_length_eq {w : World} {options : List String} {target : Target}
    {stripe : List Task} {bs : List Buffer}
    (hbs : stripe.map (entryBytes w options target) = bs.map some) :
    stripe.length = bs.length := by
  have := congrArg List.length hbs
  simpa using this

/-- C6: in a run that resolves, every record `[offset, length]` of the final
index belongs to an entry of the stripe; its offset is the sum of the byte
counts of all entries before that entry (0 for the first, the offset being
relative to the end of the payload header box), its length is the byte count
of the entry, and the ranges of two records do not overlap. -/
theorem vfs_record_offsets (w : World) (backpack : Backpack) (options : List String)
    (target : Target) (stub obox pbox : Buffer) (bs : List Buffer)
    (hstub : w.createReadStream target.binaryPath = .ok stub)
    (hobox : makeBakeryBoxFromOptions options = .ok obox)
    (hbs : backpack.stripe.map (entryBytes w options target) = bs.map some)
    (hpbox : makePreludeBoxFromPrelude (jsReplace backpack.prelude "%VIRTUAL_FILESYSTEM%"
      (stringifyVfs (recordAll (initVfs backpack.stripe) 0
        (backpack.stripe.zip (bs.map List.length))))) = .ok pbox) :
    ∃ segments final, producer w backpack options target = .resolved segments final
      ∧ final.vfs = recordAll (initVfs backpack.stripe) 0
          (backpack.stripe.zip (bs.map List.length))
      ∧ (∀ snap store off len, vfsGet final.vfs snap store = some (off, len) →
          ∃ i t b, backpack.stripe[i]? = some t ∧ bs[i]? = some b
            ∧ t.snap = snap ∧ t.store = store
            ∧ off = ((bs.take i).map List.length).sum ∧ len = b.length)
      ∧ (∀ snap₁ store₁ snap₂ store₂ off₁ len₁ off₂ len₂,
          (snap₁, store₁) ≠ (snap₂, store₂) →
          vfsGet final.vfs snap₁ store₁ = some (off₁, len₁) →
          vfsGet final.vfs snap₂ store₂ = some (off₂, len₂) →
          off₁ + len₁ ≤ off₂ ∨ off₂ + len₂ ≤ off₁) := by
  obtain ⟨final, hrun, hvfs, -⟩ :=
    producer_resolved w backpack options target stub obox pbox bs hstub hobox hbs hpbox
  have hlen := stripe_length_eq hbs
  refine ⟨_, final, hrun, hvfs, ?_, ?_⟩
  · intro snap store off len h
    rw [hvfs] at h
    exact recorded_entry backpack.stripe bs hlen snap store off len h
  · intro snap₁ store₁ snap₂ store₂ off₁ len₁ off₂ len₂ hne h₁ h₂
    rw [hvfs] at h₁ h₂
    obtain ⟨i, t, b, hti, hbi, hs, hk, ho, hl⟩ :=
      recorded_entry backpack.stripe bs hlen _ _ _ _ h₁
    obtain ⟨j, t', b', htj, hbj, hs', hk', ho', hl'⟩ :=
      recorded_entry backpack.stripe bs hlen _ _ _ _ h₂
    have hbi' : (bs.map List.length)[i]? = some len₁ := by simp [hbi, hl]
    have hbj' : (bs.map List.length)[j]? = some len₂ := by simp [hbj, hl']
    rw [List.map_take] at ho ho'
    rcases Nat.lt_trichotomy i j with hij | hij | hij
    · left
      have := sum_take_le _ i j len₁ hij hbi'
      omega
    · exfalso
      subst hij
      rw [hti] at htj
      injection htj with htj
      subst htj
      exact hne (by rw [← hs, ← hk, ← hs', ← hk'])
    · right
      have := sum_take_le _ j i len₂ hij hbj'
      omega

theorem vfs_record_offsets_witness :
    ∃ segments final, producer demoWorld demoBackpack ["x"] demoTarget
        = .resolved segments final
      ∧ final.vfs = [("snap", [(Store.CONTENT, (0, 5000))])]
      ∧ vfsGet final.vfs "snap" Store.CONTENT = some (0, 5000) := by
  obtain ⟨segments, final, hrun, hvfs, -⟩ :=
    vfs_record_offsets demoWorld demoBackpack ["x"] demoTarget _ _ _ _
      demo_stub demo_optionsBox demo_entries demo_preludeBox
  rw [demo_lengths, demo_vfs] at hvfs
  exact ⟨segments, final, hrun, hvfs, by rw [hvfs]; rfl⟩


theorem padded_length (n : Nat) : (n + (paddingBuffer n).length) % 4096 = 0 := by
  rw [paddingBuffer_length]; omega

theorem getElem?_segments (a b c d e p q : Buffer) (bs : List Buffer) :
    ([a, b, c, d, e] ++ bs ++ [p, q])[2]? = some c
      ∧ ([a, b, c, d, e] ++ bs ++ [p, q])[4]? = some e
      ∧ ([a, b, c, d, e] ++ bs ++ [p, q])[bs.length + 5]? = some p
      ∧ ([a, b, c, d, e] ++ bs ++ [p, q])[bs.length + 6]? = some q := by
  refine ⟨by simp, by simp, ?_, ?_⟩
  · rw [List.getElem?_append_right (by simp)]
    simp
  · rw [List.getElem?_append_right (by simp)]
    simp

theorem take_segments (a b c d e p q : Buffer) (bs : List Buffer) :
    ([a, b, c, d, e] ++ bs ++ [p, q]).take 2 = [a, b]
      ∧ ([a, b, c, d, e] ++ bs ++ [p, q]).take 4 = [a, b, c, d]
      ∧ ([a, b, c, d, e] ++ bs ++ [p, q]).take (bs.length + 6) = [a, b, c, d, e] ++ bs ++ [p] := by
  refine ⟨by simp, by simp, ?_⟩
  have h : [a, b, c, d, e] ++ bs ++ [p, q] = ([a, b, c, d, e] ++ bs ++ [p]) ++ [q] := by simp
  rw [h]
  exact List.take_left' (by simp)

/-- C7 (amended): in a run that resolves, the `payloadLength` from which the
final padding is computed is 16, the byte count of the payload header box,
plus the sum of the byte counts of all entries, and the final padding has
length `(4096 - (16 + P) mod 4096) mod 4096` with `P` that sum. -/
theorem final_padding_length (w : World) (backpack : Backpack) (options : List String)
    (target : Target) (stub obox pbox : Buffer) (bs : List Buffer)
    (hstub : w.createReadStream target.binaryPath = .ok stub)
    (hobox : makeBakeryBoxFromOptions options = .ok obox)
    (hbs : backpack.stripe.map (entryBytes w options target) = bs.map some)
    (hpbox : makePreludeBoxFromPrelude (jsReplace backpack.prelude "%VIRTUAL_FILESYSTEM%"
      (stringifyVfs (recordAll (initVfs backpack.stripe) 0
        (backpack.stripe.zip (bs.map List.length))))) = .ok pbox) :
    ∃ segments final, producer w backpack options target = .resolved segments final
      ∧ final.payloadLength = 16 + (bs.map List.length).sum
      ∧ segments[bs.length + 5]? = some (paddingBuffer final.payloadLength)
      ∧ (paddingBuffer final.payloadLength).length
          = (4096 - (16 + (bs.map List.length).sum) % 4096) % 4096 := by
  obtain ⟨final, hrun, -, hpl, -⟩ :=
    producer_resolved w backpack options target stub obox pbox bs hstub hobox hbs hpbox
  refine ⟨_, final, hrun, hpl, ?_, ?_⟩
  · rw [hpl]
    exact (getElem?_segments _ _ _ _ _ _ _ bs).2.2.1
  · rw [hpl, paddingBuffer_length]

theorem final_padding_length_witness :
    ∃ segments final, producer demoWorld demoBackpack ["x"] demoTarget
        = .resolved segments final
      ∧ final.payloadLength = 5016
      ∧ segments[6]? = some (paddingBuffer 5016)
      ∧ (paddingBuffer 5016).length = 3176 := by
  obtain ⟨segments, final, hrun, hpl, hseg, hlen⟩ :=
    final_padding_length demoWorld demoBackpack ["x"] demoTarget _ _ _ _
      demo_stub demo_optionsBox demo_entries demo_preludeBox
  rw [demo_lengths] at hpl hlen
  have h5016 : final.payloadLength = 5016 := hpl
  rw [h5016] at hseg hlen
  exact ⟨segments, final, hrun, h5016, hseg, hlen⟩

/-- C7 (as stated) fails on the run with a stub of 10 bytes, the option list
`["x"]` and one CONTENT entry of 5000 bytes: the options box has 19 bytes and
its padding 4077, the `payloadLength` used for the final padding is 5016, not
5000, and the final padding has 3176 bytes, not 3192. -/
theorem payloadLength_counterexample :
    ∃ segments final obox pad2 pad3,
      producer demoWorld demoBackpack ["x"] demoTarget = .resolved segments final
      ∧ segments[2]? = some obox ∧ obox.length = 19
      ∧ segments[3]? = some pad2 ∧ pad2.length = 4077
      ∧ final.payloadLength = 5016
      ∧ final.payloadLength ≠ ([List.replicate 5000 1].map List.length).sum
      ∧ segments[6]? = some pad3 ∧ pad3.length = 3176
      ∧ pad3.length ≠ (4096 - 5000 % 4096) % 4096 := by
  obtain ⟨final, hrun, -, hpl, -⟩ :=
    producer_resolved demoWorld demoBackpack ["x"] demoTarget _ _ _ _
      demo_stub demo_optionsBox demo_entries demo_preludeBox
  rw [demo_lengths] at hpl hrun
  have h5016 : final.payloadLength = 5016 := hpl
  refine ⟨_, final, demoOptionsBox, paddingBuffer demoOptionsBox.length, paddingBuffer 5016,
    hrun, rfl, rfl, rfl, ?_, h5016, ?_, rfl, ?_, ?_⟩
  · rw [paddingBuffer_length]; rfl
  · rw [h5016, demo_lengths]; decide
  · rw [paddingBuffer_length]
  · rw [paddingBuffer_length]; decide

/-- C8: in a run that resolves, the options box, the payload header box and
the prelude box each start at an output offset that is a multiple of 4096,
whatever the stub, the option list and the entries are. -/
theorem boxes_page_aligned (w : World) (backpack : Backpack) (options : List String)
    (target : Target) (stub obox pbox : Buffer) (bs : List Buffer)
    (hstub : w.createReadStream target.binaryPath = .ok stub)
    (hobox : makeBakeryBoxFromOptions options = .ok obox)
    (hbs : backpack.stripe.map (entryBytes w options target) = bs.map some)
    (hpbox : makePreludeBoxFromPrelude (jsReplace backpack.prelude "%VIRTUAL_FILESYSTEM%"
      (stringifyVfs (recordAll (initVfs backpack.stripe) 0
        (backpack.stripe.zip (bs.map List.length))))) = .ok pbox) :
    ∃ segments final, producer w backpack options target = .resolved segments final
      ∧ segments[2]? = some obox
      ∧ (Buffer.concat (segments.take 2)).length % 4096 = 0
      ∧ segments[4]? = some payloadHeader
      ∧ (Buffer.concat (segments.take 4)).length % 4096 = 0
      ∧ segments[bs.length + 6]? = some pbox
      ∧ (Buffer.concat (segments.take (bs.length + 6))).length % 4096 = 0 := by
  obtain ⟨final, hrun, -⟩ :=
    producer_resolved w backpack options target stub obox pbox bs hstub hobox hbs hpbox
  obtain ⟨g2, g4, -, g6⟩ := getElem?_segments stub (paddingBuffer stub.length) obox
    (paddingBuffer obox.length) payloadHeader
    (paddingBuffer (16 + (bs.map List.length).sum)) pbox bs
  obtain ⟨t2, t4, t6⟩ := take_segments stub (paddingBuffer stub.length) obox
    (paddingBuffer obox.length) payloadHeader
    (paddingBuffer (16 + (bs.map List.length).sum)) pbox bs
  have p1 := padded_length stub.length
  have p2 := padded_length obox.length
  have p3 := padded_length (16 + (bs.map List.length).sum)
  refine ⟨_, final, hrun, g2, ?_, g4, ?_, g6, ?_⟩
  · rw [t2]; simp [Buffer.concat]; omega
  · rw [t4]; simp [Buffer.concat]; omega
  · rw [t6]
    simp [Buffer.concat, List.length_flatten, payloadHeader]
    omega

theorem boxes_page_aligned_witness :
    ∃ segments final, producer demoWorld demoBackpack ["x"] demoTarget
        = .resolved segments final
      ∧ segments[2]? = some demoOptionsBox
      ∧ (Buffer.concat (segments.take 2)).length % 4096 = 0
      ∧ segments[4]? = some payloadHeader
      ∧ (Buffer.concat (segments.take 4)).length % 4096 = 0
      ∧ segments[[List.replicate 5000 1].length + 6]? = some demoPreludeBox
      ∧ (Buffer.concat (segments.take ([List.replicate 5000 1].length + 6))).length % 4096 = 0 :=
  boxes_page_aligned demoWorld demoBackpack ["x"] demoTarget _ _ _ _
    demo_stub demo_optionsBox demo_entries demo_preludeBox


/-! ### The substitution of the index into the prelude -/

theorem Buffer.from_append (a b : String) :
    Buffer.from (a ++ b) = Buffer.from a ++ Buffer.from b := by
  simp [Buffer.from, String.data_append, List.flatMap_append]

theorem getSubstitution_of_no_pattern (matched before after : List Char) :
    ∀ (r : List Char), hasDollarPattern r = false →
      getSubstitution matched before after r = r := by
  intro r
  induction r using getSubstitution.induct matched before after with
  | case1 => intro _; rfl
  | case2 c => intro _; rfl
  | case3 r _ => intro h; simp [hasDollarPattern] at h
  | case4 r _ _ => intro h; simp [hasDollarPattern] at h
  | case5 r _ _ _ => intro h; simp [hasDollarPattern] at h
  | case6 r _ _ _ _ => intro h; simp [hasDollarPattern] at h
  | case7 d r h2 h3 h4 h5 ih =>
    intro h
    rw [hasDollarPattern] at h
    have h' : hasDollarPattern (d :: r) = false := by
      cases hh : hasDollarPattern (d :: r)
      · rfl
      · rw [hh] at h; simp at h
    rw [getSubstitution]
    simp [h2, h3, h4, h5, ih h']
  | case8 c d r hc ih =>
    intro h
    rw [hasDollarPattern] at h
    have h' : hasDollarPattern (d :: r) = false := by
      cases hh : hasDollarPattern (d :: r)
      · rfl
      · rw [hh] at h; simp at h
    rw [getSubstitution]
    simp [hc, ih h']

theorem indexOfFrom_eq_none (pat : List Char) :
    ∀ (s : List Char) (i : Nat), ¬ pat <:+: s → indexOfFrom pat s i = none := by
  intro s
  induction s with
  | nil =>
    intro i h
    have hp : pat ≠ [] := by
      intro hp; subst hp; exact h List.nil_infix
    cases pat with
    | nil => exact absurd rfl hp
    | cons c p => simp [indexOfFrom, List.isPrefixOf]
  | cons c s ih =>
    intro i h
    rw [List.infix_cons_iff] at h
    push_neg at h
    have h1 : pat.isPrefixOf (c :: s) = false := by
      rw [Bool.eq_false_iff]
      intro hp
      exact h.1 (List.isPrefixOf_iff_prefix.mp hp)
    simp [indexOfFrom, h1, ih (i + 1) h.2]

theorem indexOfFrom_first (pat b : List Char) :
    ∀ (a : List Char) (i : Nat),
      (∀ a' b', a ++ pat ++ b = a' ++ pat ++ b' → a.length ≤ a'.length) →
      indexOfFrom pat (a ++ pat ++ b) i = some (i + a.length) := by
  intro a
  induction a with
  | nil =>
    intro i _
    have hp : pat.isPrefixOf (pat ++ b) = true :=
      List.isPrefixOf_iff_prefix.mpr (List.prefix_append _ _)
    cases hs : pat ++ b with
    | nil =>
      rw [hs] at hp
      simp [indexOfFrom, hp, hs]
    | cons c s =>
      rw [hs] at hp
      simp [indexOfFrom, hp, hs]
  | cons c a ih =>
    intro i hmin
    have h1 : pat.isPrefixOf (c :: (a ++ pat ++ b)) = false := by
      rw [Bool.eq_false_iff]
      intro hp
      obtain ⟨t, ht⟩ := List.isPrefixOf_iff_prefix.mp hp
      have := hmin [] t (by simpa using ht.symm)
      simp at this
    have ih' := ih (i + 1) (by
      intro a' b' h
      have := hmin (c :: a') b' (by simp [h])
      simpa using this)
    show indexOfFrom pat (c :: (a ++ pat ++ b)) i = _
    rw [indexOfFrom, if_neg (by rw [h1]; exact Bool.false_ne_true), ih']
    simp only [List.length_cons, Option.some.injEq]
    omega


set_option maxRecDepth 4096 in
theorem twice_preludeBox :
    makePreludeBoxFromPrelude (jsReplace twiceBackpack.prelude "%VIRTUAL_FILESYSTEM%"
      (stringifyVfs (recordAll (initVfs twiceBackpack.stripe) 0
        (twiceBackpack.stripe.zip (([] : List Buffer).map List.length))))) = .ok twicePreludeBox := by
  rfl

theorem empty_optionsBox : makeBakeryBoxFromOptions []
    = .ok [0xdf, 0xc4, 0x18, 0x48, 0x70, 0x06, 0xc3, 0x7a, 0x76, 0x8a, 0x55, 0x56, 1, 0, 0, 0, 0] :=
  rfl

/-- C9 (as stated) fails on the run with an empty stripe and the prelude
template `%VIRTUAL_FILESYSTEM%;%VIRTUAL_FILESYSTEM%`: only the first occurrence
of the token is replaced by the serialized index, so the body of the prelude
box still holds the token and differs from the body in which every occurrence
is replaced. -/
theorem replace_every_counterexample :
    ∃ segments final box,
      producer demoWorld twiceBackpack [] demoTarget = .resolved segments final
      ∧ segments[6]? = some box
      ∧ box.drop 16 = Buffer.from (prepend ++ "\x7b\x7d;%VIRTUAL_FILESYSTEM%" ++ append)
      ∧ String.mk (replaceEvery "%VIRTUAL_FILESYSTEM%".data (stringifyVfs final.vfs).data 0
            twiceBackpack.prelude.data) = "\x7b\x7d;\x7b\x7d"
      ∧ box.drop 16 ≠ Buffer.from (prepend
          ++ String.mk (replaceEvery "%VIRTUAL_FILESYSTEM%".data (stringifyVfs final.vfs).data 0
              twiceBackpack.prelude.data)
          ++ append) := by
  obtain ⟨final, hrun, hvfs, -⟩ :=
    producer_resolved demoWorld twiceBackpack [] demoTarget _ _ _ []
      demo_stub empty_optionsBox rfl twice_preludeBox
  refine ⟨_, final, twicePreludeBox, hrun, rfl, rfl, ?_, ?_⟩
  · rw [hvfs]; decide
  · rw [hvfs]; decide


theorem jsReplace_first (a b json : String)
    (hfirst : ∀ a' b' : List Char,
      a.data ++ "%VIRTUAL_FILESYSTEM%".data ++ b.data = a' ++ "%VIRTUAL_FILESYSTEM%".data ++ b' →
        a.data.length ≤ a'.length)
    (hjson : hasDollarPattern json.data = false) :
    jsReplace (a ++ "%VIRTUAL_FILESYSTEM%" ++ b) "%VIRTUAL_FILESYSTEM%" json = a ++ json ++ b := by
  unfold jsReplace
  have hidx := indexOfFrom_first "%VIRTUAL_FILESYSTEM%".data b.data a.data 0 hfirst
  simp only [String.data_append, hidx, Nat.zero_add]
  have htake : (a.data ++ "%VIRTUAL_FILESYSTEM%".data ++ b.data).take a.data.length = a.data := by
    rw [List.append_assoc]; exact List.take_left' rfl
  have hdrop : (a.data ++ "%VIRTUAL_FILESYSTEM%".data ++ b.data).drop
      (a.data.length + "%VIRTUAL_FILESYSTEM%".data.length) = b.data :=
    List.drop_left' (by simp)
  rw [htake, hdrop, getSubstitution_of_no_pattern _ _ _ _ hjson]
  apply String.ext
  simp

theorem jsReplace_absent (template json : String)
    (h : ¬ "%VIRTUAL_FILESYSTEM%".data <:+: template.data) :
    jsReplace template "%VIRTUAL_FILESYSTEM%" json = template := by
  unfold jsReplace
  rw [indexOfFrom_eq_none _ _ 0 h]

/-- C9 (amended): for every prelude template `a ++ token ++ b` in which this
occurrence of the token `%VIRTUAL_FILESYSTEM%` is the first one, and every
index whose JSON serialization holds none of the four patterns that a
replacement text expands (a dollar sign directly followed by a dollar sign, an
ampersand, a grave accent or an apostrophe; any other dollar sign is allowed),
the body of the prelude box is `prepend`, then `a`, the JSON serialization of
the index and `b`, then `append`: the first occurrence of the token is replaced
and the text after it is left as it is, later occurrences of the token
included. -/
theorem prelude_body_first_occurrence (a b : String) (vfs : Vfs)
    (hfirst : ∀ a' b' : List Char,
      a.data ++ "%VIRTUAL_FILESYSTEM%".data ++ b.data = a' ++ "%VIRTUAL_FILESYSTEM%".data ++ b' →
        a.data.length ≤ a'.length)
    (hjson : hasDollarPattern (stringifyVfs vfs).data = false)
    (hsize : (Buffer.from (prepend ++ (a ++ stringifyVfs vfs ++ b) ++ append)).length
      < 2147483648) :
    ∃ header : Buffer, header.length = 16
      ∧ makePreludeBoxFromPrelude
          (jsReplace (a ++ "%VIRTUAL_FILESYSTEM%" ++ b) "%VIRTUAL_FILESYSTEM%" (stringifyVfs vfs))
        = .ok (header ++ (Buffer.from prepend
            ++ (Buffer.from a ++ Buffer.from (stringifyVfs vfs) ++ Buffer.from b)
            ++ Buffer.from append)) := by
  rw [jsReplace_first a b _ hfirst hjson, makePreludeBoxFromPrelude_ok _ hsize]
  refine ⟨_, ?_, by simp only [Buffer.from_append]; rfl⟩
  simp [le32]

theorem demo_first (a' b' : List Char)
    (h : "run(".data ++ "%VIRTUAL_FILESYSTEM%".data ++ ");%VIRTUAL_FILESYSTEM%".data
      = a' ++ "%VIRTUAL_FILESYSTEM%".data ++ b') :
    "run(".data.length ≤ a'.length := by
  rcases a' with _ | ⟨c0, _ | ⟨c1, _ | ⟨c2, _ | ⟨c3, r⟩⟩⟩⟩
  · simp at h
  · simp at h
  · simp at h
  · simp at h
  · simp

set_option maxRecDepth 8192 in
theorem demo_size :
    (Buffer.from (prepend
      ++ ("run(" ++ stringifyVfs [("/snapshot/$.export.js", [(Store.CONTENT, (0, 5000))])]
            ++ ");%VIRTUAL_FILESYSTEM%")
      ++ append)).length < 2147483648 := by
  decide

set_option maxRecDepth 8192 in
theorem demo_no_pattern :
    hasDollarPattern
      (stringifyVfs [("/snapshot/$.export.js", [(Store.CONTENT, (0, 5000))])]).data = false := by
  decide

set_option maxRecDepth 8192 in
theorem demo_has_dollar :
    '$' ∈ (stringifyVfs [("/snapshot/$.export.js", [(Store.CONTENT, (0, 5000))])]).data := by
  decide

theorem prelude_body_first_occurrence_witness :
    '$' ∈ (stringifyVfs [("/snapshot/$.export.js", [(Store.CONTENT, (0, 5000))])]).data
    ∧ ∃ header : Buffer, header.length = 16
      ∧ makePreludeBoxFromPrelude
          (jsReplace ("run(" ++ "%VIRTUAL_FILESYSTEM%" ++ ");%VIRTUAL_FILESYSTEM%")
            "%VIRTUAL_FILESYSTEM%"
            (stringifyVfs [("/snapshot/$.export.js", [(Store.CONTENT, (0, 5000))])]))
        = .ok (header ++ (Buffer.from prepend
            ++ (Buffer.from "run("
              ++ Buffer.from
                (stringifyVfs [("/snapshot/$.export.js", [(Store.CONTENT, (0, 5000))])])
              ++ Buffer.from ");%VIRTUAL_FILESYSTEM%")
            ++ Buffer.from append)) :=
  ⟨demo_has_dollar, prelude_body_first_occurrence "run(" ");%VIRTUAL_FILESYSTEM%"
    [("/snapshot/$.export.js", [(Store.CONTENT, (0, 5000))])]
    demo_first demo_no_pattern demo_size⟩

/-- C10: for every prelude template that does not hold the token
`%VIRTUAL_FILESYSTEM%` the substitution returns the template unchanged,
whatever the index is, so the prelude box is the box of the template itself,
and when its body is shorter than 2^31 bytes the box is produced with the body
`prepend`, template, `append`. -/
theorem prelude_body_without_token (template : String) (vfs : Vfs)
    (h : ¬ "%VIRTUAL_FILESYSTEM%".data <:+: template.data) :
    jsReplace template "%VIRTUAL_FILESYSTEM%" (stringifyVfs vfs) = template
      ∧ makePreludeBoxFromPrelude (jsReplace template "%VIRTUAL_FILESYSTEM%" (stringifyVfs vfs))
          = makePreludeBoxFromPrelude template
      ∧ ((Buffer.from (prepend ++ template ++ append)).length < 2147483648 →
          ∃ header : Buffer, header.length = 16
            ∧ makePreludeBoxFromPrelude
                (jsReplace template "%VIRTUAL_FILESYSTEM%" (stringifyVfs vfs))
              = .ok (header
                  ++ (Buffer.from prepend ++ Buffer.from template ++ Buffer.from append))) := by
  have hr := jsReplace_absent template (stringifyVfs vfs) h
  refine ⟨hr, by rw [hr], ?_⟩
  intro hsize
  rw [hr, makePreludeBoxFromPrelude_ok _ hsize]
  refine ⟨_, ?_, by simp only [Buffer.from_append]; rfl⟩
  simp [le32]

theorem prelude_body_without_token_witness :
    jsReplace "run()" "%VIRTUAL_FILESYSTEM%"
        (stringifyVfs [("snap", [(Store.CONTENT, (0, 5000))])]) = "run()"
      ∧ makePreludeBoxFromPrelude (jsReplace "run()" "%VIRTUAL_FILESYSTEM%"
          (stringifyVfs [("snap", [(Store.CONTENT, (0, 5000))])]))
          = makePreludeBoxFromPrelude "run()"
      ∧ ((Buffer.from (prepend ++ "run()" ++ append)).length < 2147483648 →
          ∃ header : Buffer, header.length = 16
            ∧ makePreludeBoxFromPrelude (jsReplace "run()" "%VIRTUAL_FILESYSTEM%"
                (stringifyVfs [("snap", [(Store.CONTENT, (0, 5000))])]))
              = .ok (header
                  ++ (Buffer.from prepend ++ Buffer.from "run()" ++ Buffer.from append))) :=
  prelude_body_without_token "run()" [("snap", [(Store.CONTENT, (0, 5000))])] (by decide)


/-! ### Runs that fail -/

theorem resolveTask_ne_finish (w : World) (options : List String) (target : Target)
    (t : Task) : resolveTask w options target t ≠ .finish := by
  unfold resolveTask
  intro h
  split at h
  · split at h <;> cases h
  · split at h
    · split at h
      · split at h <;> cases h
      · cases h
    · cases h

theorem loop_prefix (w : World) (prelude : String) (options : List String) (target : Target)
    (rest : List Task) (fuel : Nat) (pre : List Task) :
    ∀ (bs : List Buffer) (st : State) (segments : List Buffer),
      pre.map (entryBytes w options target) = bs.map some →
      st.count = 5 → st.stripe = pre ++ rest →
      Covered st.vfs (st.recentTask.toList ++ (pre ++ rest)) →
      ∃ st', multistream w prelude options target (fuel + pre.length) st segments
          = multistream w prelude options target fuel st' (segments ++ bs)
        ∧ st'.count = 5 ∧ st'.stripe = rest
        ∧ Covered st'.vfs (st'.recentTask.toList ++ rest) := by
  induction pre with
  | nil =>
    intro bs st segments hbs hc hs hcov
    have hb : bs = [] := by simpa using hbs.symm
    subst hb
    exact ⟨st, by simp, hc, by simpa using hs, by simpa using hcov⟩
  | cons t pre ih =>
    intro bs st segments hbs hc hs hcov
    cases bs with
    | nil => simp at hbs
    | cons b bs' =>
      simp only [List.map_cons, List.cons.injEq] at hbs
      obtain ⟨hb, hbs'⟩ := hbs
      obtain ⟨s, hres, hdrain⟩ := entryBytes_some hb
      have hcov1 : Covered st.vfs st.recentTask.toList :=
        fun x hx => hcov x (List.mem_append_left _ hx)
      have hcov2 : Covered st.vfs (t :: (pre ++ rest)) :=
        fun x hx => hcov x (List.mem_append_right _ hx)
      obtain ⟨st', hrun, hc', hs', hcov'⟩ :=
        ih bs' { count := 5, meter := b.length,
                 payloadPos := st.payloadPos + ((pend st).map (fun e => e.2)).sum,
                 payloadLength := st.payloadLength + st.meter, recentTask := some t,
                 stripe := pre ++ rest, vfs := recordAll st.vfs st.payloadPos (pend st) }
          (segments ++ [b]) hbs' rfl rfl
          (by simpa using hcov2.recordAll (pend st) st.payloadPos)
      refine ⟨st', ?_, hc', hs', hcov'⟩
      have hlen : fuel + (t :: pre).length = (fuel + pre.length) + 1 := by simp; omega
      rw [hlen, multistream_succ,
        factory_entry w prelude options target st t (pre ++ rest) s hc (by simpa using hs) hcov1 hres]
      simp only [hdrain]
      rw [hrun]
      simp


theorem producer_fixed_segments (w : World) (backpack : Backpack) (options : List String)
    (target : Target) (stub obox : Buffer)
    (hstub : w.createReadStream target.binaryPath = .ok stub)
    (hobox : makeBakeryBoxFromOptions options = .ok obox) :
    producer w backpack options target
      = multistream w backpack.prelude options target (backpack.stripe.length + 3)
          { count := 5, meter := 16, payloadPos := 0, payloadLength := 0, recentTask := none,
            stripe := backpack.stripe, vfs := initVfs backpack.stripe }
          [stub, paddingBuffer stub.length, obox, paddingBuffer obox.length, payloadHeader] := by
  have hlen : backpack.stripe.length + 8 = (backpack.stripe.length + 3) + 1 + 1 + 1 + 1 + 1 := by
    omega
  unfold producer
  rw [hlen]
  have e0 := multistream_stream w backpack.prelude options target
    (backpack.stripe.length + 3 + 1 + 1 + 1 + 1)
    { count := 0, meter := 0, payloadPos := 0, payloadLength := 0, recentTask := none,
      stripe := backpack.stripe, vfs := initVfs backpack.stripe }
    { count := 1, meter := 0, payloadPos := 0, payloadLength := 0, recentTask := none,
      stripe := backpack.stripe, vfs := initVfs backpack.stripe }
    [] (.file target.binaryPath) stub rfl hstub
  have e1 := multistream_stream w backpack.prelude options target
    (backpack.stripe.length + 3 + 1 + 1 + 1)
    { count := 1, meter := stub.length, payloadPos := 0, payloadLength := 0, recentTask := none,
      stripe := backpack.stripe, vfs := initVfs backpack.stripe }
    { count := 2, meter := 0, payloadPos := 0, payloadLength := 0, recentTask := none,
      stripe := backpack.stripe, vfs := initVfs backpack.stripe }
    [stub] (.buffer (paddingBuffer stub.length)) (paddingBuffer stub.length) rfl rfl
  have e2 := multistream_stream w backpack.prelude options target
    (backpack.stripe.length + 3 + 1 + 1)
    { count := 2, meter := (paddingBuffer stub.length).length, payloadPos := 0,
      payloadLength := 0, recentTask := none,
      stripe := backpack.stripe, vfs := initVfs backpack.stripe }
    { count := 3, meter := 0, payloadPos := 0, payloadLength := 0, recentTask := none,
      stripe := backpack.stripe, vfs := initVfs backpack.stripe }
    [stub, paddingBuffer stub.length] (.buffer obox) obox
    (by simp [factory, boxReply, hobox, next, pipeToNewMeter]) rfl
  have e3 := multistream_stream w backpack.prelude options target
    (backpack.stripe.length + 3 + 1)
    { count := 3, meter := obox.length, payloadPos := 0, payloadLength := 0, recentTask := none,
      stripe := backpack.stripe, vfs := initVfs backpack.stripe }
    { count := 4, meter := 0, payloadPos := 0, payloadLength := 0, recentTask := none,
      stripe := backpack.stripe, vfs := initVfs backpack.stripe }
    [stub, paddingBuffer stub.length, obox] (.buffer (paddingBuffer obox.length))
    (paddingBuffer obox.length) rfl rfl
  have e4 := multistream_stream w backpack.prelude options target
    (backpack.stripe.length + 3)
    { count := 4, meter := (paddingBuffer obox.length).length, payloadPos := 0,
      payloadLength := 0, recentTask := none,
      stripe := backpack.stripe, vfs := initVfs backpack.stripe }
    { count := 5, meter := 0, payloadPos := 0, payloadLength := 0, recentTask := none,
      stripe := backpack.stripe, vfs := initVfs backpack.stripe }
    [stub, paddingBuffer stub.length, obox, paddingBuffer obox.length]
    (.buffer payloadHeader) payloadHeader
    (by simp [factory, boxReply, makePayloadHeader_ok, next, pipeToNewMeter, payloadHeader]) rfl
  refine e0.trans (e1.trans (e2.trans (e3.trans (e4.trans ?_))))
  simp [payloadHeader]

theorem multistream_failure (w : World) (prelude : String) (options : List String)
    (target : Target) (fuel : Nat) (st : State) (t : Task) (rest : List Task)
    (segments : List Buffer) (o : Outcome)
    (hc : st.count = 5) (hs : st.stripe = t :: rest)
    (hcov : Covered st.vfs st.recentTask.toList)
    (hf : failure w options target t segments = some o) :
    multistream w prelude options target (fuel + 1) st segments = o := by
  rw [multistream_succ]
  unfold failure at hf
  simp only [factory, hc, bookkeeping_ok st hcov, hs]
  cases hres : resolveTask w options target t with
  | stream s =>
    rw [hres] at hf
    simp only at hf
    cases hd : drain w s with
    | ok b => rw [hd] at hf; simp at hf
    | error e =>
      rw [hd] at hf
      simp only [Option.some.injEq] at hf
      simp [hd, hf]
  | finish => rw [hres] at hf; simp at hf
  | error e =>
    rw [hres] at hf
    simp only [Option.some.injEq] at hf
    simp [hf]
  | thrown e =>
    rw [hres] at hf
    simp only [Option.some.injEq] at hf
    simp [hf]

theorem producer_first_failure (w : World) (backpack : Backpack) (options : List String)
    (target : Target) (stub obox : Buffer) (pre post : List Task) (t : Task)
    (bs : List Buffer) (o : Outcome)
    (hstub : w.createReadStream target.binaryPath = .ok stub)
    (hobox : makeBakeryBoxFromOptions options = .ok obox)
    (hstripe : backpack.stripe = pre ++ t :: post)
    (hbs : pre.map (entryBytes w options target) = bs.map some)
    (hf : failure w options target t
      ([stub, paddingBuffer stub.length, obox, paddingBuffer obox.length, payloadHeader] ++ bs)
      = some o) :
    producer w backpack options target = o := by
  rw [producer_fixed_segments w backpack options target stub obox hstub hobox]
  have hlen : backpack.stripe.length + 3 = (post.length + 3 + 1) + pre.length := by
    rw [hstripe]; simp; omega
  rw [hlen]
  obtain ⟨st', hrun, hc', hs', hcov'⟩ :=
    loop_prefix w backpack.prelude options target (t :: post) (post.length + 3 + 1) pre bs
      { count := 5, meter := 16, payloadPos := 0, payloadLength := 0, recentTask := none,
        stripe := backpack.stripe, vfs := initVfs backpack.stripe }
      [stub, paddingBuffer stub.length, obox, paddingBuffer obox.length, payloadHeader]
      hbs rfl hstripe (by simpa [hstripe] using covered_initVfs (pre ++ t :: post))
  rw [hrun]
  exact multistream_failure w backpack.prelude options target _ st' t post _ o hc' hs'
    (fun x hx => hcov' x (List.mem_append_left _ hx)) hf


theorem factory_low (w : World) (prelude : String) (options : List String) (target : Target)
    (st : State) (hc : st.count < 5) :
    (∃ s st1, factory w prelude options target st = (.stream s, st1)
        ∧ st1.count ≤ 5 ∧ st1.stripe = st.stripe)
      ∨ (∃ e st1, factory w prelude options target st = (.thrown e, st1)) := by
  have h : st.count = 0 ∨ st.count = 1 ∨ st.count = 2 ∨ st.count = 3 ∨ st.count = 4 := by omega
  rcases h with h | h | h | h | h
  · left; exact ⟨.file target.binaryPath, next st, by simp [factory, h],
      by simp [next, pipeToNewMeter, h], rfl⟩
  · left; exact ⟨.buffer (paddingBuffer st.meter), next st, by simp [factory, h],
      by simp [next, pipeToNewMeter, h], rfl⟩
  · cases hb : makeBakeryBoxFromOptions options with
    | ok b => left; exact ⟨.buffer b, next st, by simp [factory, h, boxReply, hb],
        by simp [next, pipeToNewMeter, h], rfl⟩
    | error e => right; exact ⟨e, st, by simp [factory, h, boxReply, hb]⟩
  · left; exact ⟨.buffer (paddingBuffer st.meter), next st, by simp [factory, h],
      by simp [next, pipeToNewMeter, h], rfl⟩
  · left; exact ⟨.buffer payloadHeader, next st,
      by simp [factory, h, boxReply, makePayloadHeader_ok, payloadHeader],
      by simp [next, pipeToNewMeter, h], rfl⟩

theorem bookkeeping_stripe (st st1 : State) (h : bookkeeping st = .ok st1) :
    st1.stripe = st.stripe ∧ st1.count = st.count := by
  unfold bookkeeping at h
  split at h
  · split at h
    · injection h with h; subst h; exact ⟨rfl, rfl⟩
    · cases h
  · injection h with h; subst h; exact ⟨rfl, rfl⟩

theorem resolved_entries (w : World) (prelude : String) (options : List String)
    (target : Target) (fuel : Nat) :
    ∀ (st : State) (segments segments' : List Buffer) (final : State),
      multistream w prelude options target fuel st segments = .resolved segments' final →
      st.count ≤ 5 → ∀ t ∈ st.stripe, entryBytes w options target t ≠ none := by
  induction fuel with
  | zero => intro st segments segments' final h; simp [multistream] at h
  | succ fuel ih =>
    intro st segments segments' final h hc
    rw [multistream_succ] at h
    by_cases hlow : st.count < 5
    · rcases factory_low w prelude options target st hlow with
        ⟨s, st1, hf, hc1, hs1⟩ | ⟨e, st1, hf⟩
      · rw [hf] at h
        simp only at h
        cases hd : drain w s with
        | error e => rw [hd] at h; simp at h
        | ok b =>
          rw [hd] at h
          simp only at h
          have := ih _ _ _ _ h (by simpa using hc1)
          simpa [hs1] using this
      · rw [hf] at h; simp at h
    · have h5 : st.count = 5 := by omega
      simp only [factory, h5] at h
      cases hb : bookkeeping st with
      | error e => rw [hb] at h; simp at h
      | ok st1 =>
        obtain ⟨hs1, hc1⟩ := bookkeeping_stripe st st1 hb
        rw [hb] at h
        simp only [OfNat.ofNat_ne_zero, OfNat.ofNat_ne_one, if_false] at h
        cases hst : st.stripe with
        | nil => intro t ht; simp at ht
        | cons t rest =>
          rw [hs1, hst] at h
          simp at h
          cases hres : resolveTask w options target t with
          | finish => exact absurd hres (resolveTask_ne_finish w options target t)
          | error e => rw [hres] at h; simp at h
          | thrown e => rw [hres] at h; simp at h
          | stream s =>
            rw [hres] at h
            simp only at h
            cases hd : drain w s with
            | error e => rw [hd] at h; simp at h
            | ok b =>
              rw [hd] at h
              simp only at h
              have hrest := ih _ _ _ _ h (by simp [pipeToNewMeter, hc1, h5])
              intro x hx
              rcases List.mem_cons.mp hx with hx | hx
              · subst hx
                simp [entryBytes, hres, hd]
              · exact hrest x (by simpa [pipeToNewMeter] using hx)

theorem producer_resolved_entries (w : World) (backpack : Backpack) (options : List String)
    (target : Target) (segments : List Buffer) (final : State)
    (h : producer w backpack options target = .resolved segments final) :
    ∀ t ∈ backpack.stripe, entryBytes w options target t ≠ none :=
  resolved_entries w backpack.prelude options target _ _ _ _ _ h (by simp)


theorem resolveTask_compile_error (w : World) (options : List String) (target : Target)
    (t : Task) (buffer : Buffer) (e : String)
    (hfile : fileOf t = none) (hbuf : t.buffer = some buffer) (hstore : t.store = STORE_CODE)
    (hcompile : w.compile options target buffer = .error e) :
    resolveTask w options target t = .error e := by
  unfold fileOf at hfile
  unfold resolveTask
  rw [hfile]
  simp [hbuf, hstore, hcompile]

theorem never_resolved (w : World) (options : List String) (target : Target) (t : Task)
    (h : entryBytes w options target t = none) (backpack : Backpack)
    (ht : t ∈ backpack.stripe) (segments : List Buffer) (final : State) :
    producer w backpack options target ≠ .resolved segments final :=
  fun hr => producer_resolved_entries w backpack options target segments final hr t ht h

/-- C11: when the entries before a buffer-backed CODE entry resolve and
`compile` returns an error for that entry, the run is rejected with that
error; the segments produced are the five fixed ones and those of the entries
before it, none for that entry, for a later entry, for the final padding or
for the prelude box; and no run on a stripe holding such an entry resolves. -/
theorem compile_error_rejects (w : World) (backpack : Backpack) (options : List String)
    (target : Target) (stub obox : Buffer) (pre post : List Task) (t : Task)
    (bs : List Buffer) (buffer : Buffer) (e : String)
    (hstub : w.createReadStream target.binaryPath = .ok stub)
    (hobox : makeBakeryBoxFromOptions options = .ok obox)
    (hstripe : backpack.stripe = pre ++ t :: post)
    (hbs : pre.map (entryBytes w options target) = bs.map some)
    (hfile : fileOf t = none) (hbuf : t.buffer = some buffer) (hstore : t.store = STORE_CODE)
    (hcompile : w.compile options target buffer = .error e) :
    producer w backpack options target
        = .rejected e ([stub, paddingBuffer stub.length, obox, paddingBuffer obox.length,
            payloadHeader] ++ bs)
      ∧ ([stub, paddingBuffer stub.length, obox, paddingBuffer obox.length,
            payloadHeader] ++ bs).length = 5 + pre.length
      ∧ ∀ (other : Backpack), t ∈ other.stripe → ∀ segments final,
          producer w other options target ≠ .resolved segments final := by
  have hres := resolveTask_compile_error w options target t buffer e hfile hbuf hstore hcompile
  refine ⟨?_, ?_, ?_⟩
  · exact producer_first_failure w backpack options target stub obox pre post t bs _
      hstub hobox hstripe hbs (by simp [failure, hres])
  · have := congrArg List.length hbs
    simp at this
    simp [this]
    omega
  · intro other ht segments final
    exact never_resolved w options target t (by simp [entryBytes, hres]) other ht segments final

theorem compile_error_rejects_witness :
    producer demoWorld codeBackpack ["x"] demoTarget
        = .rejected "SyntaxError" ([List.replicate 10 127,
            paddingBuffer (List.replicate 10 127).length, demoOptionsBox,
            paddingBuffer demoOptionsBox.length, payloadHeader] ++ [List.replicate 5000 1])
      ∧ ([List.replicate 10 127,
            paddingBuffer (List.replicate 10 127).length, demoOptionsBox,
            paddingBuffer demoOptionsBox.length, payloadHeader]
          ++ [List.replicate 5000 1]).length = 5 + [contentTask].length
      ∧ ∀ (other : Backpack), codeTask ∈ other.stripe →
          ∀ segments final, producer demoWorld other ["x"] demoTarget ≠ .resolved segments final :=
  compile_error_rejects demoWorld codeBackpack ["x"] demoTarget _ _
    [contentTask] [otherTask] codeTask [List.replicate 5000 1] [1, 2, 3] "SyntaxError"
    demo_stub demo_optionsBox rfl rfl rfl rfl rfl rfl


theorem resolveTask_file_wrong_store (w : World) (options : List String) (target : Target)
    (t : Task) (path : String) (hfile : fileOf t = some path)
    (hstore : t.store ≠ STORE_CONTENT) :
    resolveTask w options target t = .thrown "AssertionError" := by
  unfold fileOf at hfile
  unfold resolveTask
  rw [hfile]
  simp [hstore]

theorem resolveTask_malformed (w : World) (options : List String) (target : Target)
    (t : Task) (hfile : fileOf t = none) (hbuf : t.buffer = none) :
    resolveTask w options target t = .thrown "AssertionError: producer: bad stripe task" := by
  unfold fileOf at hfile
  unfold resolveTask
  rw [hfile]
  simp [hbuf]

/-- C12: an entry whose source file is set and whose storage kind is not
CONTENT resolves to no stream in any world, so none of the bytes of the file is
read; when the entries before it resolve, the run stops at the failed assertion
with the five fixed segments and those of the entries before it, and no run on
a stripe holding such an entry resolves. -/
theorem file_entry_wrong_store (w : World) (backpack : Backpack) (options : List String)
    (target : Target) (stub obox : Buffer) (pre post : List Task) (t : Task)
    (bs : List Buffer) (path : String)
    (hstub : w.createReadStream target.binaryPath = .ok stub)
    (hobox : makeBakeryBoxFromOptions options = .ok obox)
    (hstripe : backpack.stripe = pre ++ t :: post)
    (hbs : pre.map (entryBytes w options target) = bs.map some)
    (hfile : fileOf t = some path) (hstore : t.store ≠ STORE_CONTENT) :
    (∀ (w' : World) (options' : List String) (target' : Target),
        resolveTask w' options' target' t = .thrown "AssertionError"
          ∧ entryBytes w' options' target' t = none)
      ∧ producer w backpack options target
          = .crashed "AssertionError" ([stub, paddingBuffer stub.length, obox,
              paddingBuffer obox.length, payloadHeader] ++ bs)
      ∧ ([stub, paddingBuffer stub.length, obox, paddingBuffer obox.length,
            payloadHeader] ++ bs).length = 5 + pre.length
      ∧ ∀ (w' : World) (other : Backpack), t ∈ other.stripe → ∀ segments final,
          producer w' other options target ≠ .resolved segments final := by
  have hres := fun w' options' target' =>
    resolveTask_file_wrong_store w' options' target' t path hfile hstore
  refine ⟨?_, ?_, ?_, ?_⟩
  · intro w' options' target'
    exact ⟨hres w' options' target', by simp [entryBytes, hres w' options' target']⟩
  · exact producer_first_failure w backpack options target stub obox pre post t bs _
      hstub hobox hstripe hbs (by simp [failure, hres w options target])
  · have := congrArg List.length hbs
    simp at this
    simp [this]
    omega
  · intro w' other ht segments final
    exact never_resolved w' options target t (by simp [entryBytes, hres w' options target])
      other ht segments final

theorem file_entry_wrong_store_witness :
    (∀ (w' : World) (options' : List String) (target' : Target),
        resolveTask w' options' target' codeFileTask = .thrown "AssertionError"
          ∧ entryBytes w' options' target' codeFileTask = none)
      ∧ producer demoWorld { prelude := "run()", stripe := [contentTask, codeFileTask] } ["x"]
            demoTarget
          = .crashed "AssertionError" ([List.replicate 10 127,
              paddingBuffer (List.replicate 10 127).length, demoOptionsBox,
              paddingBuffer demoOptionsBox.length, payloadHeader] ++ [List.replicate 5000 1])
      ∧ ([List.replicate 10 127,
            paddingBuffer (List.replicate 10 127).length, demoOptionsBox,
            paddingBuffer demoOptionsBox.length, payloadHeader]
          ++ [List.replicate 5000 1]).length = 5 + [contentTask].length
      ∧ ∀ (w' : World) (other : Backpack), codeFileTask ∈ other.stripe → ∀ segments final,
          producer w' other ["x"] demoTarget ≠ .resolved segments final :=
  file_entry_wrong_store demoWorld { prelude := "run()", stripe := [contentTask, codeFileTask] }
    ["x"] demoTarget _ _ [contentTask] [] codeFileTask [List.replicate 5000 1]
    "/project/data.bin" demo_stub demo_optionsBox rfl rfl rfl (by decide)

/-- C13: an entry with neither a source file nor a source buffer resolves to
the failed assertion `bad stripe task` in any world and whatever its storage
kind is; when the entries before it resolve, the run stops there, and no run
on a stripe holding such an entry resolves.  Conversely an entry with a source
file and the kind CONTENT, or with a source buffer, never ends in that
assertion. -/
theorem malformed_entry (w : World) (backpack : Backpack) (options : List String)
    (target : Target) (stub obox : Buffer) (pre post : List Task) (t : Task)
    (bs : List Buffer)
    (hstub : w.createReadStream target.binaryPath = .ok stub)
    (hobox : makeBakeryBoxFromOptions options = .ok obox)
    (hstripe : backpack.stripe = pre ++ t :: post)
    (hbs : pre.map (entryBytes w options target) = bs.map some)
    (hfile : fileOf t = none) (hbuf : t.buffer = none) :
    (∀ (w' : World) (options' : List String) (target' : Target) (store : Store),
        resolveTask w' options' target' { t with store := store }
          = .thrown "AssertionError: producer: bad stripe task")
      ∧ producer w backpack options target
          = .crashed "AssertionError: producer: bad stripe task"
              ([stub, paddingBuffer stub.length, obox, paddingBuffer obox.length,
                payloadHeader] ++ bs)
      ∧ (∀ (w' : World) (other : Backpack), t ∈ other.stripe → ∀ segments final,
          producer w' other options target ≠ .resolved segments final)
      ∧ (∀ (w' : World) (options' : List String) (target' : Target) (t' : Task),
          (∃ path, fileOf t' = some path ∧ t'.store = STORE_CONTENT) ∨ t'.buffer.isSome = true →
            resolveTask w' options' target' t'
              ≠ .thrown "AssertionError: producer: bad stripe task") := by
  have hres := fun w' options' target' =>
    resolveTask_malformed w' options' target' t hfile hbuf
  refine ⟨?_, ?_, ?_, ?_⟩
  · intro w' options' target' store
    exact resolveTask_malformed w' options' target' _ hfile hbuf
  · exact producer_first_failure w backpack options target stub obox pre post t bs _
      hstub hobox hstripe hbs (by simp [failure, hres w options target])
  · intro w' other ht segments final
    exact never_resolved w' options target t (by simp [entryBytes, hres w' options target])
      other ht segments final
  · intro w' options' target' t' h hthrown
    unfold resolveTask at hthrown
    rcases h with ⟨path, hp, hs⟩ | hb
    · unfold fileOf at hp
      rw [hp] at hthrown
      simp [hs] at hthrown
    · split at hthrown
      · split at hthrown
        · cases hthrown
        · simp at hthrown
      · split at hthrown
        · split at hthrown
          · split at hthrown <;> cases hthrown
          · cases hthrown
        · rename_i hnone
          simp [hnone] at hb

theorem malformed_entry_witness :
    (∀ (w' : World) (options' : List String) (target' : Target) (store : Store),
        resolveTask w' options' target' { emptyTask with store := store }
          = .thrown "AssertionError: producer: bad stripe task")
      ∧ producer demoWorld { prelude := "run()", stripe := [contentTask, emptyTask] } ["x"]
            demoTarget
          = .crashed "AssertionError: producer: bad stripe task"
              ([List.replicate 10 127, paddingBuffer (List.replicate 10 127).length,
                demoOptionsBox, paddingBuffer demoOptionsBox.length, payloadHeader]
                ++ [List.replicate 5000 1])
      ∧ (∀ (w' : World) (other : Backpack), emptyTask ∈ other.stripe → ∀ segments final,
          producer w' other ["x"] demoTarget ≠ .resolved segments final)
      ∧ (∀ (w' : World) (options' : List String) (target' : Target) (t' : Task),
          (∃ path, fileOf t' = some path ∧ t'.store = STORE_CONTENT) ∨ t'.buffer.isSome = true →
            resolveTask w' options' target' t'
              ≠ .thrown "AssertionError: producer: bad stripe task") :=
  malformed_entry demoWorld { prelude := "run()", stripe := [contentTask, emptyTask] }
    ["x"] demoTarget _ _ [contentTask] [] emptyTask [List.replicate 5000 1]
    demo_stub demo_optionsBox rfl rfl rfl rfl

/-! ### Buffer-backed entries and the last record of a pair -/

theorem vfsGet_recordAll_of_absent (snap : String) (store : Store) (es : List (Task × Nat)) :
    ∀ (vfs : Vfs) (pos : Nat), (∀ e ∈ es, keyOf e.1 ≠ (snap, store)) →
      vfsGet (recordAll vfs pos es) snap store = vfsGet vfs snap store := by
  induction es with
  | nil => intro vfs pos _; rfl
  | cons e rest ih =>
    intro vfs pos h
    obtain ⟨t, n⟩ := e
    have h0 : keyOf t ≠ (snap, store) := h (t, n) (by simp)
    rw [recordAll, ih _ _ (fun e he => h e (List.mem_cons_of_mem _ he)), vfsGet_vfsPut]
    have : ¬ (snap = t.snap ∧ store = t.store ∧ (vfs.lookup t.snap).isSome = true) := by
      rintro ⟨h1, h2, -⟩
      exact h0 (by simp [keyOf, h1, h2])
    rw [if_neg this]

theorem vfsGet_recordAll_last (es : List (Task × Nat)) :
    ∀ (vfs : Vfs) (pos i : Nat) (t : Task) (n : Nat),
      es[i]? = some (t, n) → (vfs.lookup t.snap).isSome = true →
      (∀ (j : Nat) (e : Task × Nat), i < j → es[j]? = some e → keyOf e.1 ≠ keyOf t) →
      vfsGet (recordAll vfs pos es) t.snap t.store
        = some (pos + ((es.take i).map (fun e => e.2)).sum, n) := by
  induction es with
  | nil => intro vfs pos i t n h; simp at h
  | cons e rest ih =>
    intro vfs pos i t n hi hown hlast
    obtain ⟨t0, n0⟩ := e
    cases i with
    | zero =>
      simp at hi
      obtain ⟨ht, hn⟩ := hi
      subst ht hn
      rw [recordAll, vfsGet_recordAll_of_absent, vfsGet_vfsPut]
      · simp [hown]
      · intro e he
        obtain ⟨j, hj⟩ := List.getElem?_of_mem he
        exact hlast (j + 1) e (by omega) (by simpa using hj)
    | succ i =>
      simp at hi
      rw [recordAll, ih _ _ i t n hi (by rw [lookup_vfsPut_isSome]; exact hown)
        (fun j e hj he => hlast (j + 1) e (by omega) (by simpa using he))]
      simp [Nat.add_assoc]

theorem exists_last_key (k : String × Store) (l : List Task) :
    (∃ t ∈ l, keyOf t = k) →
      ∃ i t, l[i]? = some t ∧ keyOf t = k
        ∧ ∀ (j : Nat) (t' : Task), i < j → l[j]? = some t' → keyOf t' ≠ k := by
  induction l with
  | nil => rintro ⟨t, ht, -⟩; simp at ht
  | cons x xs ih =>
    rintro ⟨t, ht, hk⟩
    by_cases hx : ∃ t ∈ xs, keyOf t = k
    · obtain ⟨i, t', hi, hk', hlast⟩ := ih hx
      refine ⟨i + 1, t', by simpa using hi, hk', ?_⟩
      intro j t'' hj hj'
      cases j with
      | zero => omega
      | succ j => exact hlast j t'' (by omega) (by simpa using hj')
    · have hxk : keyOf x = k := by
        rcases List.mem_cons.mp ht with h | h
        · subst h; exact hk
        · exact absurd ⟨t, h, hk⟩ hx
      refine ⟨0, x, by simp, hxk, ?_⟩
      intro j t'' hj hj'
      cases j with
      | zero => omega
      | succ j =>
        intro hk''
        simp at hj'
        exact hx ⟨t'', List.getElem?_mem hj', hk''⟩

theorem own_initVfs (stripe : List Task) (t : Task) (ht : t ∈ stripe)
    (hp : t.snap ∉ objectPrototypeKeys) : ((initVfs stripe).lookup t.snap).isSome = true := by
  rcases covered_initVfs stripe t ht with h | h
  · exact h
  · exact absurd h hp

theorem recorded_last (stripe : List Task) (bs : List Buffer)
    (hlen : stripe.length = bs.length) (i : Nat) (t : Task) (b : Buffer)
    (hti : stripe[i]? = some t) (hbi : bs[i]? = some b)
    (hp : t.snap ∉ objectPrototypeKeys)
    (hlast : ∀ (j : Nat) (t' : Task), i < j → stripe[j]? = some t' → keyOf t' ≠ keyOf t) :
    vfsGet (recordAll (initVfs stripe) 0 (stripe.zip (bs.map List.length))) t.snap t.store
      = some (((bs.take i).map List.length).sum, b.length) := by
  have hz : (stripe.zip (bs.map List.length))[i]? = some (t, b.length) := by
    rw [List.getElem?_zip_eq_some]
    simp [hti, hbi]
  rw [vfsGet_recordAll_last _ _ 0 i t b.length hz
    (own_initVfs stripe t (List.getElem?_mem hti) hp)]
  · have h2 : (stripe.zip (bs.map List.length)).map (fun e => e.2) = bs.map List.length :=
      List.map_snd_zip _ _ (by simp [hlen])
    rw [List.map_take, h2, List.map_take]
    simp
  · intro j e hj he
    rw [List.getElem?_zip_eq_some] at he
    exact hlast j e.1 hj he.1


theorem entry_of_resolved {w : World} {options : List String} {target : Target}
    {stripe : List Task} {bs : List Buffer}
    (hbs : stripe.map (entryBytes w options target) = bs.map some)
    {i : Nat} {t : Task} (hti : stripe[i]? = some t) :
    ∃ b, bs[i]? = some b ∧ entryBytes w options target t = some b := by
  have h := congrArg (fun l => l[i]?) hbs
  simp only [List.getElem?_map, hti, Option.map_some'] at h
  cases hb : bs[i]? with
  | none => rw [hb] at h; simp at h
  | some b =>
    rw [hb] at h
    simp only [Option.map_some', Option.some.injEq] at h
    exact ⟨b, rfl, h⟩

theorem entryBytes_buffer (w : World) (options : List String) (target : Target) (t : Task)
    (buf b : Buffer) (hfile : fileOf t = none) (hbuf : t.buffer = some buf)
    (hb : entryBytes w options target t = some b) :
    (t.store ≠ STORE_CODE → b = buf)
      ∧ (t.store = STORE_CODE → w.compile options target buf = .ok b) := by
  unfold fileOf at hfile
  unfold entryBytes resolveTask at hb
  rw [hfile] at hb
  simp only [hbuf] at hb
  by_cases hs : t.store = STORE_CODE
  · refine ⟨fun h => absurd hs h, fun _ => ?_⟩
    simp only [hs, if_true] at hb
    cases hc : w.compile options target buf with
    | error e => rw [hc] at hb; simp at hb
    | ok c =>
      rw [hc] at hb
      simp [drain] at hb
      rw [hb]
  · refine ⟨fun _ => ?_, fun h => absurd h hs⟩
    simp [hs, drain] at hb
    exact hb.symm

theorem getElem?_entry_segment (a b c d e p q : Buffer) (bs : List Buffer) (i : Nat)
    (x : Buffer) (h : bs[i]? = some x) :
    ([a, b, c, d, e] ++ bs ++ [p, q])[5 + i]? = some x := by
  have hi : i < bs.length := by
    rcases Nat.lt_or_ge i bs.length with hlt | hge
    · exact hlt
    · rw [List.getElem?_eq_none hge] at h; cases h
  rw [List.append_assoc, List.getElem?_append_right (by simp)]
  simp only [List.length_cons, List.length_nil, Nat.zero_add, Nat.reduceAdd,
    Nat.add_sub_cancel_left]
  rw [List.getElem?_append_left hi, h]

/-- C14: in a run that resolves, the segment of a buffer-backed entry and the
length of its record in the index are those of the bytes the resolver
delivers: the buffer of the entry itself when the storage kind is not CODE, and
the bytes that `compile(options, target, buffer)` returns when it is CODE.  The
record is the one found in the final index when no later entry has the same
snapshot id and storage kind and the snapshot id is not the name of a property
inherited from `Object.prototype`. -/
theorem buffer_entry_bytes (w : World) (backpack : Backpack) (options : List String)
    (target : Target) (stub obox pbox : Buffer) (bs : List Buffer)
    (i : Nat) (t : Task) (buf : Buffer)
    (hstub : w.createReadStream target.binaryPath = .ok stub)
    (hobox : makeBakeryBoxFromOptions options = .ok obox)
    (hbs : backpack.stripe.map (entryBytes w options target) = bs.map some)
    (hpbox : makePreludeBoxFromPrelude (jsReplace backpack.prelude "%VIRTUAL_FILESYSTEM%"
      (stringifyVfs (recordAll (initVfs backpack.stripe) 0
        (backpack.stripe.zip (bs.map List.length))))) = .ok pbox)
    (hti : backpack.stripe[i]? = some t)
    (hfile : fileOf t = none) (hbuf : t.buffer = some buf) :
    ∃ b segments final, bs[i]? = some b
      ∧ (t.store ≠ STORE_CODE → b = buf)
      ∧ (t.store = STORE_CODE → w.compile options target buf = .ok b)
      ∧ producer w backpack options target = .resolved segments final
      ∧ segments[5 + i]? = some b
      ∧ (t.snap ∉ objectPrototypeKeys →
          (∀ (j : Nat) (t' : Task), i < j → backpack.stripe[j]? = some t' →
            keyOf t' ≠ keyOf t) →
          vfsGet final.vfs t.snap t.store
            = some (((bs.take i).map List.length).sum, b.length)) := by
  obtain ⟨b, hbi, hb⟩ := entry_of_resolved hbs hti
  obtain ⟨h1, h2⟩ := entryBytes_buffer w options target t buf b hfile hbuf hb
  obtain ⟨final, hrun, hvfs, -⟩ :=
    producer_resolved w backpack options target stub obox pbox bs hstub hobox hbs hpbox
  refine ⟨b, _, final, hbi, h1, h2, hrun, getElem?_entry_segment _ _ _ _ _ _ _ bs i b hbi, ?_⟩
  intro hp hlast
  rw [hvfs]
  exact recorded_last backpack.stripe bs (stripe_length_eq hbs) i t b hti hbi hp hlast


theorem buffer_stub : compileWorld.createReadStream demoTarget.binaryPath
    = .ok (List.replicate 10 127) := rfl

theorem buffer_entries : bufferBackpack.stripe.map (entryBytes compileWorld ["x"] demoTarget)
    = [[0, 1, 2, 3], [4]].map some := rfl

set_option maxRecDepth 8192 in
theorem buffer_preludeBox :
    makePreludeBoxFromPrelude (jsReplace bufferBackpack.prelude "%VIRTUAL_FILESYSTEM%"
      (stringifyVfs (recordAll (initVfs bufferBackpack.stripe) 0
        (bufferBackpack.stripe.zip ([[0, 1, 2, 3], [4]].map List.length))))) = .ok bufferPreludeBox := by
  rfl

theorem buffer_entry_bytes_witness :
    (∃ b segments final, ([[0, 1, 2, 3], [4]] : List Buffer)[0]? = some b
      ∧ (codeTask.store ≠ STORE_CODE → b = [1, 2, 3])
      ∧ (codeTask.store = STORE_CODE → compileWorld.compile ["x"] demoTarget [1, 2, 3] = .ok b)
      ∧ producer compileWorld bufferBackpack ["x"] demoTarget = .resolved segments final
      ∧ segments[5 + 0]? = some b
      ∧ (codeTask.snap ∉ objectPrototypeKeys →
          (∀ (j : Nat) (t' : Task), 0 < j → bufferBackpack.stripe[j]? = some t' →
            keyOf t' ≠ keyOf codeTask) →
          vfsGet final.vfs codeTask.snap codeTask.store
            = some (((([[0, 1, 2, 3], [4]] : List Buffer).take 0).map List.length).sum, b.length)))
    ∧ (∃ b segments final, ([[0, 1, 2, 3], [4]] : List Buffer)[1]? = some b
      ∧ (otherTask.store ≠ STORE_CODE → b = [4])
      ∧ (otherTask.store = STORE_CODE → compileWorld.compile ["x"] demoTarget [4] = .ok b)
      ∧ producer compileWorld bufferBackpack ["x"] demoTarget = .resolved segments final
      ∧ segments[5 + 1]? = some b
      ∧ (otherTask.snap ∉ objectPrototypeKeys →
          (∀ (j : Nat) (t' : Task), 1 < j → bufferBackpack.stripe[j]? = some t' →
            keyOf t' ≠ keyOf otherTask) →
          vfsGet final.vfs otherTask.snap otherTask.store
            = some (((([[0, 1, 2, 3], [4]] : List Buffer).take 1).map List.length).sum,
                b.length))) :=
  ⟨buffer_entry_bytes compileWorld bufferBackpack ["x"] demoTarget _ _ _ _ 0 codeTask [1, 2, 3]
      buffer_stub demo_optionsBox buffer_entries buffer_preludeBox rfl rfl rfl,
   buffer_entry_bytes compileWorld bufferBackpack ["x"] demoTarget _ _ _ _ 1 otherTask [4]
      buffer_stub demo_optionsBox buffer_entries buffer_preludeBox rfl rfl rfl⟩

/-! ### The empty stripe, the wrapper text and termination -/

set_option maxRecDepth 8192 in
theorem empty_preludeBox :
    makePreludeBoxFromPrelude (jsReplace emptyBackpack.prelude "%VIRTUAL_FILESYSTEM%" "\x7b\x7d")
      = .ok emptyPreludeBox := by
  rfl

theorem pipe_succ (w : World) (out : WriteStream) (prelude : String) (options : List String)
    (target : Target) (fuel : Nat) (st : State) (segments : List Buffer) :
    pipe w out prelude options target (fuel + 1) st segments
      = match factory w prelude options target st with
        | (.finish, st1) =>
          match out.close segments with
          | .error e => .crashed e segments
          | .ok _ => .resolved segments st1
        | (.error e, _) => .rejected e segments
        | (.thrown e, _) => .crashed e segments
        | (.stream s, st1) =>
          match drain w s with
          | .error e => .crashed e segments
          | .ok bytes =>
            match out.write segments bytes with
            | .error e => .crashed e segments
            | .ok _ =>
              pipe w out prelude options target fuel { st1 with meter := bytes.length }
                (segments ++ [bytes]) := rfl

theorem multistream_resolved_prefix (w : World) (prelude : String) (options : List String)
    (target : Target) (fuel : Nat) :
    ∀ (st : State) (segments segments' : List Buffer) (final : State),
      multistream w prelude options target fuel st segments = .resolved segments' final →
      segments <+: segments' := by
  induction fuel with
  | zero => intro st segments segments' final h; simp [multistream] at h
  | succ fuel ih =>
    intro st segments segments' final h
    rw [multistream_succ] at h
    generalize factory w prelude options target st = r at h
    obtain ⟨reply, st1⟩ := r
    cases reply with
    | finish =>
      simp only at h
      injection h with h1 h2
      subst h1
      exact List.prefix_refl _
    | error e => simp at h
    | thrown e => simp at h
    | stream s =>
      simp only at h
      cases hd : drain w s with
      | error e => rw [hd] at h; simp at h
      | ok b =>
        rw [hd] at h
        simp only at h
        exact (List.prefix_append _ _).trans (ih _ _ _ _ h)

/-- A run of the sequencer that ends is also a run into a write stream that
takes each of its segments after the ones before and closes after the last. -/
theorem pipe_of_multistream (w : World) (out : WriteStream) (prelude : String)
    (options : List String) (target : Target) (segments' : List Buffer) (final : State)
    (hwrite : ∀ (pre : List Buffer) (b : Buffer) (post : List Buffer),
      segments' = pre ++ b :: post → out.write pre b = .ok ())
    (hclose : out.close segments' = .ok ()) (fuel : Nat) :
    ∀ (st : State) (segments : List Buffer),
      multistream w prelude options target fuel st segments = .resolved segments' final →
      pipe w out prelude options target fuel st segments = .resolved segments' final := by
  induction fuel with
  | zero => intro st segments h; simp [multistream] at h
  | succ fuel ih =>
    intro st segments h
    rw [pipe_succ]
    rw [multistream_succ] at h
    generalize factory w prelude options target st = r at h ⊢
    obtain ⟨reply, st1⟩ := r
    cases reply with
    | finish =>
      simp only at h ⊢
      injection h with h1 h2
      subst h1
      rw [hclose, h2]
    | error e => simp at h
    | thrown e => simp at h
    | stream s =>
      simp only at h ⊢
      cases hd : drain w s with
      | error e => rw [hd] at h; simp at h
      | ok b =>
        rw [hd] at h
        simp only at h ⊢
        obtain ⟨post, hpost⟩ := multistream_resolved_prefix _ _ _ _ _ _ _ _ _ h
        rw [hwrite segments b post (by rw [← hpost]; simp)]
        exact ih _ _ h

/-- A run into a write stream that resolves is a run of the sequencer that
ends, the write stream has taken each segment written after `segments`, and it
has closed. -/
theorem multistream_of_pipe (w : World) (out : WriteStream) (prelude : String)
    (options : List String) (target : Target) (segments' : List Buffer) (final : State)
    (fuel : Nat) :
    ∀ (st : State) (segments : List Buffer),
      pipe w out prelude options target fuel st segments = .resolved segments' final →
      multistream w prelude options target fuel st segments = .resolved segments' final
        ∧ out.close segments' = .ok ()
        ∧ ∀ (pre : List Buffer) (b : Buffer) (post : List Buffer),
            segments' = pre ++ b :: post → segments.length ≤ pre.length →
              out.write pre b = .ok () := by
  induction fuel with
  | zero => intro st segments h; simp [pipe] at h
  | succ fuel ih =>
    intro st segments h
    rw [multistream_succ]
    rw [pipe_succ] at h
    generalize factory w prelude options target st = r at h ⊢
    obtain ⟨reply, st1⟩ := r
    cases reply with
    | finish =>
      simp only at h ⊢
      cases hc : out.close segments with
      | error e => rw [hc] at h; simp at h
      | ok u =>
        rw [hc] at h
        simp only at h
        injection h with h1 h2
        subst h1
        subst h2
        refine ⟨rfl, hc, ?_⟩
        intro pre b post hsplit hlen
        have := congrArg List.length hsplit
        simp at this
        omega
    | error e => simp at h
    | thrown e => simp at h
    | stream s =>
      simp only at h ⊢
      cases hd : drain w s with
      | error e => rw [hd] at h; simp at h
      | ok b =>
        rw [hd] at h
        simp only at h ⊢
        cases hw : out.write segments b with
        | error e => rw [hw] at h; simp at h
        | ok u =>
          rw [hw] at h
          simp only at h
          obtain ⟨hm, hc, hrest⟩ := ih _ _ h
          refine ⟨hm, hc, ?_⟩
          intro pre c post hsplit hlen
          rcases Nat.lt_or_ge segments.length pre.length with hlt | hge
          · exact hrest pre c post hsplit (by simp; omega)
          · have hl : pre.length = segments.length := by omega
            obtain ⟨post', hpost'⟩ := multistream_resolved_prefix _ _ _ _ _ _ _ _ _ hm
            have e : segments ++ (b :: post') = pre ++ (c :: post) := by
              rw [← hsplit, ← hpost']; simp
            obtain ⟨e1, e2⟩ := List.append_inj e hl.symm
            injection e2 with e3 e4
            subst e1
            subst e3
            exact hw

/-- A write stream that takes every segment and closes makes no difference:
`producer` is the run of the default export into such a stream. -/
theorem pipe_accepting (w : World) (out : WriteStream) (prelude : String)
    (options : List String) (target : Target)
    (hwrite : ∀ (pre : List Buffer) (b : Buffer), out.write pre b = .ok ())
    (hclose : ∀ segments : List Buffer, out.close segments = .ok ()) (fuel : Nat) :
    ∀ (st : State) (segments : List Buffer),
      pipe w out prelude options target fuel st segments
        = multistream w prelude options target fuel st segments := by
  induction fuel with
  | zero => intro st segments; rfl
  | succ fuel ih =>
    intro st segments
    rw [pipe_succ, multistream_succ]
    generalize factory w prelude options target st = r
    obtain ⟨reply, st1⟩ := r
    cases reply with
    | finish => simp only; rw [hclose]
    | error e => rfl
    | thrown e => rfl
    | stream s =>
      simp only
      cases hd : drain w s with
      | error e => rfl
      | ok b =>
        simp only
        rw [hwrite]
        exact ih _ _

theorem producerPiped_accepting (w : World) (createWriteStream : String → WriteStream)
    (backpack : Backpack) (options : List String) (target : Target)
    (hwrite : ∀ (pre : List Buffer) (b : Buffer),
      (createWriteStream target.output).write pre b = .ok ())
    (hclose : ∀ segments : List Buffer, (createWriteStream target.output).close segments = .ok ()) :
    producerPiped w createWriteStream backpack options target
      = producer w backpack options target :=
  pipe_accepting w _ _ _ _ hwrite hclose _ _ _

/-- The run into a write stream resolves with the segments of the run of the
sequencer exactly when the write stream takes each of them and closes, and it
resolves with no other segments. -/
theorem producerPiped_resolved (w : World) (createWriteStream : String → WriteStream)
    (backpack : Backpack) (options : List String) (target : Target)
    (segments : List Buffer) (final : State)
    (hrun : producer w backpack options target = .resolved segments final) :
    (((∀ (pre : List Buffer) (b : Buffer) (post : List Buffer), segments = pre ++ b :: post →
          (createWriteStream target.output).write pre b = .ok ())
        ∧ (createWriteStream target.output).close segments = .ok ())
      ↔ producerPiped w createWriteStream backpack options target = .resolved segments final)
    ∧ ∀ (segments' : List Buffer) (final' : State),
        producerPiped w createWriteStream backpack options target = .resolved segments' final' →
          segments' = segments ∧ final' = final := by
  unfold producer at hrun
  unfold producerPiped
  refine ⟨⟨?_, ?_⟩, ?_⟩
  · rintro ⟨hwrite, hclose⟩
    exact pipe_of_multistream w _ _ _ _ _ _ hwrite hclose _ _ _ hrun
  · intro h
    obtain ⟨-, hc, hw⟩ := multistream_of_pipe w _ _ _ _ _ _ _ _ _ h
    exact ⟨fun pre b post hs => hw pre b post hs (Nat.zero_le _), hc⟩
  · intro segments' final' h
    obtain ⟨hm, -, -⟩ := multistream_of_pipe w _ _ _ _ _ _ _ _ _ h
    rw [hrun] at hm
    injection hm with h1 h2
    exact ⟨h1.symm, h2.symm⟩

/-- C15: on an empty stripe, when the stub is read and the two boxes with a
body are encoded, the run resolves exactly when the write stream on
`target.output` takes the seven segments and closes, and whenever it resolves
it has written exactly seven segments: the stub, its padding, the options box,
its padding, the payload header box, the final padding directly after it, and
the prelude box; the index is the empty mapping, serialized as `{}`, and that
text is what is substituted into the prelude. -/
theorem empty_stripe_run (w : World) (createWriteStream : String → WriteStream)
    (backpack : Backpack) (options : List String)
    (target : Target) (stub obox pbox : Buffer)
    (hempty : backpack.stripe = [])
    (hstub : w.createReadStream target.binaryPath = .ok stub)
    (hobox : makeBakeryBoxFromOptions options = .ok obox)
    (hpbox : makePreludeBoxFromPrelude
      (jsReplace backpack.prelude "%VIRTUAL_FILESYSTEM%" "\x7b\x7d") = .ok pbox) :
    (((∀ (pre : List Buffer) (b : Buffer) (post : List Buffer),
          [stub, paddingBuffer stub.length, obox, paddingBuffer obox.length,
            payloadHeader, paddingBuffer 16, pbox] = pre ++ b :: post →
          (createWriteStream target.output).write pre b = .ok ())
        ∧ (createWriteStream target.output).close
            [stub, paddingBuffer stub.length, obox, paddingBuffer obox.length,
              payloadHeader, paddingBuffer 16, pbox] = .ok ())
      ↔ ∃ final, producerPiped w createWriteStream backpack options target
          = .resolved [stub, paddingBuffer stub.length, obox, paddingBuffer obox.length,
              payloadHeader, paddingBuffer 16, pbox] final)
    ∧ (∀ (segments : List Buffer) (final : State),
        producerPiped w createWriteStream backpack options target = .resolved segments final →
          segments = [stub, paddingBuffer stub.length, obox, paddingBuffer obox.length,
              payloadHeader, paddingBuffer 16, pbox]
          ∧ final.vfs = []
          ∧ stringifyVfs final.vfs = "\x7b\x7d"
          ∧ final.payloadPos = 0)
    ∧ (paddingBuffer 16).length = 4080 := by
  have hjson : stringifyVfs (recordAll (initVfs backpack.stripe) 0
      (backpack.stripe.zip (([] : List Buffer).map List.length))) = "\x7b\x7d" := by
    rw [hempty]; decide
  obtain ⟨final, hrun, hvfs, -, hpp, -⟩ :=
    producer_resolved w backpack options target stub obox pbox [] hstub hobox
      (by rw [hempty]; rfl) (by rw [hjson]; exact hpbox)
  have hv : final.vfs = [] := by rw [hvfs, hempty]; rfl
  have hrun' : producer w backpack options target
      = .resolved [stub, paddingBuffer stub.length, obox, paddingBuffer obox.length,
          payloadHeader, paddingBuffer 16, pbox] final := by simpa using hrun
  obtain ⟨hiff, honly⟩ :=
    producerPiped_resolved w createWriteStream backpack options target _ _ hrun'
  refine ⟨⟨fun h => ⟨final, hiff.mp h⟩, ?_⟩, ?_, ?_⟩
  · rintro ⟨final', h⟩
    obtain ⟨-, hf⟩ := honly _ _ h
    rw [hf] at h
    exact hiff.mpr h
  · intro segments final' h
    obtain ⟨hs, hf⟩ := honly _ _ h
    subst hf
    exact ⟨hs, hv, by rw [hv]; decide, by simpa using hpp⟩
  · rw [paddingBuffer_length]

theorem empty_stripe_run_witness :
    (∃ final, producerPiped demoWorld demoCreateWriteStream emptyBackpack [] demoTarget
        = .resolved [List.replicate 10 127, paddingBuffer (List.replicate 10 127).length,
            emptyOptionsBox, paddingBuffer emptyOptionsBox.length,
            payloadHeader, paddingBuffer 16, emptyPreludeBox] final)
    ∧ ¬ ∃ final, producerPiped demoWorld demoCreateWriteStream emptyBackpack []
          { binaryPath := "/stub", output := "/missing/out" }
        = .resolved [List.replicate 10 127, paddingBuffer (List.replicate 10 127).length,
            emptyOptionsBox, paddingBuffer emptyOptionsBox.length,
            payloadHeader, paddingBuffer 16, emptyPreludeBox] final :=
  ⟨(empty_stripe_run demoWorld demoCreateWriteStream emptyBackpack [] demoTarget _ _ _
      rfl demo_stub rfl empty_preludeBox).1.mp ⟨fun _ _ _ _ => rfl, rfl⟩,
   fun h => by
    have hc := ((empty_stripe_run demoWorld demoCreateWriteStream emptyBackpack []
      { binaryPath := "/stub", output := "/missing/out" } (List.replicate 10 127)
      emptyOptionsBox emptyPreludeBox rfl demo_stub rfl empty_preludeBox).1.mpr h).2
    exact absurd (show (Except.error "ENOENT" : Except String Unit) = Except.ok () from hc)
      (by simp)⟩

/-- C16 (as stated) fails: the parameter list that `prepend` opens holds six
names, not four. -/
theorem prepend_parameters_counterexample :
    parameterNames prepend
        = ["process", "require", "console", "EXECPATH_FD", "PAYLOAD_POSITION", "PAYLOAD_SIZE"]
      ∧ (parameterNames prepend).length ≠ 4 := by
  decide

/-- C16 (amended): `prepend` is literal wrapper text that opens a function
whose parameter list consists of exactly six fixed names, `process`, `require`,
`console`, `EXECPATH_FD`, `PAYLOAD_POSITION` and `PAYLOAD_SIZE`, and `append`
is the literal text, a line feed, a closing brace and a closing parenthesis,
that closes it; the body of the prelude box of every text is `prepend`, the
text, `append`, so the two do not depend on the template nor on the index. -/
theorem prepend_parameters :
    prepend = "(function("
        ++ ", ".intercalate
            ["process", "require", "console", "EXECPATH_FD", "PAYLOAD_POSITION", "PAYLOAD_SIZE"]
        ++ ") \x7b "
      ∧ (parameterNames prepend).length = 6
      ∧ append.data = [Char.ofNat 10, Char.ofNat 125, ')']
      ∧ ∀ text : String, (Buffer.from (prepend ++ text ++ append)).length < 2147483648 →
          ∃ header : Buffer, header.length = 16
            ∧ makePreludeBoxFromPrelude text
              = .ok (header ++ (Buffer.from prepend ++ Buffer.from text ++ Buffer.from append)) := by
  refine ⟨by decide, by decide, by decide, ?_⟩
  intro text hsize
  rw [makePreludeBoxFromPrelude_ok _ hsize]
  refine ⟨_, ?_, by simp only [Buffer.from_append]; rfl⟩
  simp [le32]

set_option maxRecDepth 8192 in
theorem run_size : (Buffer.from (prepend ++ "run()" ++ append)).length < 2147483648 := by
  decide

theorem prepend_parameters_witness :
    ∃ header : Buffer, header.length = 16
      ∧ makePreludeBoxFromPrelude "run()"
        = .ok (header ++ (Buffer.from prepend ++ Buffer.from "run()" ++ Buffer.from append)) :=
  prepend_parameters.2.2.2 "run()" run_size


theorem multistream_mono (w : World) (prelude : String) (options : List String)
    (target : Target) (extra : Nat) (fuel : Nat) :
    ∀ (st : State) (segments segments' : List Buffer) (final : State),
      multistream w prelude options target fuel st segments = .resolved segments' final →
      multistream w prelude options target (fuel + extra) st segments
        = .resolved segments' final := by
  induction fuel with
  | zero => intro st segments segments' final h; simp [multistream] at h
  | succ fuel ih =>
    intro st segments segments' final h
    have hlen : fuel + 1 + extra = (fuel + extra) + 1 := by omega
    rw [hlen, multistream_succ]
    rw [multistream_succ] at h
    generalize factory w prelude options target st = r at h ⊢
    obtain ⟨reply, st1⟩ := r
    cases reply with
    | finish => exact h
    | error e => exact h
    | thrown e => exact h
    | stream s =>
      simp only at h ⊢
      cases hd : drain w s with
      | error e => rw [hd] at h; exact h
      | ok b =>
        rw [hd] at h
        simp only at h ⊢
        exact ih _ _ _ _ h

theorem factory_done (w : World) (prelude : String) (options : List String) (target : Target)
    (st : State) (h : st.count = 7) :
    factory w prelude options target st = (.finish, st) := by
  simp [factory, h]

/-- C17: on a stripe of `n` entries that all resolve, the run resolves exactly
when the write stream on `target.output` takes each of the `n + 7` segments and
closes; whenever it resolves the sequencer has terminated: the run resolves for
every bound on the number of calls of the factory from `n + 8` on, with exactly
`n + 7` segments: the five fixed ones, one per entry, in the order of the
stripe, the final padding and the prelude box.  At the end the queue is empty
and every further call of the factory signals the end without a segment. -/
theorem sequencer_terminates (w : World) (createWriteStream : String → WriteStream)
    (backpack : Backpack) (options : List String)
    (target : Target) (stub obox pbox : Buffer) (bs : List Buffer)
    (hstub : w.createReadStream target.binaryPath = .ok stub)
    (hobox : makeBakeryBoxFromOptions options = .ok obox)
    (hbs : backpack.stripe.map (entryBytes w options target) = bs.map some)
    (hpbox : makePreludeBoxFromPrelude (jsReplace backpack.prelude "%VIRTUAL_FILESYSTEM%"
      (stringifyVfs (recordAll (initVfs backpack.stripe) 0
        (backpack.stripe.zip (bs.map List.length))))) = .ok pbox) :
    (((∀ (pre : List Buffer) (b : Buffer) (post : List Buffer),
          [stub, paddingBuffer stub.length, obox, paddingBuffer obox.length, payloadHeader]
              ++ bs ++ [paddingBuffer (16 + (bs.map List.length).sum), pbox]
            = pre ++ b :: post →
          (createWriteStream target.output).write pre b = .ok ())
        ∧ (createWriteStream target.output).close
            ([stub, paddingBuffer stub.length, obox, paddingBuffer obox.length, payloadHeader]
              ++ bs ++ [paddingBuffer (16 + (bs.map List.length).sum), pbox]) = .ok ())
      ↔ ∃ final, producerPiped w createWriteStream backpack options target
          = .resolved
              ([stub, paddingBuffer stub.length, obox, paddingBuffer obox.length, payloadHeader]
                ++ bs ++ [paddingBuffer (16 + (bs.map List.length).sum), pbox]) final)
    ∧ ∀ (segments : List Buffer) (final : State),
      producerPiped w createWriteStream backpack options target = .resolved segments final →
      (∀ extra : Nat,
          pipe w (createWriteStream target.output) backpack.prelude options target
            (backpack.stripe.length + 8 + extra)
            { count := 0, meter := 0, payloadPos := 0, payloadLength := 0, recentTask := none,
              stripe := backpack.stripe, vfs := initVfs backpack.stripe } []
            = .resolved segments final)
      ∧ segments = [stub, paddingBuffer stub.length, obox, paddingBuffer obox.length,
            payloadHeader] ++ bs ++ [paddingBuffer (16 + (bs.map List.length).sum), pbox]
      ∧ segments.length = backpack.stripe.length + 7
      ∧ (∀ (i : Nat) (t : Task), backpack.stripe[i]? = some t →
          ∃ b, entryBytes w options target t = some b ∧ segments[5 + i]? = some b)
      ∧ (∀ k : Nat, k ≤ backpack.stripe.length →
          ∃ st, producerPiped w createWriteStream backpack options target
              = pipe w (createWriteStream target.output) backpack.prelude options target
                  (backpack.stripe.length - k + 3) st
                  ([stub, paddingBuffer stub.length, obox, paddingBuffer obox.length,
                    payloadHeader] ++ bs.take k)
            ∧ st.count = 5 ∧ st.stripe = backpack.stripe.drop k)
      ∧ final.stripe = []
      ∧ final.count = 7
      ∧ factory w backpack.prelude options target final = (.finish, final) := by
  obtain ⟨final, hrun, -, -, -, hstripe, hcount⟩ :=
    producer_resolved w backpack options target stub obox pbox bs hstub hobox hbs hpbox
  obtain ⟨hiff, honly⟩ :=
    producerPiped_resolved w createWriteStream backpack options target _ _ hrun
  refine ⟨⟨fun h => ⟨final, hiff.mp h⟩, ?_⟩, ?_⟩
  · rintro ⟨final', h⟩
    obtain ⟨-, hf⟩ := honly _ _ h
    rw [hf] at h
    exact hiff.mpr h
  intro segments final' h
  obtain ⟨hs, hf⟩ := honly _ _ h
  subst hf
  subst hs
  obtain ⟨hwrite, hclose⟩ := hiff.mpr h
  refine ⟨?_, rfl, ?_, ?_, ?_, hstripe, hcount, factory_done _ _ _ _ _ hcount⟩
  · intro extra
    exact pipe_of_multistream w _ _ _ _ _ _ hwrite hclose _ _ _
      (multistream_mono w backpack.prelude options target extra _ _ _ _ _ hrun)
  · have := stripe_length_eq hbs
    simp [this]
  · intro i t hti
    obtain ⟨b, hbi, hb⟩ := entry_of_resolved hbs hti
    exact ⟨b, hb, getElem?_entry_segment _ _ _ _ _ _ _ bs i b hbi⟩
  · intro k hk
    have htake : (backpack.stripe.take k).map (entryBytes w options target)
        = (bs.take k).map some := by
      rw [List.map_take, List.map_take, hbs]
    obtain ⟨st, hst, hc, hs, -⟩ :=
      loop_prefix w backpack.prelude options target (backpack.stripe.drop k)
        (backpack.stripe.length - k + 3) (backpack.stripe.take k) (bs.take k)
        { count := 5, meter := 16, payloadPos := 0, payloadLength := 0, recentTask := none,
          stripe := backpack.stripe, vfs := initVfs backpack.stripe }
        [stub, paddingBuffer stub.length, obox, paddingBuffer obox.length, payloadHeader]
        htake rfl (List.take_append_drop k backpack.stripe).symm
        (by simpa using covered_initVfs backpack.stripe)
    refine ⟨st, ?_, hc, hs⟩
    have hm : multistream w backpack.prelude options target
        (backpack.stripe.length - k + 3) st
        ([stub, paddingBuffer stub.length, obox, paddingBuffer obox.length, payloadHeader]
          ++ bs.take k)
        = .resolved
            ([stub, paddingBuffer stub.length, obox, paddingBuffer obox.length, payloadHeader]
              ++ bs ++ [paddingBuffer (16 + (bs.map List.length).sum), pbox]) final' := by
      rw [← hrun, producer_fixed_segments w backpack options target stub obox hstub hobox, ← hst]
      congr 1
      rw [List.length_take]
      omega
    rw [h]
    exact (pipe_of_multistream w _ _ _ _ _ _ hwrite hclose _ _ _ hm).symm

theorem sequencer_terminates_witness :
    ∃ final, producerPiped demoWorld demoCreateWriteStream demoBackpack ["x"] demoTarget
      = .resolved
          ([List.replicate 10 127, paddingBuffer (List.replicate 10 127).length,
              demoOptionsBox, paddingBuffer demoOptionsBox.length, payloadHeader]
            ++ [List.replicate 5000 1]
            ++ [paddingBuffer (16 + ([List.replicate 5000 1].map List.length).sum),
                demoPreludeBox]) final :=
  (sequencer_terminates demoWorld demoCreateWriteStream demoBackpack ["x"] demoTarget _ _ _ _
    demo_stub demo_optionsBox demo_entries demo_preludeBox).1.mp ⟨fun _ _ _ _ => rfl, rfl⟩

/-! ### The options body read back -/

theorem Char.toNat_lt_max (c : Char) : c.toNat < 0x110000 := by
  have := c.valid
  simp [UInt32.isValidChar, Nat.isValidChar] at this
  unfold Char.toNat
  omega

theorem Char.eq_of_toNat_eq (c d : Char) (h : c.toNat = d.toNat) : c = d := by
  rw [← Char.ofNat_toNat c, ← Char.ofNat_toNat d, h]

theorem utf8EncodeChar_ne_nil (c : Char) : utf8EncodeChar c ≠ [] := by
  unfold utf8EncodeChar
  simp only
  split_ifs <;> simp

theorem utf8EncodeChar_append_inj (c c' : Char) (r r' : List Nat)
    (h : utf8EncodeChar c ++ r = utf8EncodeChar c' ++ r') : c = c' ∧ r = r' := by
  have hv := Char.toNat_lt_max c
  have hv' := Char.toNat_lt_max c'
  have key : c.toNat = c'.toNat ∧ r = r' := by
    unfold utf8EncodeChar at h
    generalize c.toNat = v at *
    generalize c'.toNat = v' at *
    simp only at h
    split_ifs at h <;> simp at h <;>
      first
        | exact ⟨by omega, h.2⟩
        | exact ⟨by omega, h.2.2⟩
        | exact ⟨by omega, h.2.2.2⟩
        | exact ⟨by omega, h.2.2.2.2⟩
        | (exfalso; omega)
  exact ⟨Char.eq_of_toNat_eq c c' key.1, key.2⟩

theorem flatMap_utf8_inj (l : List Char) :
    ∀ (l' : List Char), l.flatMap utf8EncodeChar = l'.flatMap utf8EncodeChar → l = l' := by
  induction l with
  | nil =>
    intro l' h
    cases l' with
    | nil => rfl
    | cons c cs =>
      simp only [List.flatMap_nil, List.flatMap_cons] at h
      have := utf8EncodeChar_ne_nil c
      cases hc : utf8EncodeChar c with
      | nil => exact absurd hc this
      | cons x xs => rw [hc] at h; simp at h
  | cons c cs ih =>
    intro l' h
    cases l' with
    | nil =>
      simp only [List.flatMap_nil, List.flatMap_cons] at h
      have := utf8EncodeChar_ne_nil c
      cases hc : utf8EncodeChar c with
      | nil => exact absurd hc this
      | cons x xs => rw [hc] at h; simp at h
    | cons c' cs' =>
      simp only [List.flatMap_cons] at h
      obtain ⟨h1, h2⟩ := utf8EncodeChar_append_inj c c' _ _ h
      rw [h1, ih cs' h2]

theorem Buffer.from_injective (s s' : String) (h : Buffer.from s = Buffer.from s') : s = s' :=
  String.ext (flatMap_utf8_inj s.data s'.data h)


theorem decodeOptions_string (rest : Buffer) (bytes : Buffer) :
    ∀ (current : Buffer), 0 ∉ bytes → current ++ bytes ≠ [] →
      decodeOptions (bytes ++ 0 :: rest) current
        = (decodeOptions rest []).map (fun r => ((current ++ bytes) :: r.1, r.2)) := by
  induction bytes with
  | nil =>
    intro current _ hne
    have hc : current ≠ [] := by simpa using hne
    simp [decodeOptions, hc]
  | cons b bs ih =>
    intro current h0 _
    have hb : b ≠ 0 := fun h => h0 (by simp [h])
    have h0' : 0 ∉ bs := fun h => h0 (List.mem_cons_of_mem _ h)
    show decodeOptions (b :: (bs ++ 0 :: rest)) current = _
    rw [decodeOptions, if_neg hb, ih (current ++ [b]) h0' (by simp)]
    simp

theorem utf8EncodeChar_eq (c : Char) : utf8EncodeChar c = utf8EncodeCodePoint c.toNat := rfl

theorem Char.toNat_not_surrogate (c : Char) : c.toNat < 0xD800 ∨ 0xDFFF < c.toNat := by
  have := c.valid
  simp [UInt32.isValidChar, Nat.isValidChar] at this
  unfold Char.toNat
  omega

theorem fromUtf16_charUtf16 (c : Char) (r : List Nat) :
    Buffer.fromUtf16 (charUtf16 c ++ r) = utf8EncodeChar c ++ Buffer.fromUtf16 r := by
  have hv := Char.toNat_lt_max c
  have hs := Char.toNat_not_surrogate c
  rw [utf8EncodeChar_eq]
  unfold charUtf16
  generalize c.toNat = v at *
  by_cases hlow : v < 0x10000
  · rw [if_pos hlow]
    cases r with
    | nil =>
      simp only [List.singleton_append, Buffer.fromUtf16, List.append_nil]
      rw [if_neg (by omega)]
    | cons w r =>
      simp only [List.singleton_append]
      rw [Buffer.fromUtf16, if_neg (by omega), if_neg (by omega)]
  · rw [if_neg hlow]
    have hdiv : (v - 0x10000) / 0x400 < 0x400 := by omega
    have hmod : (v - 0x10000) % 0x400 < 0x400 := by omega
    have hval : 0x10000 + (v - 0x10000) / 0x400 * 0x400 + (v - 0x10000) % 0x400 = v := by omega
    generalize (v - 0x10000) / 0x400 = hi at *
    generalize (v - 0x10000) % 0x400 = lo at *
    have h1 : 0xD800 ≤ 0xD800 + hi ∧ 0xD800 + hi < 0xDC00 := by omega
    have h2 : 0xDC00 ≤ 0xDC00 + lo ∧ 0xDC00 + lo < 0xE000 := by omega
    have h3 : 0x10000 + (0xD800 + hi - 0xD800) * 0x400 + (0xDC00 + lo - 0xDC00) = v := by
      rw [Nat.add_sub_cancel_left, Nat.add_sub_cancel_left]; exact hval
    show Buffer.fromUtf16 ((0xD800 + hi) :: (0xDC00 + lo) :: r) = _
    rw [Buffer.fromUtf16, if_pos h1, if_pos h2, h3]

theorem fromUtf16_utf16 (s : String) : Buffer.fromUtf16 (utf16 s) = Buffer.from s := by
  unfold utf16 Buffer.from
  induction s.data with
  | nil => rfl
  | cons c cs ih =>
    simp only [List.flatMap_cons]
    rw [fromUtf16_charUtf16, ih]

theorem Char.toNat_ofNat_valid (n : Nat) (h : n < 0xD800 ∨ (0xDFFF < n ∧ n < 0x110000)) :
    (Char.ofNat n).toNat = n := by
  have hv : n.isValidChar := by
    unfold Nat.isValidChar
    omega
  unfold Char.ofNat
  rw [dif_pos hv]
  rfl

/-- A sequence of code units without an unpaired surrogate is the sequence of
code units of a string of Unicode scalar values. -/
theorem exists_of_wellFormed :
    ∀ (u : List Nat), wellFormed u = true → ∃ l : List Char, l.flatMap charUtf16 = u := by
  intro u
  induction u using wellFormed.induct with
  | case1 => intro _; exact ⟨[], rfl⟩
  | case2 u =>
    intro h
    simp only [wellFormed, Bool.and_eq_true, decide_eq_true_eq, Bool.not_eq_true',
      decide_eq_false_iff_not] at h
    have hn := Char.toNat_ofNat_valid u (by omega)
    refine ⟨[Char.ofNat u], ?_⟩
    simp only [List.flatMap_cons, List.flatMap_nil, List.append_nil, charUtf16, hn]
    rw [if_pos h.1]
  | case3 u v r hu ih =>
    intro h
    rw [wellFormed, if_pos hu] at h
    simp only [Bool.and_eq_true, decide_eq_true_eq] at h
    obtain ⟨l, hl⟩ := ih h.2
    have hn := Char.toNat_ofNat_valid (0x10000 + (u - 0xD800) * 0x400 + (v - 0xDC00))
      (by omega)
    refine ⟨Char.ofNat (0x10000 + (u - 0xD800) * 0x400 + (v - 0xDC00)) :: l, ?_⟩
    simp only [List.flatMap_cons, hl, charUtf16, hn]
    rw [if_neg (by omega)]
    have e1 : 0xD800 + (0x10000 + (u - 0xD800) * 0x400 + (v - 0xDC00) - 0x10000) / 0x400 = u := by
      omega
    have e2 : 0xDC00 + (0x10000 + (u - 0xD800) * 0x400 + (v - 0xDC00) - 0x10000) % 0x400 = v := by
      omega
    rw [e1, e2]
    rfl
  | case4 u v r hu ih =>
    intro h
    rw [wellFormed, if_neg hu] at h
    simp only [Bool.and_eq_true, decide_eq_true_eq, Bool.not_eq_true',
      decide_eq_false_iff_not] at h
    obtain ⟨l, hl⟩ := ih h.2
    have hn := Char.toNat_ofNat_valid u (by omega)
    refine ⟨Char.ofNat u :: l, ?_⟩
    simp only [List.flatMap_cons, hl, charUtf16, hn]
    rw [if_pos h.1.1]
    rfl

theorem wellFormed_charUtf16 (c : Char) (r : List Nat) (h : wellFormed r = true) :
    wellFormed (charUtf16 c ++ r) = true := by
  have hv := Char.toNat_lt_max c
  have hs := Char.toNat_not_surrogate c
  unfold charUtf16
  generalize c.toNat = v at *
  by_cases hlow : v < 0x10000
  · rw [if_pos hlow]
    cases r with
    | nil =>
      simp only [List.singleton_append, wellFormed, Bool.and_eq_true, decide_eq_true_eq,
        Bool.not_eq_true', decide_eq_false_iff_not]
      omega
    | cons w r =>
      simp only [List.singleton_append]
      rw [wellFormed, if_neg (by omega), h]
      simp only [Bool.and_true, Bool.and_eq_true, decide_eq_true_eq, Bool.not_eq_true',
        decide_eq_false_iff_not]
      omega
  · rw [if_neg hlow]
    have hdiv : (v - 0x10000) / 0x400 < 0x400 := by omega
    have hmod : (v - 0x10000) % 0x400 < 0x400 := by omega
    generalize (v - 0x10000) / 0x400 = hi at *
    generalize (v - 0x10000) % 0x400 = lo at *
    have h1 : 0xD800 ≤ 0xD800 + hi ∧ 0xD800 + hi < 0xDC00 := by omega
    have h2 : 0xDC00 ≤ 0xDC00 + lo ∧ 0xDC00 + lo < 0xE000 := by omega
    show wellFormed ((0xD800 + hi) :: (0xDC00 + lo) :: r) = true
    rw [wellFormed, if_pos h1, h, decide_eq_true h2]
    rfl

/-- The code units of a string of Unicode scalar values hold no unpaired
surrogate. -/
theorem wellFormed_utf16 (s : String) : wellFormed (utf16 s) = true := by
  unfold utf16
  induction s.data with
  | nil => rfl
  | cons c cs ih =>
    simp only [List.flatMap_cons]
    exact wellFormed_charUtf16 c _ ih

/-- On strings without an unpaired surrogate `Buffer.from` is injective. -/
theorem fromUtf16_injective (u u' : List Nat) (hu : wellFormed u = true)
    (hu' : wellFormed u' = true) (h : Buffer.fromUtf16 u = Buffer.fromUtf16 u') : u = u' := by
  obtain ⟨l, hl⟩ := exists_of_wellFormed u hu
  obtain ⟨l', hl'⟩ := exists_of_wellFormed u' hu'
  have e : Buffer.from (String.mk l) = Buffer.from (String.mk l') := by
    rw [← fromUtf16_utf16, ← fromUtf16_utf16]
    show Buffer.fromUtf16 (l.flatMap charUtf16) = Buffer.fromUtf16 (l'.flatMap charUtf16)
    rw [hl, hl', h]
  have := Buffer.from_injective _ _ e
  injection this with this
  rw [← hl, ← hl', this]

theorem utf8EncodeCodePoint_ne_nil (v : Nat) : utf8EncodeCodePoint v ≠ [] := by
  unfold utf8EncodeCodePoint
  split_ifs <;> simp

theorem zero_not_mem_utf8EncodeCodePoint (v : Nat) (h : v ≠ 0) :
    0 ∉ utf8EncodeCodePoint v := by
  unfold utf8EncodeCodePoint
  split_ifs <;> simp <;> omega

theorem fromUtf16_ne_nil : ∀ (u : List Nat), u ≠ [] → Buffer.fromUtf16 u ≠ [] := by
  intro u
  induction u using Buffer.fromUtf16.induct with
  | case1 => intro h; exact absurd rfl h
  | case2 u hs =>
    intro _
    rw [Buffer.fromUtf16, if_pos hs]
    simp
  | case3 u hs =>
    intro _
    rw [Buffer.fromUtf16, if_neg hs]
    exact utf8EncodeCodePoint_ne_nil u
  | case4 u v r hu hv ih =>
    intro _
    rw [Buffer.fromUtf16, if_pos hu, if_pos hv]
    intro h
    exact utf8EncodeCodePoint_ne_nil _ (List.append_eq_nil.mp h).1
  | case5 u v r hu hv ih =>
    intro _
    rw [Buffer.fromUtf16, if_pos hu, if_neg hv]
    simp
  | case6 u v r hu hl ih =>
    intro _
    rw [Buffer.fromUtf16, if_neg hu, if_pos hl]
    simp
  | case7 u v r hu hl ih =>
    intro _
    rw [Buffer.fromUtf16, if_neg hu, if_neg hl]
    intro h
    exact utf8EncodeCodePoint_ne_nil _ (List.append_eq_nil.mp h).1

theorem zero_not_mem_fromUtf16 : ∀ (u : List Nat), 0 ∉ u → 0 ∉ Buffer.fromUtf16 u := by
  intro u
  induction u using Buffer.fromUtf16.induct with
  | case1 => intro _; simp [Buffer.fromUtf16]
  | case2 u hs =>
    intro _
    rw [Buffer.fromUtf16, if_pos hs]
    simp
  | case3 u hs =>
    intro h
    have hu : u ≠ 0 := fun e => h (by simp [e])
    rw [Buffer.fromUtf16, if_neg hs]
    exact zero_not_mem_utf8EncodeCodePoint u hu
  | case4 u v r hu hv ih =>
    intro h
    have hr : 0 ∉ r := fun e => h (List.mem_cons_of_mem _ (List.mem_cons_of_mem _ e))
    rw [Buffer.fromUtf16, if_pos hu, if_pos hv, List.mem_append]
    rintro (h1 | h1)
    · exact zero_not_mem_utf8EncodeCodePoint _ (by omega) h1
    · exact ih hr h1
  | case5 u v r hu hv ih =>
    intro h
    have hr : 0 ∉ v :: r := fun e => h (List.mem_cons_of_mem _ e)
    rw [Buffer.fromUtf16, if_pos hu, if_neg hv, List.mem_append]
    rintro (h1 | h1)
    · simp at h1
    · exact ih hr h1
  | case6 u v r hu hl ih =>
    intro h
    have hr : 0 ∉ v :: r := fun e => h (List.mem_cons_of_mem _ e)
    rw [Buffer.fromUtf16, if_neg hu, if_pos hl, List.mem_append]
    rintro (h1 | h1)
    · simp at h1
    · exact ih hr h1
  | case7 u v r hu hl ih =>
    intro h
    have hr : 0 ∉ v :: r := fun e => h (List.mem_cons_of_mem _ e)
    have hu0 : u ≠ 0 := fun e => h (by simp [e])
    rw [Buffer.fromUtf16, if_neg hu, if_neg hl, List.mem_append]
    rintro (h1 | h1)
    · exact zero_not_mem_utf8EncodeCodePoint u hu0 h1
    · exact ih hr h1

theorem decodeOptions_buffers (bufs : List Buffer) (h : ∀ b ∈ bufs, b ≠ [] ∧ 0 ∉ b) :
    decodeOptions (bufs.flatMap (fun b => b ++ [0]) ++ [0]) [] = some (bufs, []) := by
  induction bufs with
  | nil => simp [decodeOptions]
  | cons b rest ih =>
    obtain ⟨hne, h0⟩ := h b (by simp)
    have ih' := ih (fun b' hb' => h b' (List.mem_cons_of_mem _ hb'))
    simp only [List.flatMap_cons, List.append_assoc, List.singleton_append, List.cons_append]
    rw [decodeOptions_string _ _ [] h0 (by simpa using hne)]
    simp only [List.nil_append]
    rw [ih']
    simp

theorem foldl_partsUtf16_flatten (options : List (List Nat)) (acc : List Buffer) :
    (options.foldl (fun parts o => parts ++ [Buffer.fromUtf16 o, Buffer.alloc 1]) acc).flatten
      = acc.flatten ++ options.flatMap (fun o => Buffer.fromUtf16 o ++ [0]) := by
  induction options generalizing acc with
  | nil => simp
  | cons o os ih =>
    simp only [List.foldl_cons]
    rw [ih]
    simp [Buffer.alloc, List.flatMap_cons]

theorem bakeryPartsUtf16_concat (options : List (List Nat)) :
    Buffer.concat (bakeryPartsUtf16 options)
      = (options.map Buffer.fromUtf16).flatMap (fun b => b ++ [0]) ++ [0] := by
  unfold Buffer.concat bakeryPartsUtf16
  rw [List.flatten_append, foldl_partsUtf16_flatten]
  simp [Buffer.alloc, List.flatMap_map]

theorem makeBakeryBoxFromOptionsUtf16_ok (options : List (List Nat))
    (h : (Buffer.concat (bakeryPartsUtf16 options)).length < 2147483648) :
    makeBakeryBoxFromOptionsUtf16 options
      = .ok ([0xdf, 0xc4, 0x18, 0x48, 0x70, 0x06, 0xc3, 0x7a, 0x76, 0x8a, 0x55, 0x56]
          ++ le32 (Buffer.concat (bakeryPartsUtf16 options)).length
          ++ Buffer.concat (bakeryPartsUtf16 options)) := by
  unfold makeBakeryBoxFromOptionsUtf16
  generalize Buffer.concat (bakeryPartsUtf16 options) = body at h ⊢
  have h2 : ¬ 2147483647 < body.length := by omega
  simp [writeInt32LE, Buffer.new, bind, Except.bind, List.replicate,
    List.set, h2, pure, Except.pure, Buffer.concat, le32]

theorem makeBakeryBoxFromOptionsUtf16_error (options : List (List Nat))
    (h : 2147483648 ≤ (Buffer.concat (bakeryPartsUtf16 options)).length) :
    makeBakeryBoxFromOptionsUtf16 options = .error "RangeError: value out of bounds" := by
  unfold makeBakeryBoxFromOptionsUtf16
  generalize Buffer.concat (bakeryPartsUtf16 options) = body at h ⊢
  have h2 : 2147483647 < body.length := by omega
  simp [writeInt32LE, Buffer.new, bind, Except.bind, List.replicate, List.set, h2]

theorem optionsUtf16_box_drop (options : List (List Nat)) (box : Buffer)
    (hbox : makeBakeryBoxFromOptionsUtf16 options = .ok box) :
    box.drop 16 = Buffer.concat (bakeryPartsUtf16 options) := by
  by_cases h : (Buffer.concat (bakeryPartsUtf16 options)).length < 2147483648
  · rw [makeBakeryBoxFromOptionsUtf16_ok options h] at hbox
    injection hbox with hbox
    subst hbox
    simp [le32]
  · rw [makeBakeryBoxFromOptionsUtf16_error options (by omega)] at hbox
    cases hbox

theorem bakeryPartsUtf16_utf16 (options : List String) :
    bakeryPartsUtf16 (options.map utf16) = bakeryParts options := by
  have step : ∀ (os : List String) (acc : List Buffer),
      (os.map utf16).foldl (fun parts o => parts ++ [Buffer.fromUtf16 o, Buffer.alloc 1]) acc
        = os.foldl (fun parts o => parts ++ [Buffer.from o, Buffer.alloc 1]) acc := by
    intro os
    induction os with
    | nil => intro acc; rfl
    | cons o os ih =>
      intro acc
      simp only [List.map_cons, List.foldl_cons]
      rw [fromUtf16_utf16]
      exact ih _
  unfold bakeryPartsUtf16 bakeryParts
  rw [step]

/-- On well-formed strings the encoder of the options box over code units is
the encoder over strings of Unicode scalar values. -/
theorem makeBakeryBoxFromOptionsUtf16_utf16 (options : List String) :
    makeBakeryBoxFromOptionsUtf16 (options.map utf16) = makeBakeryBoxFromOptions options := by
  unfold makeBakeryBoxFromOptionsUtf16 makeBakeryBoxFromOptions
  rw [bakeryPartsUtf16_utf16]

theorem map_fromUtf16_injective :
    ∀ (l l' : List (List Nat)), (∀ o ∈ l, wellFormed o = true) →
      (∀ o ∈ l', wellFormed o = true) →
      l.map Buffer.fromUtf16 = l'.map Buffer.fromUtf16 → l = l' := by
  intro l
  induction l with
  | nil =>
    intro l' _ _ h
    cases l' with
    | nil => rfl
    | cons a r => simp at h
  | cons a r ih =>
    intro l' hl hl' h
    cases l' with
    | nil => simp at h
    | cons a' r' =>
      simp only [List.map_cons, List.cons.injEq] at h
      have e1 := fromUtf16_injective a a' (hl a (by simp)) (hl' a' (by simp)) h.1
      have e2 := ih r' (fun o ho => hl o (List.mem_cons_of_mem _ ho))
        (fun o ho => hl' o (List.mem_cons_of_mem _ ho)) h.2
      rw [e1, e2]

/-- C18 (as stated) fails on the option lists `["\ud800"]` and `["\ufffd"]`:
both strings are non-empty and hold no zero, the two lists differ, and yet the
two options boxes are the same, because `Buffer.from` writes the unpaired
surrogate as the bytes `ef bf bd` of U+FFFD; the string read back from the body
of the first box is the second string, not the first. -/
theorem options_body_counterexample :
    ([[0xD800]] : List (List Nat)) ≠ [[0xFFFD]]
      ∧ (∀ o ∈ ([[0xD800]] : List (List Nat)), o ≠ [] ∧ 0 ∉ o ∧ ∀ u ∈ o, u < 0x10000)
      ∧ (∀ o ∈ ([[0xFFFD]] : List (List Nat)), o ≠ [] ∧ 0 ∉ o ∧ ∀ u ∈ o, u < 0x10000)
      ∧ makeBakeryBoxFromOptionsUtf16 [[0xD800]] = makeBakeryBoxFromOptionsUtf16 [[0xFFFD]]
      ∧ (∃ box, makeBakeryBoxFromOptionsUtf16 [[0xD800]] = .ok box
          ∧ decodeOptions (box.drop 16) [] = some ([[0xEF, 0xBF, 0xBD]], [])
          ∧ Buffer.fromUtf16 [0xFFFD] = [0xEF, 0xBF, 0xBD]
          ∧ Buffer.fromUtf16 [0xD800] = [0xEF, 0xBF, 0xBD])
      ∧ wellFormed [0xD800] = false
      ∧ wellFormed [0xFFFD] = true := by
  refine ⟨by decide, by decide, by decide, rfl, ⟨_, rfl, by decide, by decide, by decide⟩,
    by decide, by decide⟩

/-- C18 (amended): for every list of option strings that are non-empty and hold
no zero, whatever their code units, reading zero-terminated strings from the
start of the body of the options box until an empty string is read returns the
bytes that `Buffer.from` gives for the strings of the list, in order, and
leaves no byte of the body unread; when the strings hold no unpaired surrogate
these bytes determine the strings, so that two such lists with the same body,
or with the same box, are equal. -/
theorem options_body_roundtrip (options : List (List Nat))
    (h : ∀ o ∈ options, o ≠ [] ∧ 0 ∉ o) :
    decodeOptions (Buffer.concat (bakeryPartsUtf16 options)) []
        = some (options.map Buffer.fromUtf16, [])
      ∧ (∀ box, makeBakeryBoxFromOptionsUtf16 options = .ok box →
          decodeOptions (box.drop 16) [] = some (options.map Buffer.fromUtf16, []))
      ∧ ((∀ o ∈ options, wellFormed o = true) →
          (∀ options' : List (List Nat),
            (∀ o ∈ options', o ≠ [] ∧ 0 ∉ o ∧ wellFormed o = true) →
            Buffer.concat (bakeryPartsUtf16 options) = Buffer.concat (bakeryPartsUtf16 options') →
            options = options')
          ∧ (∀ (options' : List (List Nat)) (box : Buffer),
            (∀ o ∈ options', o ≠ [] ∧ 0 ∉ o ∧ wellFormed o = true) →
            makeBakeryBoxFromOptionsUtf16 options = .ok box →
            makeBakeryBoxFromOptionsUtf16 options' = .ok box →
            options = options'))
      ∧ (∀ strings : List String, options = strings.map utf16 →
          makeBakeryBoxFromOptionsUtf16 options = makeBakeryBoxFromOptions strings
            ∧ options.map Buffer.fromUtf16 = strings.map Buffer.from
            ∧ ∀ o ∈ options, wellFormed o = true) := by
  have hdecode : ∀ opts : List (List Nat), (∀ o ∈ opts, o ≠ [] ∧ 0 ∉ o) →
      decodeOptions (Buffer.concat (bakeryPartsUtf16 opts)) []
        = some (opts.map Buffer.fromUtf16, []) := by
    intro opts hopts
    rw [bakeryPartsUtf16_concat]
    apply decodeOptions_buffers
    intro b hb
    obtain ⟨o, ho, rfl⟩ := List.mem_map.mp hb
    exact ⟨fromUtf16_ne_nil o (hopts o ho).1, zero_not_mem_fromUtf16 o (hopts o ho).2⟩
  have hdec := hdecode options h
  have hinj : (∀ o ∈ options, wellFormed o = true) → ∀ options' : List (List Nat),
      (∀ o ∈ options', o ≠ [] ∧ 0 ∉ o ∧ wellFormed o = true) →
      Buffer.concat (bakeryPartsUtf16 options) = Buffer.concat (bakeryPartsUtf16 options') →
      options = options' := by
    intro hwf options' h' heq
    have hdec' := hdecode options' (fun o ho => ⟨(h' o ho).1, (h' o ho).2.1⟩)
    rw [heq, hdec'] at hdec
    simp only [Option.some.injEq, Prod.mk.injEq, and_true] at hdec
    exact (map_fromUtf16_injective options' options (fun o ho => (h' o ho).2.2) hwf hdec).symm
  refine ⟨hdec, ?_, ?_, ?_⟩
  · intro box hbox
    rw [optionsUtf16_box_drop options box hbox]; exact hdec
  · intro hwf
    refine ⟨hinj hwf, ?_⟩
    intro options' box h' hbox hbox'
    exact hinj hwf options' h'
      (by rw [← optionsUtf16_box_drop options box hbox,
        ← optionsUtf16_box_drop options' box hbox'])
  · intro strings hs
    subst hs
    refine ⟨makeBakeryBoxFromOptionsUtf16_utf16 strings, ?_, ?_⟩
    · rw [List.map_map]
      apply List.map_congr_left
      intro s _
      exact fromUtf16_utf16 s
    · intro o ho
      obtain ⟨s, -, rfl⟩ := List.mem_map.mp ho
      exact wellFormed_utf16 s

theorem demo_options_wellformed :
    ∀ o ∈ ([[45, 45, 120], [0xD83D, 0xDE00]] : List (List Nat)), o ≠ [] ∧ 0 ∉ o := by
  decide

theorem options_body_roundtrip_witness :
    decodeOptions (Buffer.concat (bakeryPartsUtf16 [[45, 45, 120], [0xD83D, 0xDE00]])) []
      = some ([[45, 45, 120], [0xF0, 0x9F, 0x98, 0x80]], []) :=
  (options_body_roundtrip [[45, 45, 120], [0xD83D, 0xDE00]] demo_options_wellformed).1

/-! ### One record per pair and the dollar sign in the serialization -/

theorem vfsGet_isSome_iff (stripe : List Task) (bs : List Buffer)
    (hlen : stripe.length = bs.length)
    (hproto : ∀ t ∈ stripe, t.snap ∉ objectPrototypeKeys) (snap : String) (store : Store) :
    (vfsGet (recordAll (initVfs stripe) 0 (stripe.zip (bs.map List.length))) snap store).isSome
        = true
      ↔ (snap, store) ∈ stripe.map keyOf := by
  constructor
  · intro h
    obtain ⟨r, hr⟩ := Option.isSome_iff_exists.mp h
    obtain ⟨i, t, b, hti, -, hs, hk, -⟩ := recorded_entry stripe bs hlen snap store r.1 r.2 hr
    exact List.mem_map.mpr ⟨t, List.getElem?_mem hti, by simp [keyOf, hs, hk]⟩
  · intro h
    obtain ⟨t, ht, hk⟩ := List.mem_map.mp h
    obtain ⟨i, t', hti, hk', hlast⟩ := exists_last_key (snap, store) stripe ⟨t, ht, hk⟩
    have hi : i < bs.length := by
      rw [← hlen]
      rcases Nat.lt_or_ge i stripe.length with hlt | hge
      · exact hlt
      · rw [List.getElem?_eq_none hge] at hti; cases hti
    have hbi : bs[i]? = some bs[i] := List.getElem?_eq_getElem hi
    have := recorded_last stripe bs hlen i t' bs[i] hti hbi
      (hproto t' (List.getElem?_mem hti))
      (fun j t'' hj hj' => by rw [hk']; exact hlast j t'' hj hj')
    have hs : t'.snap = snap := congrArg Prod.fst hk'
    have hst : t'.store = store := congrArg Prod.snd hk'
    rw [hs, hst] at this
    rw [this]; rfl


theorem mem_objSet {κ α : Type} [DecidableEq κ] (l : List (κ × α)) (k : κ) (v : α)
    (e : κ × α) (h : e ∈ objSet l k v) : e ∈ l ∨ e = (k, v) := by
  induction l with
  | nil => right; simpa [objSet] using h
  | cons x r ih =>
    obtain ⟨k0, v0⟩ := x
    by_cases hk : k0 = k
    · subst hk
      simp only [objSet, if_true, List.mem_cons] at h
      rcases h with h | h
      · right; exact h
      · left; exact List.mem_cons_of_mem _ h
    · simp only [objSet, hk, if_false, List.mem_cons] at h
      rcases h with h | h
      · left; rw [h]; exact List.mem_cons_self _ _
      · rcases ih h with h' | h'
        · left; exact List.mem_cons_of_mem _ h'
        · right; exact h'

theorem keys_objSet {κ α : Type} [DecidableEq κ] (l : List (κ × α)) (k : κ) (v : α) :
    (objSet l k v).map Prod.fst
      = if k ∈ l.map Prod.fst then l.map Prod.fst else l.map Prod.fst ++ [k] := by
  induction l with
  | nil => simp [objSet]
  | cons x r ih =>
    obtain ⟨k0, v0⟩ := x
    by_cases hk : k0 = k
    · subst hk; simp [objSet]
    · have hk' : ¬ k = k0 := fun h => hk h.symm
      simp only [objSet, hk, if_false, List.map_cons, ih, List.mem_cons, hk', false_or]
      split <;> simp

theorem nodup_keys_objSet {κ α : Type} [DecidableEq κ] (l : List (κ × α)) (k : κ) (v : α)
    (h : (l.map Prod.fst).Nodup) : ((objSet l k v).map Prod.fst).Nodup := by
  rw [keys_objSet]
  split
  · exact h
  · rename_i hk
    exact List.Nodup.append h (List.nodup_singleton k) (by simpa using hk)

theorem mem_of_lookup {κ α : Type} [DecidableEq κ] (l : List (κ × α)) (k : κ) (v : α)
    (h : l.lookup k = some v) : (k, v) ∈ l := by
  induction l with
  | nil => simp [List.lookup] at h
  | cons x r ih =>
    obtain ⟨k0, v0⟩ := x
    by_cases hk : k = k0
    · subst hk
      simp [List.lookup] at h
      simp [h]
    · have hb : (k == k0) = false := by simpa using hk
      simp only [List.lookup, hb] at h
      exact List.mem_cons_of_mem _ (ih h)

theorem lookup_of_mem {κ α : Type} [DecidableEq κ] (l : List (κ × α)) (k : κ) (v : α)
    (hn : (l.map Prod.fst).Nodup) (h : (k, v) ∈ l) : l.lookup k = some v := by
  induction l with
  | nil => simp at h
  | cons x r ih =>
    obtain ⟨k0, v0⟩ := x
    simp only [List.map_cons, List.nodup_cons] at hn
    rcases List.mem_cons.mp h with h1 | h2
    · injection h1 with h1 h3
      subst h1 h3
      simp [List.lookup]
    · have hk : k ≠ k0 := by
        intro hk
        exact hn.1 (List.mem_map.mpr ⟨(k, v), h2, hk⟩)
      have hb : (k == k0) = false := by simpa using hk
      simp only [List.lookup, hb]
      exact ih hn.2 h2

theorem wellKeyed_objSet (vfs : Vfs) (snap : String) (o : Snapshot) (hw : WellKeyed vfs)
    (ho : (o.map Prod.fst).Nodup) : WellKeyed (objSet vfs snap o) := by
  refine ⟨nodup_keys_objSet vfs snap o hw.1, ?_⟩
  intro e he
  rcases mem_objSet vfs snap o e he with h | h
  · exact hw.2 e h
  · rw [h]; exact ho

theorem wellKeyed_initVfs (stripe : List Task) : WellKeyed (initVfs stripe) := by
  have step : ∀ (l : List Task) (vfs : Vfs), WellKeyed vfs → WellKeyed (l.foldl initVfsStep vfs) := by
    intro l
    induction l with
    | nil => intro vfs h; exact h
    | cons t r ih =>
      intro vfs h
      apply ih
      unfold initVfsStep
      split
      · exact h
      · split
        · exact h
        · exact wellKeyed_objSet vfs t.snap [] h (by simp)
  exact step stripe [] ⟨by simp, by simp⟩

theorem wellKeyed_vfsPut (vfs : Vfs) (snap : String) (store : Store) (r : Record)
    (hw : WellKeyed vfs) : WellKeyed (vfsPut vfs snap store r) := by
  unfold vfsPut
  cases h : vfs.lookup snap with
  | none => exact hw
  | some o =>
    exact wellKeyed_objSet vfs snap _ hw
      (nodup_keys_objSet o store r (hw.2 (snap, o) (mem_of_lookup vfs snap o h)))

theorem wellKeyed_recordAll (es : List (Task × Nat)) :
    ∀ (vfs : Vfs) (pos : Nat), WellKeyed vfs → WellKeyed (recordAll vfs pos es) := by
  induction es with
  | nil => intro vfs pos h; exact h
  | cons e r ih =>
    intro vfs pos h
    obtain ⟨t, n⟩ := e
    exact ih _ _ (wellKeyed_vfsPut vfs t.snap t.store (pos, n) h)

theorem mem_recordKeys_iff (vfs : Vfs) (hw : WellKeyed vfs) (snap : String) (store : Store) :
    (snap, store) ∈ recordKeys vfs ↔ (vfsGet vfs snap store).isSome = true := by
  unfold recordKeys vfsGet
  simp only [List.mem_flatMap, List.mem_map, Prod.mk.injEq]
  constructor
  · rintro ⟨e, he, r, hr, h1, h2⟩
    obtain ⟨s, o⟩ := e
    obtain ⟨k, v⟩ := r
    simp only at h1 h2
    subst h1 h2
    rw [lookup_of_mem vfs s o hw.1 he]
    simp only
    rw [lookup_of_mem o k v (hw.2 (s, o) he) hr]
    rfl
  · intro h
    cases ho : vfs.lookup snap with
    | none => rw [ho] at h; simp at h
    | some o =>
      rw [ho] at h
      simp only at h
      obtain ⟨v, hv⟩ := Option.isSome_iff_exists.mp h
      exact ⟨(snap, o), mem_of_lookup vfs snap o ho, (store, v), mem_of_lookup o store v hv,
        rfl, rfl⟩

theorem nodup_recordKeys (vfs : Vfs) (hw : WellKeyed vfs) : (recordKeys vfs).Nodup := by
  unfold recordKeys
  rw [List.nodup_flatMap]
  constructor
  · intro e he
    have := hw.2 e he
    have hmap : e.2.map (fun r => (e.1, r.1)) = (e.2.map Prod.fst).map (fun k => (e.1, k)) := by
      simp [List.map_map]
    rw [hmap]
    exact this.map (fun a b hab => by injection hab)
  · have hp := List.pairwise_map.mp hw.1
    refine hp.imp ?_
    intro a b hab
    simp only [Function.onFun]
    rw [List.disjoint_left]
    intro x hxa hxb
    obtain ⟨ra, -, hra⟩ := List.mem_map.mp hxa
    obtain ⟨rb, -, hrb⟩ := List.mem_map.mp hxb
    rw [← hrb] at hra
    injection hra with h1 _
    exact hab h1


theorem sum_objSet_fresh {κ α : Type} [DecidableEq κ] (f : κ × α → Nat) (l : List (κ × α))
    (k : κ) (v : α) (h : l.lookup k = none) :
    ((objSet l k v).map f).sum = (l.map f).sum + f (k, v) := by
  induction l with
  | nil => simp [objSet]
  | cons x r ih =>
    obtain ⟨k0, v0⟩ := x
    by_cases hk : k = k0
    · subst hk; simp [List.lookup] at h
    · have hb : (k == k0) = false := by simpa using hk
      have hk' : ¬ k0 = k := fun e => hk e.symm
      simp only [List.lookup, hb] at h
      simp only [objSet, hk', if_false, List.map_cons, List.sum_cons, ih h]
      omega

theorem sum_objSet_replace {κ α : Type} [DecidableEq κ] (g : α → Nat) (l : List (κ × α))
    (k : κ) (v old : α) (h : l.lookup k = some old) :
    ((objSet l k v).map (fun e => g e.2)).sum + g old
      = (l.map (fun e => g e.2)).sum + g v := by
  induction l with
  | nil => simp [List.lookup] at h
  | cons x r ih =>
    obtain ⟨k0, v0⟩ := x
    by_cases hk : k = k0
    · subst hk
      simp [List.lookup] at h
      subst h
      simp only [objSet, if_true, List.map_cons, List.sum_cons]
      omega
    · have hb : (k == k0) = false := by simpa using hk
      have hk' : ¬ k0 = k := fun e => hk e.symm
      simp only [List.lookup, hb] at h
      have := ih h
      simp only [objSet, hk', if_false, List.map_cons, List.sum_cons]
      omega

theorem recordedTotal_vfsPut_fresh (vfs : Vfs) (snap : String) (store : Store) (r : Record)
    (hown : (vfs.lookup snap).isSome = true) (hfresh : vfsGet vfs snap store = none) :
    recordedTotal (vfsPut vfs snap store r) = recordedTotal vfs + r.2 := by
  unfold vfsPut
  unfold vfsGet at hfresh
  cases ho : vfs.lookup snap with
  | none => rw [ho] at hown; simp at hown
  | some o =>
    rw [ho] at hfresh
    simp only at hfresh ⊢
    have h1 := sum_objSet_fresh (fun e : Store × Record => e.2.2) o store r hfresh
    have h2 := sum_objSet_replace (fun o : Snapshot => (o.map (fun r => r.2.2)).sum) vfs snap
      (objSet o store r) o ho
    unfold recordedTotal
    simp only at h1 h2
    omega

theorem recordedTotal_recordAll (es : List (Task × Nat)) :
    ∀ (vfs : Vfs) (pos : Nat), (es.map (fun e => keyOf e.1)).Nodup →
      (∀ e ∈ es, (vfs.lookup e.1.snap).isSome = true ∧ vfsGet vfs e.1.snap e.1.store = none) →
      recordedTotal (recordAll vfs pos es) = recordedTotal vfs + (es.map (fun e => e.2)).sum := by
  induction es with
  | nil => intro vfs pos _ _; simp [recordAll]
  | cons e rest ih =>
    intro vfs pos hn h
    obtain ⟨t, n⟩ := e
    simp only [List.map_cons, List.nodup_cons] at hn
    obtain ⟨hown, hfresh⟩ := h (t, n) (by simp)
    rw [recordAll, ih _ _ hn.2, recordedTotal_vfsPut_fresh vfs t.snap t.store (pos, n) hown hfresh]
    · simp only [List.map_cons, List.sum_cons]; omega
    · intro e he
      obtain ⟨hown', hfresh'⟩ := h e (List.mem_cons_of_mem _ he)
      refine ⟨by rw [lookup_vfsPut_isSome]; exact hown', ?_⟩
      rw [vfsGet_vfsPut, if_neg, hfresh']
      rintro ⟨h1, h2, -⟩
      apply hn.1
      exact List.mem_map.mpr ⟨e, he, by simp [keyOf, h1, h2]⟩

theorem snapshots_initVfs (stripe : List Task) : ∀ e ∈ initVfs stripe, e.2 = [] := by
  have step : ∀ (l : List Task) (vfs : Vfs), (∀ e ∈ vfs, e.2 = []) →
      ∀ e ∈ l.foldl initVfsStep vfs, e.2 = [] := by
    intro l
    induction l with
    | nil => intro vfs h; exact h
    | cons t r ih =>
      intro vfs h
      apply ih
      unfold initVfsStep
      split
      · exact h
      · split
        · exact h
        · intro e he
          rcases mem_objSet vfs t.snap [] e he with h' | h'
          · exact h e h'
          · rw [h']
  exact step stripe [] (by simp)

theorem recordedTotal_initVfs (stripe : List Task) : recordedTotal (initVfs stripe) = 0 := by
  unfold recordedTotal
  apply List.sum_eq_zero
  intro x hx
  obtain ⟨e, he, hxe⟩ := List.mem_map.mp hx
  rw [← hxe, snapshots_initVfs stripe e he]
  rfl

theorem recordedTotal_final (stripe : List Task) (bs : List Buffer)
    (hlen : stripe.length = bs.length)
    (hproto : ∀ t ∈ stripe, t.snap ∉ objectPrototypeKeys)
    (hn : (stripe.map keyOf).Nodup) :
    recordedTotal (recordAll (initVfs stripe) 0 (stripe.zip (bs.map List.length)))
      = (bs.map List.length).sum := by
  have hfst : (stripe.zip (bs.map List.length)).map Prod.fst = stripe :=
    List.map_fst_zip _ _ (by simp [hlen])
  have hsnd : (stripe.zip (bs.map List.length)).map (fun e => e.2) = bs.map List.length :=
    List.map_snd_zip _ _ (by simp [hlen])
  rw [recordedTotal_recordAll, recordedTotal_initVfs, hsnd, Nat.zero_add]
  · have : (stripe.zip (bs.map List.length)).map (fun e => keyOf e.1)
        = ((stripe.zip (bs.map List.length)).map Prod.fst).map keyOf := by
      simp [List.map_map]
    rw [this, hfst]; exact hn
  · intro e he
    have hmem : e.1 ∈ stripe := by
      rw [← hfst]; exact List.mem_map.mpr ⟨e, he, rfl⟩
    exact ⟨own_initVfs stripe e.1 hmem (hproto e.1 hmem), vfsGet_initVfs stripe _ _⟩


theorem dup_entries : dupBackpack.stripe.map (entryBytes demoWorld [] demoTarget)
    = [[], [1, 2, 3]].map some := rfl

set_option maxRecDepth 8192 in
theorem dup_preludeBox :
    makePreludeBoxFromPrelude (jsReplace dupBackpack.prelude "%VIRTUAL_FILESYSTEM%"
      (stringifyVfs (recordAll (initVfs dupBackpack.stripe) 0
        (dupBackpack.stripe.zip ([[], [1, 2, 3]].map List.length))))) = .ok dupPreludeBox := by
  rfl

theorem proto_entries : protoBackpack.stripe.map (entryBytes demoWorld [] demoTarget)
    = [[1]].map some := rfl

set_option maxRecDepth 8192 in
theorem proto_preludeBox :
    makePreludeBoxFromPrelude (jsReplace protoBackpack.prelude "%VIRTUAL_FILESYSTEM%"
      (stringifyVfs (recordAll (initVfs protoBackpack.stripe) 0
        (protoBackpack.stripe.zip ([[1]].map List.length))))) = .ok emptyPreludeBox := by
  rfl

/-- C19 (as stated) fails on two runs.  On a stripe whose two entries share
snapshot id and storage kind and whose first entry is empty, the pairs are not
all distinct and yet the single record `[0, 3]` covers the whole payload of 3
bytes.  On a stripe whose only snapshot id is `toString`, the final index
holds no record for the pair of the entry. -/
theorem single_record_counterexample :
    (∃ segments final, producer demoWorld dupBackpack [] demoTarget = .resolved segments final
        ∧ ¬ (dupBackpack.stripe.map keyOf).Nodup
        ∧ final.vfs = [("a", [(Store.CONTENT, (0, 3))])]
        ∧ recordedTotal final.vfs = 3
        ∧ final.payloadPos = 3)
      ∧ (∃ segments final,
          producer demoWorld protoBackpack [] demoTarget = .resolved segments final
        ∧ ("toString", Store.CONTENT) ∈ protoBackpack.stripe.map keyOf
        ∧ final.vfs = []
        ∧ vfsGet final.vfs "toString" Store.CONTENT = none) := by
  constructor
  · obtain ⟨final, hrun, hvfs, -, hpp, -⟩ :=
      producer_resolved demoWorld dupBackpack [] demoTarget _ _ _ _
        demo_stub empty_optionsBox dup_entries dup_preludeBox
    have hv : final.vfs = [("a", [(Store.CONTENT, (0, 3))])] := by rw [hvfs]; decide
    exact ⟨_, final, hrun, by decide, hv, by rw [hv]; decide, by rw [hpp]; decide⟩
  · obtain ⟨final, hrun, hvfs, -⟩ :=
      producer_resolved demoWorld protoBackpack [] demoTarget _ _ _ _
        demo_stub empty_optionsBox proto_entries proto_preludeBox
    have hv : final.vfs = [] := by rw [hvfs]; decide
    exact ⟨_, final, hrun, by decide, hv, by rw [hv]; rfl⟩

theorem lastLen_of_absent (k : String × Store) (es : List (Task × Nat))
    (h : es.any (fun e => decide (keyOf e.1 = k)) = false) : lastLen k es = 0 := by
  induction es with
  | nil => rfl
  | cons e rest ih =>
    obtain ⟨t, n⟩ := e
    simp only [List.any_cons, Bool.or_eq_false_iff, decide_eq_false_iff_not] at h
    rw [lastLen, h.2]
    simp [h.1]

theorem lostBytes_snoc (t : Task) (n : Nat) (es : List (Task × Nat)) :
    lostBytes (es ++ [(t, n)]) = lostBytes es + lastLen (keyOf t) es := by
  induction es with
  | nil => simp [lostBytes, lastLen]
  | cons e rest ih =>
    obtain ⟨t', n'⟩ := e
    rw [List.cons_append, lostBytes, ih, lostBytes, lastLen]
    have hsplit : (rest ++ [(t, n)]).any (fun e => decide (keyOf e.1 = keyOf t'))
        = (rest.any (fun e => decide (keyOf e.1 = keyOf t')) || decide (keyOf t = keyOf t')) := by
      simp [List.any_append]
    rw [hsplit]
    by_cases hk : keyOf t' = keyOf t
    · cases hany : rest.any (fun e => decide (keyOf e.1 = keyOf t))
      · have h0 := lastLen_of_absent _ _ hany
        simp [hk, hany, h0]
        omega
      · simp [hk, hany]
        omega
    · have hk' : ¬ keyOf t = keyOf t' := fun h => hk h.symm
      rw [decide_eq_false hk', Bool.or_false]
      cases hany : rest.any (fun e => decide (keyOf e.1 = keyOf t))
      · have h0 := lastLen_of_absent _ _ hany
        simp [hk, hk', hany, h0]
      · simp [hk, hk', hany]
        omega

theorem lookup_recordAll_isSome (es : List (Task × Nat)) :
    ∀ (vfs : Vfs) (pos : Nat) (s : String),
      ((recordAll vfs pos es).lookup s).isSome = (vfs.lookup s).isSome := by
  induction es with
  | nil => intro vfs pos s; rfl
  | cons e rest ih =>
    intro vfs pos s
    obtain ⟨t, n⟩ := e
    rw [recordAll, ih, lookup_vfsPut_isSome]

theorem vfsGet_recordAll_len (k : String × Store) (es : List (Task × Nat)) :
    ∀ (vfs : Vfs) (pos : Nat), (∀ e ∈ es, (vfs.lookup e.1.snap).isSome = true) →
      (vfsGet (recordAll vfs pos es) k.1 k.2).map (fun r => r.2)
        = if es.any (fun e => decide (keyOf e.1 = k)) then some (lastLen k es)
          else (vfsGet vfs k.1 k.2).map (fun r => r.2) := by
  induction es with
  | nil => intro vfs pos _; simp [recordAll]
  | cons e rest ih =>
    intro vfs pos hown
    obtain ⟨t, n⟩ := e
    have hown' : ∀ e ∈ rest, ((vfsPut vfs t.snap t.store (pos, n)).lookup e.1.snap).isSome = true := by
      intro e he
      rw [lookup_vfsPut_isSome]
      exact hown e (List.mem_cons_of_mem _ he)
    have ht := hown (t, n) (by simp)
    rw [recordAll, ih _ _ hown', lastLen, vfsGet_vfsPut]
    cases hany : rest.any (fun e => decide (keyOf e.1 = k))
    · by_cases hk : keyOf t = k
      · have h1 : k.1 = t.snap := by rw [← hk]; rfl
        have h2 : k.2 = t.store := by rw [← hk]; rfl
        simp [hk, h1, h2, ht]
      · have h3 : ¬ (k.1 = t.snap ∧ k.2 = t.store ∧ (vfs.lookup t.snap).isSome = true) := by
          rintro ⟨h1, h2, -⟩
          apply hk
          unfold keyOf
          rw [← h1, ← h2]
        rw [if_neg h3]
        simp [hk, hany, decide_eq_false hk]
    · simp [hany]

theorem recordedTotal_vfsPut_replace (vfs : Vfs) (snap : String) (store : Store) (r old : Record)
    (hold : vfsGet vfs snap store = some old) :
    recordedTotal (vfsPut vfs snap store r) + old.2 = recordedTotal vfs + r.2 := by
  unfold vfsPut
  unfold vfsGet at hold
  cases ho : vfs.lookup snap with
  | none => rw [ho] at hold; simp at hold
  | some o =>
    rw [ho] at hold
    simp only at hold ⊢
    have h1 := sum_objSet_replace (fun r : Record => r.2) o store r old hold
    have h2 := sum_objSet_replace (fun o : Snapshot => (o.map (fun r => r.2.2)).sum) vfs snap
      (objSet o store r) o ho
    unfold recordedTotal
    simp only at h1 h2
    omega

theorem recordedTotal_vfsPut (vfs : Vfs) (snap : String) (store : Store) (r : Record)
    (hown : (vfs.lookup snap).isSome = true) :
    recordedTotal (vfsPut vfs snap store r)
        + ((vfsGet vfs snap store).map (fun r => r.2)).getD 0
      = recordedTotal vfs + r.2 := by
  cases hg : vfsGet vfs snap store with
  | none => simpa using recordedTotal_vfsPut_fresh vfs snap store r hown hg
  | some old => simpa using recordedTotal_vfsPut_replace vfs snap store r old hg

/-- The lengths of the records fall short of the bytes of the entries by the
bytes of the entries that a later entry of the same pair overwrites. -/
theorem recordedTotal_lost (vfs : Vfs) (hfresh : ∀ snap store, vfsGet vfs snap store = none)
    (es : List (Task × Nat)) :
    (∀ e ∈ es, (vfs.lookup e.1.snap).isSome = true) →
      recordedTotal (recordAll vfs 0 es) + lostBytes es
        = recordedTotal vfs + (es.map (fun e => e.2)).sum := by
  induction es using List.reverseRecOn with
  | nil => intro _; simp [recordAll, lostBytes]
  | append_singleton es e ih =>
    intro hown
    obtain ⟨t, n⟩ := e
    have hown' : ∀ e ∈ es, (vfs.lookup e.1.snap).isSome = true :=
      fun e he => hown e (List.mem_append_left _ he)
    have ht : (vfs.lookup t.snap).isSome = true := hown (t, n) (by simp)
    have ih' := ih hown'
    have hput := recordedTotal_vfsPut (recordAll vfs 0 es) t.snap t.store
      (0 + (es.map (fun e => e.2)).sum, n) (by rw [lookup_recordAll_isSome]; exact ht)
    have hlen := vfsGet_recordAll_len (keyOf t) es vfs 0 hown'
    have hold : ((vfsGet (recordAll vfs 0 es) t.snap t.store).map (fun r => r.2)).getD 0
        = lastLen (keyOf t) es := by
      have e1 : (keyOf t).1 = t.snap := rfl
      have e2 : (keyOf t).2 = t.store := rfl
      rw [e1, e2] at hlen
      rw [hlen, hfresh]
      cases hany : es.any (fun e => decide (keyOf e.1 = keyOf t))
      · simp [lastLen_of_absent _ _ hany]
      · simp
    rw [hold] at hput
    rw [recordAll_append, lostBytes_snoc]
    simp only [recordAll, List.map_append, List.map_cons, List.map_nil, List.sum_append,
      List.sum_cons, List.sum_nil] at hput ⊢
    omega

theorem lostBytes_eq_zero (es : List (Task × Nat)) :
    lostBytes es = 0 ↔
      ∀ (i : Nat) (t : Task) (n : Nat), es[i]? = some (t, n) →
        (∃ (j : Nat) (e : Task × Nat), i < j ∧ es[j]? = some e ∧ keyOf e.1 = keyOf t) → n = 0 := by
  induction es with
  | nil => simp [lostBytes]
  | cons e rest ih =>
    obtain ⟨t0, n0⟩ := e
    rw [lostBytes, Nat.add_eq_zero_iff, ih]
    constructor
    · rintro ⟨h0, hrest⟩ i t n hi hex
      rcases i with _ | i
      · simp only [List.getElem?_cons_zero, Option.some.injEq, Prod.mk.injEq] at hi
        obtain ⟨rfl, rfl⟩ := hi
        obtain ⟨j, e, hj, hje, hk⟩ := hex
        rcases j with _ | j
        · omega
        · simp only [List.getElem?_cons_succ] at hje
          have hany : rest.any (fun e => decide (keyOf e.1 = keyOf t0)) = true :=
            List.any_eq_true.mpr ⟨e, List.getElem?_mem hje, by simpa using hk⟩
          rw [hany] at h0
          simpa using h0
      · simp only [List.getElem?_cons_succ] at hi
        apply hrest i t n hi
        obtain ⟨j, e, hj, hje, hk⟩ := hex
        rcases j with _ | j
        · omega
        · simp only [List.getElem?_cons_succ] at hje
          exact ⟨j, e, by omega, hje, hk⟩
    · intro h
      constructor
      · cases hany : rest.any (fun e => decide (keyOf e.1 = keyOf t0))
        · simp
        · simp only [if_true]
          obtain ⟨e, he, hk⟩ := List.any_eq_true.mp hany
          obtain ⟨j, hj⟩ := List.getElem?_of_mem he
          exact h 0 t0 n0 (by simp) ⟨j + 1, e, by omega, by simpa using hj, by simpa using hk⟩
      · intro i t n hi hex
        apply h (i + 1) t n (by simpa using hi)
        obtain ⟨j, e, hj, hje, hk⟩ := hex
        exact ⟨j + 1, e, by omega, by simpa using hje, hk⟩

theorem overwrite_entries : overwriteBackpack.stripe.map (entryBytes demoWorld [] demoTarget)
    = [[1, 2], [1, 2, 3]].map some := rfl

set_option maxRecDepth 8192 in
theorem overwrite_preludeBox :
    makePreludeBoxFromPrelude (jsReplace overwriteBackpack.prelude "%VIRTUAL_FILESYSTEM%"
      (stringifyVfs (recordAll (initVfs overwriteBackpack.stripe) 0
        (overwriteBackpack.stripe.zip ([[1, 2], [1, 2, 3]].map List.length)))))
      = .ok overwritePreludeBox := by
  rfl

/-- The lengths of the records of the final index add up to the bytes of the
entries exactly when every entry that a later entry of the same pair overwrites
is empty. -/
theorem recordedTotal_final_iff (stripe : List Task) (bs : List Buffer)
    (hlen : stripe.length = bs.length)
    (hproto : ∀ t ∈ stripe, t.snap ∉ objectPrototypeKeys) :
    recordedTotal (recordAll (initVfs stripe) 0 (stripe.zip (bs.map List.length)))
        = (bs.map List.length).sum
      ↔ ∀ (i : Nat) (t : Task) (b : Buffer), stripe[i]? = some t → bs[i]? = some b →
          (∃ (j : Nat) (t' : Task), i < j ∧ stripe[j]? = some t' ∧ keyOf t' = keyOf t) →
          b.length = 0 := by
  have hfst : (stripe.zip (bs.map List.length)).map Prod.fst = stripe :=
    List.map_fst_zip _ _ (by simp [hlen])
  have hsnd : (stripe.zip (bs.map List.length)).map (fun e => e.2) = bs.map List.length :=
    List.map_snd_zip _ _ (by simp [hlen])
  have hown : ∀ e ∈ stripe.zip (bs.map List.length),
      ((initVfs stripe).lookup e.1.snap).isSome = true := by
    intro e he
    have hmem : e.1 ∈ stripe := by
      rw [← hfst]; exact List.mem_map.mpr ⟨e, he, rfl⟩
    exact own_initVfs stripe e.1 hmem (hproto e.1 hmem)
  have htotal := recordedTotal_lost (initVfs stripe) (vfsGet_initVfs stripe)
    (stripe.zip (bs.map List.length)) hown
  rw [recordedTotal_initVfs, hsnd, Nat.zero_add] at htotal
  have hzero : recordedTotal (recordAll (initVfs stripe) 0 (stripe.zip (bs.map List.length)))
        = (bs.map List.length).sum
      ↔ lostBytes (stripe.zip (bs.map List.length)) = 0 := by
    constructor <;> intro h <;> omega
  rw [hzero, lostBytes_eq_zero]
  constructor
  · intro h i t b hti hbi hex
    have hi : (stripe.zip (bs.map List.length))[i]? = some (t, b.length) := by
      rw [List.getElem?_zip_eq_some]
      exact ⟨hti, by simp [hbi]⟩
    apply h i t b.length hi
    obtain ⟨j, t', hj, htj, hk⟩ := hex
    have hjlt : j < bs.length := by
      rw [← hlen]
      by_contra hcon
      rw [List.getElem?_eq_none (by omega)] at htj
      cases htj
    refine ⟨j, (t', (bs[j]).length), hj, ?_, hk⟩
    rw [List.getElem?_zip_eq_some]
    exact ⟨htj, by simp [List.getElem?_eq_getElem hjlt]⟩
  · intro h i t n hi hex
    rw [List.getElem?_zip_eq_some] at hi
    obtain ⟨hti, hni⟩ := hi
    rw [List.getElem?_map] at hni
    cases hbi : bs[i]? with
    | none => rw [hbi] at hni; cases hni
    | some b =>
      rw [hbi] at hni
      simp only [Option.map_some', Option.some.injEq] at hni
      rw [← hni]
      apply h i t b hti hbi
      obtain ⟨j, e, hj, hje, hk⟩ := hex
      obtain ⟨t', n'⟩ := e
      rw [List.getElem?_zip_eq_some] at hje
      exact ⟨j, t', hj, hje.1, hk⟩

/-- C19 (amended): in a run that resolves on a stripe none of whose snapshot
ids is the name of a property inherited from `Object.prototype`, the record
found under the snapshot id and storage kind of an entry that is the last one
with that pair is `[sum of the byte counts of all entries before it, its own
byte count]`; the final index holds exactly one record per pair occurring in
the stripe and none for other pairs; and the lengths of the records add up to
the whole payload exactly when every entry that a later entry of the same pair
overwrites is empty, which is so when all pairs of the stripe are distinct. -/
theorem single_record_per_pair (w : World) (backpack : Backpack) (options : List String)
    (target : Target) (stub obox pbox : Buffer) (bs : List Buffer)
    (hstub : w.createReadStream target.binaryPath = .ok stub)
    (hobox : makeBakeryBoxFromOptions options = .ok obox)
    (hbs : backpack.stripe.map (entryBytes w options target) = bs.map some)
    (hpbox : makePreludeBoxFromPrelude (jsReplace backpack.prelude "%VIRTUAL_FILESYSTEM%"
      (stringifyVfs (recordAll (initVfs backpack.stripe) 0
        (backpack.stripe.zip (bs.map List.length))))) = .ok pbox)
    (hproto : ∀ t ∈ backpack.stripe, t.snap ∉ objectPrototypeKeys) :
    ∃ segments final, producer w backpack options target = .resolved segments final
      ∧ (∀ (i : Nat) (t : Task) (b : Buffer),
          backpack.stripe[i]? = some t → bs[i]? = some b →
          (∀ (j : Nat) (t' : Task), i < j → backpack.stripe[j]? = some t' →
            keyOf t' ≠ keyOf t) →
          vfsGet final.vfs t.snap t.store
            = some (((bs.take i).map List.length).sum, b.length))
      ∧ (recordKeys final.vfs).Nodup
      ∧ (∀ snap store, (snap, store) ∈ recordKeys final.vfs
          ↔ (snap, store) ∈ backpack.stripe.map keyOf)
      ∧ (∀ snap store, (vfsGet final.vfs snap store).isSome = true
          ↔ (snap, store) ∈ backpack.stripe.map keyOf)
      ∧ final.payloadPos = (bs.map List.length).sum
      ∧ (recordedTotal final.vfs = final.payloadPos
          ↔ ∀ (i : Nat) (t : Task) (b : Buffer),
              backpack.stripe[i]? = some t → bs[i]? = some b →
              (∃ (j : Nat) (t' : Task),
                i < j ∧ backpack.stripe[j]? = some t' ∧ keyOf t' = keyOf t) →
              b.length = 0)
      ∧ ((backpack.stripe.map keyOf).Nodup →
          recordedTotal final.vfs = (bs.map List.length).sum
            ∧ recordedTotal final.vfs = final.payloadPos) := by
  obtain ⟨final, hrun, hvfs, -, hpp, -⟩ :=
    producer_resolved w backpack options target stub obox pbox bs hstub hobox hbs hpbox
  have hlen := stripe_length_eq hbs
  have hw : WellKeyed final.vfs := by
    rw [hvfs]; exact wellKeyed_recordAll _ _ _ (wellKeyed_initVfs backpack.stripe)
  have hsome : ∀ snap store, (vfsGet final.vfs snap store).isSome = true
      ↔ (snap, store) ∈ backpack.stripe.map keyOf := by
    intro snap store
    rw [hvfs]
    exact vfsGet_isSome_iff backpack.stripe bs hlen hproto snap store
  have hpp' : final.payloadPos = (bs.map List.length).sum := by rw [hpp]
  refine ⟨_, final, hrun, ?_, nodup_recordKeys final.vfs hw, ?_, hsome, hpp', ?_, ?_⟩
  · intro i t b hti hbi hlast
    rw [hvfs]
    exact recorded_last backpack.stripe bs hlen i t b hti hbi
      (hproto t (List.getElem?_mem hti)) hlast
  · intro snap store
    rw [mem_recordKeys_iff final.vfs hw]
    exact hsome snap store
  · rw [hpp', hvfs]
    exact recordedTotal_final_iff backpack.stripe bs hlen hproto
  · intro hn
    have := recordedTotal_final backpack.stripe bs hlen hproto hn
    rw [← hvfs] at this
    exact ⟨this, by rw [this, hpp]⟩

theorem single_record_per_pair_witness :
    (∃ segments final, producer demoWorld dupBackpack [] demoTarget = .resolved segments final
      ∧ vfsGet final.vfs "a" Store.CONTENT = some (0, 3)
      ∧ (recordKeys final.vfs).Nodup
      ∧ (("a", Store.CONTENT) ∈ recordKeys final.vfs
          ↔ ("a", Store.CONTENT) ∈ dupBackpack.stripe.map keyOf)
      ∧ recordedTotal final.vfs = final.payloadPos)
    ∧ (∃ segments final,
        producer demoWorld overwriteBackpack [] demoTarget = .resolved segments final
      ∧ vfsGet final.vfs "a" Store.CONTENT = some (2, 3)
      ∧ final.payloadPos = 5
      ∧ recordedTotal final.vfs ≠ final.payloadPos) := by
  constructor
  · obtain ⟨segments, final, hrun, hlast, hnodup, hkeys, -, -, hcover, -⟩ :=
      single_record_per_pair demoWorld dupBackpack [] demoTarget _ _ _ _
        demo_stub empty_optionsBox dup_entries dup_preludeBox (by decide)
    refine ⟨segments, final, hrun, ?_, hnodup, hkeys "a" Store.CONTENT, ?_⟩
    · have := hlast 1
        { snap := "a", store := Store.CONTENT, file := none, buffer := some [1, 2, 3] }
        [1, 2, 3] rfl rfl (by
          intro j t' hj ht'
          rcases j with _ | _ | j
          · omega
          · omega
          · simp [dupBackpack] at ht')
      simpa using this
    · apply hcover.mpr
      intro i t b hti hbi hex
      obtain ⟨j, t', hj, htj, -⟩ := hex
      rcases i with _ | i
      · simp at hbi
        rw [hbi]
        rfl
      · rcases j with _ | _ | j
        · omega
        · omega
        · simp [dupBackpack] at htj
  · obtain ⟨segments, final, hrun, hlast, -, -, -, hpp, hcover, -⟩ :=
      single_record_per_pair demoWorld overwriteBackpack [] demoTarget _ _ _ _
        demo_stub empty_optionsBox overwrite_entries overwrite_preludeBox (by decide)
    refine ⟨segments, final, hrun, ?_, by rw [hpp]; rfl, ?_⟩
    · have := hlast 1
        { snap := "a", store := Store.CONTENT, file := none, buffer := some [1, 2, 3] }
        [1, 2, 3] rfl rfl (by
          intro j t' hj ht'
          rcases j with _ | _ | j
          · omega
          · omega
          · simp [overwriteBackpack] at ht')
      simpa using this
    · intro hcov
      have := hcover.mp hcov 0
        { snap := "a", store := Store.CONTENT, file := none, buffer := some [1, 2] }
        [1, 2] rfl rfl
        ⟨1, { snap := "a", store := Store.CONTENT, file := none, buffer := some [1, 2, 3] },
          by omega, rfl, rfl⟩
      simp at this

theorem dollar_entries : dollarBackpack.stripe.map (entryBytes demoWorld [] demoTarget)
    = [[1, 2, 3]].map some := rfl

set_option maxRecDepth 8192 in
theorem dollar_preludeBox :
    makePreludeBoxFromPrelude (jsReplace dollarBackpack.prelude "%VIRTUAL_FILESYSTEM%"
      (stringifyVfs (recordAll (initVfs dollarBackpack.stripe) 0
        (dollarBackpack.stripe.zip ([[1, 2, 3]].map List.length))))) = .ok dollarPreludeBox := by
  rfl

set_option maxRecDepth 8192 in
theorem dollar_body :
    stringifyVfs [("$&", [(Store.CONTENT, (0, 3))])]
        = "\x7b\x22$&\x22:\x7b\x22CONTENT\x22:[0,3]\x7d\x7d"
      ∧ dollarPreludeBox.drop 16 ≠ Buffer.from (prepend
          ++ ("run(" ++ stringifyVfs [("$&", [(Store.CONTENT, (0, 3))])] ++ ")") ++ append)
      ∧ (dollarPreludeBox.drop 16).length
          = (Buffer.from prepend).length + (Buffer.from dollarBackpack.prelude).length
            - (Buffer.from "%VIRTUAL_FILESYSTEM%").length
            + (Buffer.from (stringifyVfs [("$&", [(Store.CONTENT, (0, 3))])])).length
            + (Buffer.from append).length + 18 := by
  decide

/-- C20: on the stripe with the single snapshot id `$&` and the template
`run(%VIRTUAL_FILESYSTEM%)`, which holds the token once, the text that takes
the place of the token is not the JSON serialization of the index: the `$&` of
the serialization is expanded to the token itself, so the body of the prelude
box is 18 bytes longer than prefix, template without token, serialization and
suffix together. -/
theorem dollar_replacement :
    ∃ segments final box,
      producer demoWorld dollarBackpack [] demoTarget = .resolved segments final
      ∧ segments[7]? = some box
      ∧ stringifyVfs final.vfs = "\x7b\x22$&\x22:\x7b\x22CONTENT\x22:[0,3]\x7d\x7d"
      ∧ box.drop 16 = Buffer.from (prepend
          ++ "run(\x7b\x22%VIRTUAL_FILESYSTEM%\x22:\x7b\x22CONTENT\x22:[0,3]\x7d\x7d)"
          ++ append)
      ∧ box.drop 16 ≠ Buffer.from (prepend ++ ("run(" ++ stringifyVfs final.vfs ++ ")") ++ append)
      ∧ (box.drop 16).length
          = (Buffer.from prepend).length + (Buffer.from dollarBackpack.prelude).length
            - (Buffer.from "%VIRTUAL_FILESYSTEM%").length
            + (Buffer.from (stringifyVfs final.vfs)).length + (Buffer.from append).length + 18 := by
  obtain ⟨final, hrun, hvfs, -⟩ :=
    producer_resolved demoWorld dollarBackpack [] demoTarget _ _ _ _
      demo_stub empty_optionsBox dollar_entries dollar_preludeBox
  have hv : final.vfs = [("$&", [(Store.CONTENT, (0, 3))])] := by rw [hvfs]; decide
  refine ⟨_, final, dollarPreludeBox, hrun, rfl, ?_, rfl, ?_, ?_⟩
  · rw [hv]; exact dollar_body.1
  · rw [hv]; exact dollar_body.2.1
  · rw [hv]; exact dollar_body.2.2

end Producer
